import Mathlib

/-!
# london-sail: the arrivals logic (`src/logic/arrivalslogic.cpp`)

A shallow embedding of `ArrivalsLogic`: the response handlers that decode the
positional JSON arrays of the bus-arrivals feed, and the state they update.

Modelling conventions

* The value of a C++ `double` is a rational (`ℚ`).  An arithmetic operation on
  `double`s gives the `double` nearest to its exact result (`fl`: IEEE 754 binary64,
  round to nearest, ties to even), or an infinity, which is `none`.  A number read
  from JSON may be any rational: that includes every finite `double`.
* A conversion from `double` to `int` whose value does not fit the 32-bit `int`,
  and a dereference of a past-the-end iterator, are undefined behaviour in C++; a
  handler that reaches one returns `none`.
* Iterator arithmetic and comparison are by position: `a.begin() + k >= a.end()`
  is `k ≥ a.size()`.
* Signals emitted and calls made to collaborators are appended to `effects`.
-/

namespace LondonSail

/-! ## Qt values -/

/-- A `QJsonValue`; every number is a `double`. -/
inductive QJsonValue where
  | null
  | bool (b : Bool)
  | double (d : ℚ)
  | string (s : String)
  | array (a : List QJsonValue)
  | object (o : List (String × QJsonValue))
  | undefined

/-- `QJsonValue::toDouble()`: the number, or the default `0` for a value of another type. -/
def QJsonValue.toDouble : QJsonValue → ℚ
  | .double d => d
  | _ => 0

/-- `QJsonValue::toString()`: the string, or the null `QString` (which compares equal
to the empty string) for a value of another type. -/
def QJsonValue.toString : QJsonValue → String
  | .string s => s
  | _ => ""

/-- `QJsonValue::isNull()`. -/
def QJsonValue.isNull : QJsonValue → Bool
  | .null => true
  | _ => false

/-- A `QJsonDocument` as `QJsonDocument::fromJson` builds it from one line of the
body: an array document, an object document, or the null document of a line that
does not parse. -/
inductive QJsonDocument where
  | ofArray (a : List QJsonValue)
  | ofObject (o : List (String × QJsonValue))
  | invalid

/-- `QJsonDocument::isArray()`. -/
def QJsonDocument.isArray : QJsonDocument → Bool
  | .ofArray _ => true
  | _ => false

/-- `QJsonDocument::array()`: the array, or an empty array when the document does
not hold one. -/
def QJsonDocument.array : QJsonDocument → List QJsonValue
  | .ofArray a => a
  | _ => []

/-- The element `*(a.begin() + k)` of a `QJsonArray`. -/
def elem (a : List QJsonValue) (k : Nat) : QJsonValue :=
  a.getD k QJsonValue.undefined

/-- The value of `std::round` (declared in `cmath`): the nearest integer, halfway
cases going away from zero. -/
def roundInt (x : ℚ) : Int :=
  if 0 ≤ x then ⌊x + 1 / 2⌋ else -⌊-x + 1 / 2⌋

/-- The function `std::round`, whose result is again a `double`. -/
def std_round (x : ℚ) : ℚ := (roundInt x : ℚ)

/-- Truncation toward zero. -/
def truncate (x : ℚ) : Int :=
  if 0 ≤ x then ⌊x⌋ else ⌈x⌉

def INT_MIN : Int := -2147483648

def INT_MAX : Int := 2147483647

/-- Implicit conversion of a `double` to `int`: the fractional part is
discarded; the behaviour is undefined when the truncated value cannot be
represented in `int`. -/
@[irreducible]
def toInt (x : ℚ) : Option Int :=
  if INT_MIN ≤ truncate x ∧ truncate x ≤ INT_MAX then some (truncate x) else none

/-- Rounding to the nearest integer, a halfway case going to the even one: the
rounding of IEEE 754 arithmetic in its default mode. -/
def roundHalfEven (q : ℚ) : Int :=
  if q - ⌊q⌋ < 1 / 2 then ⌊q⌋
  else if 1 / 2 < q - ⌊q⌋ then ⌊q⌋ + 1
  else if ⌊q⌋ % 2 = 0 then ⌊q⌋ else ⌊q⌋ + 1

/-- The exponent of the spacing of the `double` values (IEEE 754 binary64: 53
significant bits, least exponent -1074) around `x`. -/
def ulpExponent (x : ℚ) : Int := max (Int.log 2 |x| - 52) (-1074)

/-- The `double` nearest to `x`, were the exponent unbounded above. -/
def nearestDouble (x : ℚ) : ℚ :=
  (roundHalfEven (x / 2 ^ ulpExponent x) : ℚ) * 2 ^ ulpExponent x

/-- The `double` that an arithmetic operation with the exact result `x` gives: the
nearest `double`, or `none` when that is beyond the largest finite one and the
operation gives an infinity. -/
@[irreducible]
def fl (x : ℚ) : Option ℚ :=
  if |nearestDouble x| < 2 ^ 1024 then some (nearestDouble x) else none

/-- `QString::number(double)` with its default arguments (format `g`, precision 6).
An integral value of at most six digits is printed as its plain decimal numeral;
every other value is printed by `formatG`, the rest of the `g` format, which is
kept abstract. -/
def QString.number (formatG : ℚ → String) (d : ℚ) : String :=
  if d.den = 1 ∧ |d.num| < 1000000 then toString d.num else formatG d

/-- A `QMultiMap<int, QString>`: the items in iteration order, ascending by key. -/
abbrev QMultiMap := List (Int × String)

/-- `QMultiMap::insert`: a new item is added; among items of an equal key the
new one comes first in iteration order. -/
def QMultiMap.insert (k : Int) (v : String) : QMultiMap → QMultiMap
  | [] => [(k, v)]
  | (k0, v0) :: t => if k0 < k then (k0, v0) :: QMultiMap.insert k v t else (k, v) :: (k0, v0) :: t

/-- `QMap::values(key)`: the values stored under `key`, from the most recently
inserted to the least recently inserted. -/
def QMultiMap.values (m : QMultiMap) (k : Int) : List String :=
  (m.filter (fun kv => decide (kv.1 = k))).map Prod.snd

/-! ## Entities -/

/-- The struct `Vehicle` of `arrivals/vehicle.h`. -/
structure Vehicle where
  id : String
  line : String
  destination : String
  eta : Int
  towards : String
  platform : String
  type : Int
deriving DecidableEq, Repr

/-- The enumeration `Stop::Type`. -/
inductive StopType where
  | None
  | Bus
  | River
deriving DecidableEq, Repr

/-- Modelled from the spec: the class `Stop` (`arrivals/stop.h` is not among the
sources), with the fields of the spec's data model; each setter used by
`ArrivalsLogic` overwrites the field it names. -/
structure Stop where
  id : String
  name : String
  towards : String
  indicator : String
  latitude : ℚ
  longitude : ℚ
  type : StopType
deriving DecidableEq

def Stop.setID (s : Stop) (v : String) : Stop := { s with id := v }

def Stop.setName (s : Stop) (v : String) : Stop := { s with name := v }

def Stop.setTowards (s : Stop) (v : String) : Stop := { s with towards := v }

def Stop.setStopPointIndicator (s : Stop) (v : String) : Stop := { s with indicator := v }

def Stop.setLatitude (s : Stop) (v : ℚ) : Stop := { s with latitude := v }

def Stop.setLongitude (s : Stop) (v : ℚ) : Stop := { s with longitude := v }

def Stop.setType (s : Stop) (v : StopType) : Stop := { s with type := v }

/-- Modelled from the spec: the `ArrivalsContainer` (its source is not among the
sources): an ordered collection of vehicles; `add` appends one, `replace` takes over
the whole contents of another container, `clearData` empties it. -/
structure ArrivalsContainer where
  data : List Vehicle
deriving DecidableEq, Repr

def ArrivalsContainer.add (c : ArrivalsContainer) (v : Vehicle) : ArrivalsContainer :=
  { data := c.data ++ [v] }

def ArrivalsContainer.replace (_ : ArrivalsContainer) (other : ArrivalsContainer) :
    ArrivalsContainer := { data := other.data }

def ArrivalsContainer.clearData (_ : ArrivalsContainer) : ArrivalsContainer := { data := [] }

/-- Modelled from the spec: `Stop::addToDb()` (`arrivals/stop.h` is not among the
sources) persists the stop in the stops store; the store is the sequence of the stops
handed to it. -/
def Stop.addToDb (stop : Stop) (db : List Stop) : List Stop := db ++ [stop]

/-- Modelled from the spec: the `JourneyProgressContainer` (its source is not among
the sources): the server time and the ordered (stop name, eta) entries, replaced as a
whole. -/
structure JourneyProgressContainer where
  time : ℚ
  data : List (String × ℚ)
deriving DecidableEq

def JourneyProgressContainer.setTime (c : JourneyProgressContainer) (t : ℚ) :
    JourneyProgressContainer := { c with time := t }

def JourneyProgressContainer.refreshData (c : JourneyProgressContainer)
    (l : List (String × ℚ)) : JourneyProgressContainer := { c with data := l }

def JourneyProgressContainer.clear (c : JourneyProgressContainer) :
    JourneyProgressContainer := { c with data := [] }

/-- A `QTimer`: whether it runs, and its interval in milliseconds. -/
structure QTimer where
  active : Bool
  interval : Nat
deriving DecidableEq, Repr

def QTimer.start (_ : QTimer) (msec : Nat) : QTimer := { active := true, interval := msec }

def QTimer.stop (t : QTimer) : QTimer := { t with active := false }

/-- What `ArrivalsLogic` does to the outside: the signals it emits and the calls it
makes to its collaborators, in order. -/
inductive Effect where
  | downloadStateChanged
  | currentStopMessagesChanged
  | stopDataChanged
  | stopUpdated
  | showStops (type : StopType)
  | get (url : String)
  | mkpath (path : String)
  | writeFile (path : String) (content : String)
  | importStations
deriving DecidableEq, Repr

/-- What the sources use but do not define: the value built by the constructor
`Vehicle()`, the value built by the constructor `Stop(databaseManager)`, the effect
of `Stop::clear()` on a stop, and the part of the `g` number format left abstract in
`QString.number`. -/
structure Deps where
  newVehicle : Vehicle
  newStop : Stop
  clearStop : Stop → Stop
  formatG : ℚ → String

/-- The members of `ArrivalsLogic`.  `stopsDb` is the stops store behind the
`DatabaseManager`. -/
structure ArrivalsLogic where
  arrivalsContainer : ArrivalsContainer := { data := [] }
  journeyProgressContainer : JourneyProgressContainer := { time := 0, data := [] }
  currentStop : Stop
  currentStopMessages : String := ""
  currentBusDirectionId : String := ""
  currentVehicleId : String := ""
  currentVehicleLine : String := ""
  currentDestination : String := ""
  downloadingArrivals : Bool := false
  downloadingJourneyProgress : Bool := false
  downloadingListOfStops : Bool := false
  downloadingStop : Bool := false
  arrivalsTimer : QTimer := { active := false, interval := 0 }
  journeyProgressTimer : QTimer := { active := false, interval := 0 }
  displayTimer : QTimer := { active := false, interval := 0 }
  stopsDb : List Stop := []
  effects : List Effect := []

/-- A `QNetworkReply*`: null, or the reply whose body has the given lines, each
already passed through `QJsonDocument::fromJson`. -/
abbrev QNetworkReply := Option (List QJsonDocument)

/-- `ArrivalsLogic::makeDocument`. -/
def makeDocument : QNetworkReply → List QJsonDocument
  | some lines => lines
  | none => []

/-! ## Arrivals -/

/-- The body of the loop of `onArrivalsDataReceived` after its length check: the
direction id it caches and the `Vehicle` it adds, for the data array `a`.  The
subtraction and the two divisions are `double` operations, each rounded; an
infinite `inMins` has no `int` to be converted to, like a finite one out of range. -/
def arrivalsRecord (deps : Deps) (currentTime : ℚ) (a : List QJsonValue) :
    Option (String × Vehicle) :=
  let bus := deps.newVehicle
  let bus := { bus with line := (elem a 1).toString }
  let directionId := QString.number deps.formatG (elem a 2).toDouble
  let bus := { bus with destination := (elem a 3).toString }
  let bus := { bus with id := (elem a 4).toString }
  match fl ((elem a 5).toDouble - currentTime) with
  | none => none
  | some delta =>
    match fl (delta / 1000) with
    | none => none
    | some inSec =>
      match fl (inSec / 60) with
      | none => none
      | some inMins =>
        match toInt (std_round inMins) with
        | none => none
        | some eta => some (directionId, { bus with eta := eta })

/-- The loop of `onArrivalsDataReceived` over the data arrays: the cached direction
id and the temporary container as they stand when the loop ends. -/
def arrivalsLoop (deps : Deps) (currentTime : ℚ) :
    List QJsonDocument → String → ArrivalsContainer → Option (String × ArrivalsContainer)
  | [], directionId, tempContainer => some (directionId, tempContainer)
  | d :: rest, directionId, tempContainer =>
    if 5 ≥ d.array.length then some (directionId, tempContainer)
    else
      match arrivalsRecord deps currentTime d.array with
      | none => none
      | some r => arrivalsLoop deps currentTime rest r.1 (tempContainer.add r.2)

/-- `ArrivalsLogic::onArrivalsDataReceived`.  With no line in the body `first` is
the past-the-end iterator and `first->array()` is undefined. -/
def ArrivalsLogic.onArrivalsDataReceived (deps : Deps) (s : ArrivalsLogic)
    (reply_arrivals : QNetworkReply) : Option ArrivalsLogic :=
  let s := { s with downloadingArrivals := false,
                    effects := s.effects ++ [Effect.downloadStateChanged] }
  match makeDocument reply_arrivals with
  | [] => none
  | first :: rest =>
    if 2 ≥ first.array.length then some s
    else
      let currentTime := (elem first.array 2).toDouble
      match arrivalsLoop deps currentTime rest s.currentBusDirectionId { data := [] } with
      | none => none
      | some (directionId, tempContainer) =>
        some { s with currentBusDirectionId := directionId,
                      arrivalsContainer := s.arrivalsContainer.replace tempContainer }

/-! ## Journey progress -/

/-- The loop of `onBusProgressReceived` over the data arrays. -/
def progressLoop : List QJsonDocument → List (String × ℚ) → List (String × ℚ)
  | [], list => list
  | d :: rest, list =>
    if 2 ≥ d.array.length then list
    else progressLoop rest (list ++ [((elem d.array 1).toString, (elem d.array 2).toDouble)])

/-- `ArrivalsLogic::onBusProgressReceived`. -/
def ArrivalsLogic.onBusProgressReceived (s : ArrivalsLogic)
    (reply_journeyProgress : QNetworkReply) : ArrivalsLogic :=
  let s := { s with downloadingJourneyProgress := false,
                    effects := s.effects ++ [Effect.downloadStateChanged] }
  match makeDocument reply_journeyProgress with
  | [] => s
  | first :: rest =>
    if 2 ≥ first.array.length then s
    else
      let serverTime := (elem first.array 2).toDouble
      let list := progressLoop rest []
      { s with journeyProgressContainer :=
                 (s.journeyProgressContainer.setTime serverTime).refreshData list }

/-! ## Stop detail -/

/-- `ArrivalsLogic::onBusStopDataReceived`. -/
def ArrivalsLogic.onBusStopDataReceived (s : ArrivalsLogic)
    (reply_busStop : QNetworkReply) : ArrivalsLogic :=
  let s := { s with downloadingStop := false,
                    effects := s.effects ++ [Effect.downloadStateChanged] }
  match makeDocument reply_busStop with
  | [] => s
  | [_] => s
  | _ :: dataArray :: _ =>
    if dataArray.isArray then
      if 6 ≥ dataArray.array.length then s
      else
        let stop := s.currentStop
        let stop := stop.setName (elem dataArray.array 1).toString
        let stop := stop.setTowards (elem dataArray.array 3).toString
        let stop := stop.setStopPointIndicator (elem dataArray.array 4).toString
        let stop := stop.setLatitude (elem dataArray.array 5).toDouble
        let stop := stop.setLongitude (elem dataArray.array 6).toDouble
        let stop :=
          if (elem dataArray.array 2).toString = "SLRS" then stop.setType StopType.River
          else stop.setType StopType.Bus
        { s with currentStop := stop,
                 effects := s.effects ++ [Effect.stopUpdated, Effect.stopDataChanged] }
    else s

/-! ## Stop messages -/

/-- The loop of `onBusStopMessageReceived` over the message records. -/
def messagesLoop (serverTime : ℚ) : List QJsonDocument → QMultiMap → Option QMultiMap
  | [], messages => some messages
  | d :: rest, messages =>
    if 4 < d.array.length then
      match toInt (elem d.array 1).toDouble with
      | none => none
      | some priority =>
        let text := (elem d.array 2).toString
        let startTime := (elem d.array 3).toDouble
        let expireTime := (elem d.array 4).toDouble
        if startTime ≤ serverTime ∧ expireTime ≥ serverTime then
          messagesLoop serverTime rest (QMultiMap.insert priority text messages)
        else messagesLoop serverTime rest messages
    else some messages

/-- The inner loop of `fillCurrentStopMessages`: each message is appended after the
marker. -/
def appendMessages : String → List String → String
  | text, [] => text
  | text, m :: ms => appendMessages ((text ++ " * ") ++ m) ms

/-- `ArrivalsLogic::fillCurrentStopMessages`. -/
def ArrivalsLogic.fillCurrentStopMessages (s : ArrivalsLogic) (map : QMultiMap) :
    ArrivalsLogic :=
  let text := ([0, 1, 2, 3, 4, 5] : List Int).foldl
    (fun text index => appendMessages text (QMultiMap.values map index))
    s.currentStopMessages
  { s with currentStopMessages := text,
           effects := s.effects ++ [Effect.currentStopMessagesChanged] }

/-- `ArrivalsLogic::onBusStopMessageReceived`. -/
def ArrivalsLogic.onBusStopMessageReceived (s : ArrivalsLogic)
    (reply_busStopMessage : QNetworkReply) : Option ArrivalsLogic :=
  match makeDocument reply_busStopMessage with
  | [] => some s
  | first :: rest =>
    let versionArray := first.array
    if 2 < versionArray.length then
      let serverTime := (elem versionArray 2).toDouble
      match messagesLoop serverTime rest [] with
      | none => none
      | some messages => some (s.fillCurrentStopMessages messages)
    else some s

/-! ## Stop list -/

/-- The `Stop` that the loop of `onListOfBusStopsReceived` builds from the data
array `a`. -/
def stopOfRecord (deps : Deps) (a : List QJsonValue) : Stop :=
  let stop := deps.newStop
  let stop := stop.setName (elem a 1).toString
  let stop := stop.setID (elem a 2).toString
  let stop := stop.setTowards (elem a 4).toString
  let stop := stop.setStopPointIndicator (elem a 5).toString
  let stop := stop.setLatitude (elem a 6).toDouble
  let stop := stop.setLongitude (elem a 7).toDouble
  let stopPointType := (elem a 3).toString
  if stopPointType = "SLRS" then stop.setType StopType.River
  else stop.setType StopType.Bus

/-- The condition under which the loop of `onListOfBusStopsReceived` calls
`stop.addToDb()`. -/
def addsToDb (a : List QJsonValue) : Bool :=
  let stopPointType := (elem a 3).toString
  if stopPointType = "STBR" ∨ stopPointType = "STBC" ∨ stopPointType = "SRVA" ∨
     stopPointType = "STZZ" ∨ stopPointType = "STBN" ∨ stopPointType = "SLRS" ∨
     stopPointType = "STBS" ∨ stopPointType = "STSS" then
    if !(elem a 2).isNull then true else false
  else false

/-- The loop of `onListOfBusStopsReceived` over the data arrays: the stops store as
it stands when the loop ends. -/
def stopsLoop (deps : Deps) : List QJsonDocument → List Stop → List Stop
  | [], db => db
  | d :: rest, db =>
    if 7 ≥ d.array.length then db
    else
      let stop := stopOfRecord deps d.array
      if addsToDb d.array then stopsLoop deps rest (stop.addToDb db)
      else stopsLoop deps rest db

/-- `ArrivalsLogic::onListOfBusStopsReceived`. -/
def ArrivalsLogic.onListOfBusStopsReceived (deps : Deps) (s : ArrivalsLogic)
    (reply_stops : QNetworkReply) : ArrivalsLogic :=
  let s := { s with downloadingListOfStops := false,
                    effects := s.effects ++ [Effect.downloadStateChanged] }
  let document := makeDocument reply_stops
  let db := stopsLoop deps (document.drop 1) s.stopsDb
  { s with stopsDb := db, effects := s.effects ++ [Effect.showStops StopType.Bus] }

/-! ## Requests, timers and the current stop -/

/-- The member `baseUrl`, as the constructor initialises it. -/
def baseUrl : String := "http://countdown.api.tfl.gov.uk/interfaces/ura/instant_V1?"

/-- `ArrivalsLogic::clearArrivalsData`. -/
def ArrivalsLogic.clearArrivalsData (s : ArrivalsLogic) : ArrivalsLogic :=
  { s with arrivalsContainer := s.arrivalsContainer.clearData }

/-- `ArrivalsLogic::setCurrentVehicleId`. -/
def ArrivalsLogic.setCurrentVehicleId (s : ArrivalsLogic) (id : String) : ArrivalsLogic :=
  { s with currentVehicleId := id }

/-- `ArrivalsLogic::setCurrentVehicleLine`. -/
def ArrivalsLogic.setCurrentVehicleLine (s : ArrivalsLogic) (line : String) : ArrivalsLogic :=
  { s with currentVehicleLine := line }

/-- `ArrivalsLogic::setCurrentDestination`. -/
def ArrivalsLogic.setCurrentDestination (s : ArrivalsLogic) (destination : String) :
    ArrivalsLogic :=
  { s with currentDestination := destination }

/-- `ArrivalsLogic::clearJourneyProgressData`. -/
def ArrivalsLogic.clearJourneyProgressData (s : ArrivalsLogic) : ArrivalsLogic :=
  let s := { s with currentBusDirectionId := "" }
  let s := s.setCurrentVehicleId ""
  { s with journeyProgressContainer := s.journeyProgressContainer.clear }

/-- `ArrivalsLogic::getBusArrivalsByCode`. -/
def ArrivalsLogic.getBusArrivalsByCode (s : ArrivalsLogic) (code : String) : ArrivalsLogic :=
  let stopCode := "StopCode1=" ++ code
  let returnList :=
    "&ReturnList=LineName,DestinationName,EstimatedTime,RegistrationNumber,DirectionID"
  let request := baseUrl ++ stopCode ++ returnList
  { s with downloadingArrivals := true,
           effects := s.effects ++ [Effect.downloadStateChanged, Effect.get request] }

/-- `ArrivalsLogic::getBusProgress`. -/
def ArrivalsLogic.getBusProgress (s : ArrivalsLogic) (registrationNum : String) :
    ArrivalsLogic :=
  let regPart := "RegistrationNumber=" ++ registrationNum
  let directionIDPart := "&DirectionID=" ++ s.currentBusDirectionId
  let returnList := "&ReturnList=StopPointName,EstimatedTime"
  let request := baseUrl ++ regPart ++ directionIDPart ++ returnList
  { s with downloadingJourneyProgress := true,
           effects := s.effects ++ [Effect.downloadStateChanged, Effect.get request] }

/-- `ArrivalsLogic::fetchArrivalsData`. -/
def ArrivalsLogic.fetchArrivalsData (s : ArrivalsLogic) : ArrivalsLogic :=
  match s.currentStop.type with
  | StopType.None => s
  | StopType.Bus => s.getBusArrivalsByCode s.currentStop.id
  | StopType.River => s.getBusArrivalsByCode s.currentStop.id

/-- `ArrivalsLogic::fetchJourneyProgress`. -/
def ArrivalsLogic.fetchJourneyProgress (s : ArrivalsLogic) : ArrivalsLogic :=
  if s.currentVehicleId = "" then s
  else s.getBusProgress s.currentVehicleId

/-- `ArrivalsLogic::clearCurrentStop`. -/
def ArrivalsLogic.clearCurrentStop (deps : Deps) (s : ArrivalsLogic) : ArrivalsLogic :=
  { s with currentStop := deps.clearStop s.currentStop, currentStopMessages := "" }

/-- `ArrivalsLogic::getBusStopByCode`. -/
def ArrivalsLogic.getBusStopByCode (s : ArrivalsLogic) (code : String) : ArrivalsLogic :=
  let s := { s with currentStop := s.currentStop.setID code }
  let stopcode := "StopCode1=" ++ code
  let returnList :=
    "&ReturnList=StopPointName,Towards,StopPointIndicator,StopPointType,Latitude,Longitude"
  let request := baseUrl ++ stopcode ++ returnList
  { s with downloadingStop := true,
           effects := s.effects ++ [Effect.downloadStateChanged, Effect.get request] }

/-- `ArrivalsLogic::getBusStopMessage`. -/
def ArrivalsLogic.getBusStopMessage (s : ArrivalsLogic) (code : String) : ArrivalsLogic :=
  let stopCode := "StopCode1=" ++ code
  let returnList := "&ReturnList=MessagePriority,MessageText,StartTime,ExpireTime"
  let request := baseUrl ++ stopCode ++ returnList
  { s with effects := s.effects ++ [Effect.get request] }

/-- `ArrivalsLogic::getBusStopsByName`. -/
def ArrivalsLogic.getBusStopsByName (s : ArrivalsLogic) (name : String) : ArrivalsLogic :=
  let stopPointName := "StopPointName=" ++ name
  let returnList :=
    "&ReturnList=StopPointName,StopCode1,Towards,StopPointIndicator,StopPointType,Latitude,Longitude"
  let request := baseUrl ++ stopPointName ++ returnList
  { s with downloadingListOfStops := true,
           effects := s.effects ++ [Effect.downloadStateChanged, Effect.get request] }

/-- `ArrivalsLogic::startArrivalsUpdate`. -/
def ArrivalsLogic.startArrivalsUpdate (s : ArrivalsLogic) : ArrivalsLogic :=
  let s := s.fetchArrivalsData
  let s := { s with arrivalsTimer := s.arrivalsTimer.start 30000 }
  { s with displayTimer := s.displayTimer.start 16 }

/-- `ArrivalsLogic::startJourneyProgressUpdate`. -/
def ArrivalsLogic.startJourneyProgressUpdate (s : ArrivalsLogic) : ArrivalsLogic :=
  let s := s.fetchJourneyProgress
  let s := { s with journeyProgressTimer := s.journeyProgressTimer.start 30000 }
  { s with displayTimer := s.displayTimer.start 16 }

/-- `ArrivalsLogic::stopArrivalsUpdate`. -/
def ArrivalsLogic.stopArrivalsUpdate (s : ArrivalsLogic) : ArrivalsLogic :=
  let s := { s with displayTimer := s.displayTimer.stop }
  let s := { s with arrivalsTimer := s.arrivalsTimer.stop }
  s.clearArrivalsData

/-- `ArrivalsLogic::stopJourneyProgressUpdate`. -/
def ArrivalsLogic.stopJourneyProgressUpdate (s : ArrivalsLogic) : ArrivalsLogic :=
  let s := { s with displayTimer := s.displayTimer.stop }
  let s := { s with journeyProgressTimer := s.journeyProgressTimer.stop }
  s.clearJourneyProgressData

/-! ## The station reference download -/

/-- What `onStationsDownloaded` reads from `reply_stations` and from the file system:
the HTTP status code (`attribute(HttpStatusCodeAttribute).toInt()`), the reply's URL
resolved against the redirection target, the body (`readAll()`), the data location
(`QStandardPaths::writableLocation`), whether that directory exists, and whether
`stations.csv` opens for writing. -/
structure StationsReply where
  httpCode : Int
  resolvedUrl : String
  body : String
  dataLocation : String
  dirExists : Bool
  opens : Bool
deriving DecidableEq, Repr

/-- `ArrivalsLogic::onStationsDownloaded`. -/
def ArrivalsLogic.onStationsDownloaded (s : ArrivalsLogic) (reply_stations : StationsReply) :
    ArrivalsLogic :=
  let httpCode := reply_stations.httpCode
  if httpCode > 300 ∧ httpCode < 400 then
    { s with effects := s.effects ++ [Effect.get reply_stations.resolvedUrl] }
  else if httpCode < 300 ∧ httpCode ≥ 200 then
    let path := reply_stations.dataLocation
    let s :=
      if !reply_stations.dirExists then { s with effects := s.effects ++ [Effect.mkpath path] }
      else s
    let path := path ++ "/stations.csv"
    if !reply_stations.opens then s
    else
      { s with effects :=
          s.effects ++ [Effect.writeFile path reply_stations.body, Effect.importStations] }
  else s

/-! ## Requests in flight -/

/-- What can happen to the orchestrator: the calls of the presentation layer, the
timeouts of the two poll timers, and the `finished()` signal of a reply of either
stream.  A `finished` event carries what `makeDocument` then reads from the member
`reply_arrivals` (`reply_journeyProgress`); with one request of the stream in flight
that is the response to it. -/
inductive Event where
  | startArrivalsUpdate
  | startJourneyProgressUpdate
  | arrivalsTimeout
  | journeyProgressTimeout
  | stopArrivalsUpdate
  | stopJourneyProgressUpdate
  | getBusStopByCode (code : String)
  | setCurrentVehicleId (id : String)
  | arrivalsFinished (reply : QNetworkReply)
  | journeyProgressFinished (reply : QNetworkReply)

/-- The number of GET requests in a sequence of effects. -/
def getCount (es : List Effect) : Nat :=
  (es.filter (fun e => match e with
    | Effect.get _ => true
    | _ => false)).length

/-- The orchestrator together with the network: for each stream the number of
requests handed to the `QNetworkAccessManager` whose reply has not finished yet. -/
structure Run where
  logic : ArrivalsLogic
  arrivalsOutstanding : Nat
  journeyProgressOutstanding : Nat

/-- One event.  A request issued by a call joins those in flight of its stream; a
timer fires only while it is active; a reply finishes only if one is in flight, and
its slot then runs. -/
def Run.step (deps : Deps) (r : Run) : Event → Option Run
  | Event.startArrivalsUpdate =>
    let l := r.logic.startArrivalsUpdate
    some { r with logic := l,
                  arrivalsOutstanding :=
                    r.arrivalsOutstanding + (getCount l.effects - getCount r.logic.effects) }
  | Event.startJourneyProgressUpdate =>
    let l := r.logic.startJourneyProgressUpdate
    some { r with logic := l,
                  journeyProgressOutstanding :=
                    r.journeyProgressOutstanding +
                      (getCount l.effects - getCount r.logic.effects) }
  | Event.arrivalsTimeout =>
    if r.logic.arrivalsTimer.active then
      let l := r.logic.fetchArrivalsData
      some { r with logic := l,
                    arrivalsOutstanding :=
                      r.arrivalsOutstanding + (getCount l.effects - getCount r.logic.effects) }
    else none
  | Event.journeyProgressTimeout =>
    if r.logic.journeyProgressTimer.active then
      let l := r.logic.fetchJourneyProgress
      some { r with logic := l,
                    journeyProgressOutstanding :=
                      r.journeyProgressOutstanding +
                        (getCount l.effects - getCount r.logic.effects) }
    else none
  | Event.stopArrivalsUpdate => some { r with logic := r.logic.stopArrivalsUpdate }
  | Event.stopJourneyProgressUpdate => some { r with logic := r.logic.stopJourneyProgressUpdate }
  | Event.getBusStopByCode code => some { r with logic := r.logic.getBusStopByCode code }
  | Event.setCurrentVehicleId id => some { r with logic := r.logic.setCurrentVehicleId id }
  | Event.arrivalsFinished reply =>
    if r.arrivalsOutstanding = 0 then none
    else
      match r.logic.onArrivalsDataReceived deps reply with
      | none => none
      | some l => some { r with logic := l, arrivalsOutstanding := r.arrivalsOutstanding - 1 }
  | Event.journeyProgressFinished reply =>
    if r.journeyProgressOutstanding = 0 then none
    else
      some { r with logic := r.logic.onBusProgressReceived reply,
                    journeyProgressOutstanding := r.journeyProgressOutstanding - 1 }

/-- A sequence of events, one after the other. -/
def Run.steps (deps : Deps) (r : Run) : List Event → Option Run
  | [] => some r
  | e :: es =>
    match r.step deps e with
    | none => none
    | some r1 => r1.steps deps es

/-! ## Definitions used to state the properties -/

/-- Rounding to the nearest integer with halves away from zero, as a relation: `n` is
strictly nearer to `x` than half a unit, or exactly half a unit away on the side
away from zero. -/
def IsRoundHalfAwayFromZero (x : ℚ) (n : Int) : Prop :=
  |(n : ℚ) - x| < 1 / 2 ∨ (|(n : ℚ) - x| = 1 / 2 ∧ |x| < |(n : ℚ)|)

/-- The data arrays that a loop with minimum length `n` reaches: those before the
first one shorter than `n`. -/
def reached (n : Nat) (rest : List QJsonDocument) : List QJsonDocument :=
  rest.takeWhile (fun d => decide (n ≤ d.array.length))

/-- The eta of an arrivals data array at the server time `currentTime`: the
difference of element 5 and the server time, divided by 1000 and then by 60, each of
the three in `double` arithmetic, rounded to an integer with halves away from zero;
`none` when that is no value of the type `int`. -/
def etaOf (currentTime : ℚ) (a : List QJsonValue) : Option Int :=
  match fl ((elem a 5).toDouble - currentTime) with
  | none => none
  | some delta =>
    match fl (delta / 1000) with
    | none => none
    | some inSec =>
      match fl (inSec / 60) with
      | none => none
      | some inMins => toInt (std_round inMins)

/-- The `Vehicle` mapped from an arrivals data array. -/
def vehicleOf (deps : Deps) (currentTime : ℚ) (a : List QJsonValue) : Vehicle :=
  { deps.newVehicle with
    line := (elem a 1).toString
    destination := (elem a 3).toString
    id := (elem a 4).toString
    eta := (etaOf currentTime a).getD 0 }

/-- The direction id that an arrivals data array leaves in the cache. -/
def directionOf (deps : Deps) (a : List QJsonValue) : String :=
  QString.number deps.formatG (elem a 2).toDouble

/-- The cached direction id after the arrivals loop has run over `ds`, starting from
`dir`: that of the last array, or `dir` when there is none. -/
def lastDirection (deps : Deps) (dir : String) (ds : List QJsonDocument) : String :=
  match ds.getLast? with
  | none => dir
  | some d => directionOf deps d.array

/-- The state in which `onArrivalsDataReceived` leaves `s` on every path that
returns: the download flag cleared and the change signalled. -/
def arrivalsDone (s : ArrivalsLogic) : ArrivalsLogic :=
  { s with downloadingArrivals := false,
           effects := s.effects ++ [Effect.downloadStateChanged] }

/-- The eta of an arrivals data array is a value of the type `int`: no step of its
computation is infinite and the rounded minutes are in the range of `int`. -/
def etaFits (currentTime : ℚ) (a : List QJsonValue) : Prop :=
  (etaOf currentTime a).isSome = true

instance etaFitsDecidable (currentTime : ℚ) (a : List QJsonValue) :
    Decidable (etaFits currentTime a) := by
  unfold etaFits
  infer_instance

/-- The priority of a message record: element 1 truncated to an integer. -/
def priorityOf (a : List QJsonValue) : Int := truncate (elem a 1).toDouble

/-- The text of a message record. -/
def textOf (a : List QJsonValue) : String := (elem a 2).toString

/-- The active window of a message record contains the server time:
activeFrom ≤ serverTime ≤ activeUntil. -/
def isActive (serverTime : ℚ) (a : List QJsonValue) : Prop :=
  (elem a 3).toDouble ≤ serverTime ∧ serverTime ≤ (elem a 4).toDouble

instance isActiveDecidable (serverTime : ℚ) (a : List QJsonValue) :
    Decidable (isActive serverTime a) := by
  unfold isActive
  infer_instance

/-- The priority of a message record fits the type `int`. -/
def priorityFits (a : List QJsonValue) : Prop :=
  INT_MIN ≤ truncate (elem a 1).toDouble ∧ truncate (elem a 1).toDouble ≤ INT_MAX

instance priorityFitsDecidable (a : List QJsonValue) : Decidable (priorityFits a) := by
  unfold priorityFits
  infer_instance

/-- The multimap after the messages loop has run over `ds`: the active records
inserted one after the other. -/
def collect (serverTime : ℚ) (ds : List QJsonDocument) (m : QMultiMap) : QMultiMap :=
  ds.foldl (fun m d =>
    if isActive serverTime d.array then QMultiMap.insert (priorityOf d.array) (textOf d.array) m
    else m) m

/-- The active records of priority band `b` among `ds`, the latest first. -/
def bandLatestFirst (serverTime : ℚ) (ds : List QJsonDocument) (b : Int) : List QJsonDocument :=
  (ds.filter (fun d => decide (isActive serverTime d.array ∧ priorityOf d.array = b))).reverse

/-- The records whose text is displayed, in display order: the bands 0 to 5 in
ascending order, within a band the latest record first. -/
def shownRecords (serverTime : ℚ) (ds : List QJsonDocument) : List QJsonDocument :=
  ([0, 1, 2, 3, 4, 5] : List Int).flatMap (bandLatestFirst serverTime ds)

/-- The texts joined, each after the bullet marker. -/
def bulleted : List String → String
  | [] => ""
  | m :: ms => (" * " ++ m) ++ bulleted ms

/-- The display text as the spec words it: the bands in ascending order, within a
band the records in the order of their arrival. -/
def arrivalOrderText (serverTime : ℚ) (ds : List QJsonDocument) : String :=
  bulleted (([0, 1, 2, 3, 4, 5] : List Int).flatMap (fun b =>
    (ds.filter (fun d => decide (isActive serverTime d.array ∧ priorityOf d.array = b))).map
      (fun d => textOf d.array)))

/-- The stop-type codes of the stops that are kept. -/
def allowList : List String :=
  ["STBR", "STBC", "SRVA", "STZZ", "STBN", "SLRS", "STBS", "STSS"]

/-- A stop-list record is kept, in the words of the spec: its stop-type code
(element 3) is on the allow-list and its code field (element 2) is not null. -/
def isKept (a : List QJsonValue) : Prop :=
  (elem a 3).toString ∈ allowList ∧ (elem a 2).isNull = false

instance isKeptDecidable (a : List QJsonValue) : Decidable (isKept a) := by
  unfold isKept
  infer_instance

/-- The entry mapped from a journey-progress data array. -/
def progressEntry (a : List QJsonValue) : String × ℚ :=
  ((elem a 1).toString, (elem a 2).toDouble)

/-- The six pieces of state a response handler may update: the two containers, the
current stop, the message text, the cached direction id and the stops store. -/
def dataOf (s : ArrivalsLogic) :
    ArrivalsContainer × JourneyProgressContainer × Stop × String × String × List Stop :=
  (s.arrivalsContainer, s.journeyProgressContainer, s.currentStop, s.currentStopMessages,
    s.currentBusDirectionId, s.stopsDb)

/-- The response carries no usable version array: the body is empty, or its first
array has fewer than 3 elements. -/
def noUsableVersion (reply : QNetworkReply) : Prop :=
  match makeDocument reply with
  | [] => True
  | first :: _ => first.array.length < 3

instance noUsableVersionDecidable (reply : QNetworkReply) :
    Decidable (noUsableVersion reply) := by
  unfold noUsableVersion
  split <;> infer_instance

/-- The rendering of a messages response: the bulleted texts of the records it shows,
and the empty text when the response has no usable version array. -/
def rendering (reply : QNetworkReply) : String :=
  match makeDocument reply with
  | [] => ""
  | version :: rest =>
    if 3 ≤ version.array.length then
      bulleted ((shownRecords (elem version.array 2).toDouble (reached 5 rest)).map
        (fun d => textOf d.array))
    else ""

/-! ## Concrete values used as inputs -/

/-- A concrete choice for what the sources leave open. -/
def exampleDeps : Deps :=
  { newVehicle := { id := "", line := "", destination := "", eta := 0, towards := "",
                    platform := "", type := 0 }
    newStop := { id := "", name := "", towards := "", indicator := "", latitude := 0,
                 longitude := 0, type := StopType.None }
    clearStop := fun _ => { id := "", name := "", towards := "", indicator := "", latitude := 0,
                            longitude := 0, type := StopType.None }
    formatG := fun _ => "?" }

/-- A state with nothing published yet. -/
def exampleState : ArrivalsLogic := { currentStop := exampleDeps.newStop }

/-- A version array whose server time is `t`. -/
def versionAt (t : ℚ) : QJsonDocument :=
  QJsonDocument.ofArray [QJsonValue.double 4, QJsonValue.string "1.0", QJsonValue.double t]

/-- An arrivals data array for a bus of line N1 to Waterloo, direction `dir`, predicted at `t`. -/
def arrivalAt (dir : QJsonValue) (t : ℚ) : QJsonDocument :=
  QJsonDocument.ofArray [QJsonValue.double 1, QJsonValue.string "N1", dir,
    QJsonValue.string "Waterloo", QJsonValue.string "LX07ABC", QJsonValue.double t]

/-- A message record of the given priority, text and active window. -/
def messageAt (priority : ℚ) (text : String) (activeFrom activeUntil : ℚ) : QJsonDocument :=
  QJsonDocument.ofArray [QJsonValue.double 2, QJsonValue.double priority, QJsonValue.string text,
    QJsonValue.double activeFrom, QJsonValue.double activeUntil]

/-- A stop-detail data array for a pier, with stop-type code `code`. -/
def stopDetailOf (code : String) : QJsonDocument :=
  QJsonDocument.ofArray [QJsonValue.double 0, QJsonValue.string "Bankside Pier",
    QJsonValue.string code, QJsonValue.string "Embankment", QJsonValue.string "A",
    QJsonValue.double (103 / 2), QJsonValue.double (-1 / 10)]

/-- A stop-list data array with code field `code` and stop-type code `type`. -/
def stopListOf (code : QJsonValue) (type : String) : QJsonDocument :=
  QJsonDocument.ofArray [QJsonValue.double 0, QJsonValue.string "Hammersmith Bus Station",
    code, QJsonValue.string type, QJsonValue.string "Town Centre", QJsonValue.string "K",
    QJsonValue.double (103 / 2), QJsonValue.double (-1 / 5)]

/-- A journey-progress data array. -/
def progressAt (stopName : String) (t : ℚ) : QJsonDocument :=
  QJsonDocument.ofArray [QJsonValue.double 1, QJsonValue.string stopName, QJsonValue.double t]

/-- A data array of only two elements, too short for every mapper. -/
def shortArray : QJsonDocument :=
  QJsonDocument.ofArray [QJsonValue.double 1, QJsonValue.string "N1"]

/-- A state whose containers and store hold data published by earlier cycles. -/
def publishedState : ArrivalsLogic :=
  { exampleState with
    arrivalsContainer := { data := [{ exampleDeps.newVehicle with
      line := "25", destination := "Ilford", id := "LK53ABC", eta := 3 }] }
    journeyProgressContainer := { time := 500, data := [("Aldgate", 700)] } }

/-- A state whose current stop is the bus stop with code `code`. -/
def atBusStop (code : String) : ArrivalsLogic :=
  { exampleState with currentStop := { exampleDeps.newStop with id := code, type := StopType.Bus } }

/-- The orchestrator at the bus stop with code `code`, nothing in flight. -/
def runAtBusStop (code : String) : Run :=
  { logic := atBusStop code, arrivalsOutstanding := 0, journeyProgressOutstanding := 0 }

/-- The orchestrator at bus stop A after `startArrivalsUpdate`, its request still in
flight: the arrivals timer is armed. -/
def runAfterStart : Run :=
  { logic := (atBusStop "A").startArrivalsUpdate,
    arrivalsOutstanding := 1, journeyProgressOutstanding := 0 }

/-- The orchestrator tracking the vehicle LX07ABC after `startJourneyProgressUpdate`, its
request still in flight: the journey-progress timer is armed. -/
def runTracking : Run :=
  { logic := ((atBusStop "A").setCurrentVehicleId "LX07ABC").startJourneyProgressUpdate,
    arrivalsOutstanding := 0, journeyProgressOutstanding := 1 }

/-- A reply to the station reference download with status `httpCode`, for which the
file opens or not. -/
def stationsReplyOf (httpCode : Int) (opens : Bool) : StationsReply :=
  { httpCode := httpCode, resolvedUrl := "https://example.org/stations.csv",
    body := "Name,Code", dataLocation := "/home/nemo/.local/share/london-sail",
    dirExists := true, opens := opens }

/-! ## Numbers -/

theorem roundInt_isRound (x : ℚ) : IsRoundHalfAwayFromZero x (roundInt x) := by
  unfold IsRoundHalfAwayFromZero roundInt
  by_cases hx : 0 ≤ x
  · rw [if_pos hx]
    have h1 := Int.floor_le (x + 1 / 2)
    have h2 := Int.lt_floor_add_one (x + 1 / 2)
    have hn : (0 : ℚ) ≤ (⌊x + 1 / 2⌋ : ℚ) := by
      have : (0 : Int) ≤ ⌊x + 1 / 2⌋ := Int.floor_nonneg.mpr (by linarith)
      exact_mod_cast this
    rcases lt_or_eq_of_le h1 with h | h
    · left
      rw [abs_lt]; constructor <;> linarith
    · right
      constructor
      · rw [h]; norm_num
      · rw [abs_of_nonneg hx, abs_of_nonneg hn]; linarith
  · rw [if_neg hx]
    push_neg at hx
    have h1 := Int.floor_le (-x + 1 / 2)
    have h2 := Int.lt_floor_add_one (-x + 1 / 2)
    have hn : (0 : ℚ) ≤ (⌊-x + 1 / 2⌋ : ℚ) := by
      have : (0 : Int) ≤ ⌊-x + 1 / 2⌋ := Int.floor_nonneg.mpr (by linarith)
      exact_mod_cast this
    push_cast
    rcases lt_or_eq_of_le h1 with h | h
    · left
      rw [abs_lt]; constructor <;> linarith
    · right
      constructor
      · have e : -(-x + 1 / 2) - x = -(1 / 2) := by ring
        rw [h, e, abs_neg]; norm_num
      · rw [abs_of_neg hx, abs_neg, abs_of_nonneg hn]; linarith

theorem isRound_unique (x : ℚ) (n m : Int) (hn : IsRoundHalfAwayFromZero x n)
    (hm : IsRoundHalfAwayFromZero x m) : n = m := by
  unfold IsRoundHalfAwayFromZero at hn hm
  by_contra hne
  have hlt : n < m ∨ m < n := lt_or_gt_of_ne hne
  have key : ∀ a b : Int, a < b →
      (|(a : ℚ) - x| < 1 / 2 ∨ (|(a : ℚ) - x| = 1 / 2 ∧ |x| < |(a : ℚ)|)) →
      (|(b : ℚ) - x| < 1 / 2 ∨ (|(b : ℚ) - x| = 1 / 2 ∧ |x| < |(b : ℚ)|)) → False := by
    intro a b hab ha hb
    have hab1 : (a : ℚ) + 1 ≤ b := by exact_mod_cast hab
    have ha1 : |(a : ℚ) - x| ≤ 1 / 2 := by rcases ha with h | h; exact h.le; exact h.1.le
    have hb1 : |(b : ℚ) - x| ≤ 1 / 2 := by rcases hb with h | h; exact h.le; exact h.1.le
    rw [abs_le] at ha1 hb1
    have hxa : x = a + 1 / 2 := by linarith
    have hbe : (b : ℚ) = a + 1 := by linarith
    rcases ha with h | h
    · rw [abs_lt] at h; linarith
    rcases hb with h2 | h2
    · rw [abs_lt] at h2; linarith
    have hA := h.2
    have hB := h2.2
    rw [hxa] at hA
    rw [hxa, hbe] at hB
    by_cases h0 : (0 : ℚ) ≤ a
    · rw [abs_of_nonneg (by linarith), abs_of_nonneg h0] at hA; linarith
    · push_neg at h0
      have h0i : a < 0 := by exact_mod_cast h0
      have h1 : (a : ℚ) + 1 ≤ 0 := by exact_mod_cast h0i
      rw [abs_of_nonpos (by linarith), abs_of_nonpos h1] at hB; linarith
  rcases hlt with h | h
  · exact key n m h hn hm
  · exact key m n h hm hn

theorem roundInt_eq (x : ℚ) (n : Int) (h : IsRoundHalfAwayFromZero x n) : roundInt x = n :=
  isRound_unique x _ _ (roundInt_isRound x) h

theorem truncate_intCast (n : Int) : truncate (n : ℚ) = n := by
  unfold truncate
  split <;> simp

theorem toInt_std_round (x : ℚ) (e : Int) :
    toInt (std_round x) = some e ↔ (e = roundInt x ∧ INT_MIN ≤ roundInt x ∧ roundInt x ≤ INT_MAX) := by
  unfold toInt std_round
  rw [truncate_intCast]
  constructor
  · intro h
    split at h
    · rename_i hr
      simp only [Option.some.injEq] at h
      exact ⟨h.symm, hr⟩
    · simp at h
  · rintro ⟨rfl, hr⟩
    rw [if_pos hr]

/-! ## Arithmetic in `double` -/

theorem roundHalfEven_intCast (n : Int) : roundHalfEven (n : ℚ) = n := by
  unfold roundHalfEven
  simp

theorem roundHalfEven_err (q : ℚ) : |(roundHalfEven q : ℚ) - q| ≤ 1 / 2 := by
  unfold roundHalfEven
  have h1 := Int.floor_le q
  have h2 := Int.lt_floor_add_one q
  split_ifs <;> (push_cast; rw [abs_le]; constructor <;> linarith)

theorem roundHalfEven_le (q : ℚ) (n : Int) (h : q ≤ n) : roundHalfEven q ≤ n := by
  have h1 := Int.floor_le q
  have hf : ⌊q⌋ ≤ n := by
    have : ((⌊q⌋ : Int) : ℚ) ≤ n := le_trans h1 h
    exact_mod_cast this
  rcases lt_or_eq_of_le hf with hlt | heq
  · unfold roundHalfEven
    split_ifs <;> omega
  · have hq : q - ⌊q⌋ < 1 / 2 := by
      rw [heq]
      have : q - (n : ℚ) ≤ 0 := by linarith
      linarith
    unfold roundHalfEven
    rw [if_pos hq]
    exact hf

theorem two_zpow_log_le (x : ℚ) (hx : x ≠ 0) : (2 : ℚ) ^ Int.log 2 |x| ≤ |x| := by
  have h := Int.zpow_log_le_self (b := 2) (r := |x|) (by norm_num) (abs_pos.mpr hx)
  simpa using h

theorem le_log_of_two_zpow_le (x : ℚ) (n : Int) (h : (2 : ℚ) ^ n ≤ |x|) : n ≤ Int.log 2 |x| := by
  have hpos : 0 < |x| := lt_of_lt_of_le (zpow_pos (by norm_num) n) h
  have := (Int.zpow_le_iff_le_log (b := 2) (x := n) (by norm_num) hpos).mp (by simpa using h)
  exact this

theorem log_lt_of_lt_two_zpow (x : ℚ) (n : Int) (hx : x ≠ 0) (h : |x| < (2 : ℚ) ^ n) :
    Int.log 2 |x| < n := by
  have := (Int.lt_zpow_iff_log_lt (b := 2) (x := n) (by norm_num) (abs_pos.mpr hx)).mp
    (by simpa using h)
  exact this

theorem ulp_pos (x : ℚ) : (0 : ℚ) < 2 ^ ulpExponent x := zpow_pos (by norm_num) _

theorem nearestDouble_zero : nearestDouble 0 = 0 := by
  unfold nearestDouble
  rw [zero_div]
  have : roundHalfEven 0 = 0 := by
    have := roundHalfEven_intCast 0
    simpa using this
  rw [this]
  simp

theorem nearestDouble_sub (x : ℚ) :
    nearestDouble x - x =
      ((roundHalfEven (x / 2 ^ ulpExponent x) : ℚ) - x / 2 ^ ulpExponent x) * 2 ^ ulpExponent x := by
  unfold nearestDouble
  have h := (ulp_pos x).ne'
  field_simp

/-- Away from the subnormal range the relative error of rounding is at most 2^-53. -/
theorem nearestDouble_err (x : ℚ) (hx : (2 : ℚ) ^ (-1022 : ℤ) ≤ |x|) :
    |nearestDouble x - x| ≤ |x| * (1 / 2 ^ 53) := by
  have hpos : 0 < |x| := lt_of_lt_of_le (zpow_pos (by norm_num) _) hx
  have hx0 : x ≠ 0 := abs_pos.mp hpos
  have hL := le_log_of_two_zpow_le x _ hx
  have he : ulpExponent x = Int.log 2 |x| - 52 := by
    unfold ulpExponent
    apply max_eq_left
    omega
  rw [nearestDouble_sub, abs_mul, abs_of_pos (ulp_pos x), he]
  have h1 := roundHalfEven_err (x / 2 ^ (Int.log 2 |x| - 52))
  have h2 := two_zpow_log_le x hx0
  have h3 : (2 : ℚ) ^ (Int.log 2 |x| - 52) = 2 ^ Int.log 2 |x| * (1 / 2 ^ 52) := by
    rw [zpow_sub₀ (by norm_num)]
    norm_num
    ring
  have hp : (0 : ℚ) < 2 ^ Int.log 2 |x| := zpow_pos (by norm_num) _
  rw [h3]
  calc |(roundHalfEven (x / (2 ^ Int.log 2 |x| * (1 / 2 ^ 52))) : ℚ) -
          x / (2 ^ Int.log 2 |x| * (1 / 2 ^ 52))| * (2 ^ Int.log 2 |x| * (1 / 2 ^ 52))
      ≤ 1 / 2 * (2 ^ Int.log 2 |x| * (1 / 2 ^ 52)) := by
        rw [h3] at h1
        exact mul_le_mul_of_nonneg_right h1 (by positivity)
    _ = 2 ^ Int.log 2 |x| * (1 / 2 ^ 53) := by ring
    _ ≤ |x| * (1 / 2 ^ 53) := mul_le_mul_of_nonneg_right h2 (by positivity)

/-- A number with a 53-bit significand and an exponent in range is a binary64 value. -/
theorem nearestDouble_exact (m k : Int) (hm : |m| < 2 ^ 53) (hk : -1074 ≤ k) :
    nearestDouble ((m : ℚ) * 2 ^ k) = (m : ℚ) * 2 ^ k := by
  by_cases h0 : m = 0
  · subst h0
    simp [nearestDouble_zero]
  have hx0 : (m : ℚ) * 2 ^ k ≠ 0 := by
    apply mul_ne_zero
    · exact_mod_cast h0
    · exact (zpow_pos (by norm_num) k).ne'
  have hlt : |(m : ℚ) * 2 ^ k| < 2 ^ (53 + k) := by
    rw [abs_mul, abs_of_pos (zpow_pos (by norm_num : (0 : ℚ) < 2) k), zpow_add₀ (by norm_num)]
    apply mul_lt_mul_of_pos_right _ (zpow_pos (by norm_num) k)
    exact_mod_cast hm
  have hL := log_lt_of_lt_two_zpow _ _ hx0 hlt
  have he : ulpExponent ((m : ℚ) * 2 ^ k) ≤ k := by
    unfold ulpExponent
    apply max_le <;> omega
  obtain ⟨n, hn⟩ : ∃ n : Nat, k = ulpExponent ((m : ℚ) * 2 ^ k) + n :=
    ⟨(k - ulpExponent ((m : ℚ) * 2 ^ k)).toNat, by omega⟩
  unfold nearestDouble
  have hq : (m : ℚ) * 2 ^ k / 2 ^ ulpExponent ((m : ℚ) * 2 ^ k) = ((m * 2 ^ n : Int) : ℚ) := by
    have h := (ulp_pos ((m : ℚ) * 2 ^ k)).ne'
    rw [div_eq_iff h]
    nth_rewrite 1 [hn]
    rw [zpow_add₀ (by norm_num)]
    push_cast
    rw [zpow_natCast]
    ring
  rw [hq, roundHalfEven_intCast, ← hq]
  have h := (ulp_pos ((m : ℚ) * 2 ^ k)).ne'
  field_simp


theorem fl_eq (x : ℚ) :
    fl x = if |nearestDouble x| < 2 ^ 1024 then some (nearestDouble x) else none := by
  unfold fl
  rfl

theorem fl_some (x y : ℚ) (h : fl x = some y) : y = nearestDouble x := by
  rw [fl_eq] at h
  split at h
  · simp only [Option.some.injEq] at h
    exact h.symm
  · simp at h

theorem fl_exact (m k : Int) (hm : |m| < 2 ^ 53) (hk : -1074 ≤ k)
    (hfin : |(m : ℚ) * 2 ^ k| < 2 ^ 1024) : fl ((m : ℚ) * 2 ^ k) = some ((m : ℚ) * 2 ^ k) := by
  rw [fl_eq, nearestDouble_exact m k hm hk, if_pos hfin]

theorem fl_intCast (n : Int) (hn : |n| < 2 ^ 53) : fl (n : ℚ) = some (n : ℚ) := by
  have h := fl_exact n 0 hn (by norm_num) (by
    rw [zpow_zero, mul_one]
    have h1 : |(n : ℚ)| < 2 ^ 53 := by exact_mod_cast hn
    have h2 : (2 : ℚ) ^ 53 < 2 ^ 1024 := by norm_num
    exact lt_trans h1 h2)
  simpa using h

theorem fl_half (n : Int) (hn : |n| < 2 ^ 53) : fl ((n : ℚ) / 2) = some ((n : ℚ) / 2) := by
  have e : (n : ℚ) / 2 = (n : ℚ) * 2 ^ (-1 : ℤ) := by
    rw [zpow_neg, zpow_one]; ring
  have h := fl_exact n (-1) hn (by norm_num) (by
    rw [← e, abs_div]
    have h1 : |(n : ℚ)| < 2 ^ 53 := by exact_mod_cast hn
    have h2 : (2 : ℚ) ^ 53 < 2 ^ 1024 := by norm_num
    have h3 : |(2 : ℚ)| = 2 := abs_of_pos (by norm_num)
    rw [h3]
    linarith)
  rw [← e] at h
  exact h

/-- Rounding to a binary64 value does not cross a binary64 value. -/
theorem nearestDouble_le (x : ℚ) (m k : Int) (hm : |m| < 2 ^ 53) (hk : -1074 ≤ k)
    (h : x ≤ (m : ℚ) * 2 ^ k) : nearestDouble x ≤ (m : ℚ) * 2 ^ k := by
  by_cases hx0 : x = 0
  · subst hx0
    rw [nearestDouble_zero]
    exact h
  have hu := ulp_pos x
  by_cases he : ulpExponent x ≤ k
  · obtain ⟨n, hn⟩ : ∃ n : Nat, k = ulpExponent x + n := ⟨(k - ulpExponent x).toNat, by omega⟩
    have hc : (m : ℚ) * 2 ^ k = ((m * 2 ^ n : Int) : ℚ) * 2 ^ ulpExponent x := by
      nth_rewrite 1 [hn]
      rw [zpow_add₀ (by norm_num)]
      push_cast
      rw [zpow_natCast]
      ring
    have hq : x / 2 ^ ulpExponent x ≤ ((m * 2 ^ n : Int) : ℚ) := by
      rw [div_le_iff₀ hu, ← hc]
      exact h
    have hr := roundHalfEven_le _ _ hq
    have hr2 : (roundHalfEven (x / 2 ^ ulpExponent x) : ℚ) ≤ ((m * 2 ^ n : Int) : ℚ) := by
      exact_mod_cast hr
    unfold nearestDouble
    rw [hc]
    exact mul_le_mul_of_nonneg_right hr2 hu.le
  · push_neg at he
    have hE : ulpExponent x = Int.log 2 |x| - 52 := by
      unfold ulpExponent at he ⊢
      apply max_eq_left
      by_contra hcon
      push_neg at hcon
      rw [max_eq_right hcon.le] at he
      omega
    have h2 := two_zpow_log_le x hx0
    have hp : (0 : ℚ) < 2 ^ k := zpow_pos (by norm_num) k
    have hc : |(m : ℚ) * 2 ^ k| < 2 ^ Int.log 2 |x| := by
      have hm2 : |(m : ℚ)| ≤ 2 ^ 53 := by
        have : |(m : ℚ)| < 2 ^ 53 := by exact_mod_cast hm
        exact this.le
      have hle : (2 : ℚ) ^ (53 + k) ≤ 2 ^ Int.log 2 |x| :=
        zpow_le_zpow_right₀ (by norm_num) (by omega)
      have hlt : |(m : ℚ) * 2 ^ k| < 2 ^ (53 + k) := by
        rw [abs_mul, abs_of_pos hp, zpow_add₀ (by norm_num)]
        apply mul_lt_mul_of_pos_right _ hp
        exact_mod_cast hm
      exact lt_of_lt_of_le hlt hle
    have hU : (2 : ℚ) ^ ulpExponent x = 2 ^ Int.log 2 |x| / 2 ^ 52 := by
      rw [hE, zpow_sub₀ (by norm_num)]
      norm_num
    have hL : (0 : ℚ) < 2 ^ Int.log 2 |x| := zpow_pos (by norm_num) _
    generalize (2 : ℚ) ^ Int.log 2 |x| = P at h2 hc hU hL
    have hneg : x < 0 := by
      by_contra hcon
      push_neg at hcon
      rw [abs_of_nonneg hcon] at h2
      have := le_abs_self ((m : ℚ) * 2 ^ k)
      linarith
    rw [abs_of_neg hneg] at h2
    have hq : x / 2 ^ ulpExponent x ≤ ((-(2 ^ 52) : Int) : ℚ) := by
      rw [div_le_iff₀ hu, hU]
      have : ((-(2 ^ 52) : Int) : ℚ) * (P / 2 ^ 52) = -P := by
        push_cast
        ring
      rw [this]
      linarith
    have hr := roundHalfEven_le _ _ hq
    have hr2 : (roundHalfEven (x / 2 ^ ulpExponent x) : ℚ) ≤ ((-(2 ^ 52) : Int) : ℚ) := by
      exact_mod_cast hr
    have hnd : nearestDouble x ≤ -P := by
      unfold nearestDouble
      have h3 := mul_le_mul_of_nonneg_right hr2 hu.le
      have h4 : ((-(2 ^ 52) : Int) : ℚ) * 2 ^ ulpExponent x = -P := by
        rw [hU]
        push_cast
        ring
      rw [h4] at h3
      exact h3
    have := neg_abs_le ((m : ℚ) * 2 ^ k)
    linarith

theorem roundInt_near (D n : Int) (y : ℚ)
    (hn : |(n : ℚ) - (D : ℚ) / 60000| < 1 / 2)
    (hy : |y - (D : ℚ) / 60000| < 1 / 60000) : roundInt y = n := by
  have hk : |((60000 * n - D : Int) : ℚ)| < 30000 := by
    have e : ((60000 * n - D : Int) : ℚ) = 60000 * ((n : ℚ) - (D : ℚ) / 60000) := by
      push_cast; ring
    rw [e, abs_mul, abs_of_pos (by norm_num : (0 : ℚ) < 60000)]
    linarith
  have hk2 : |60000 * n - D| < 30000 := by exact_mod_cast hk
  have hk3 : |60000 * n - D| ≤ 29999 := by omega
  have hk4 : |((60000 * n - D : Int) : ℚ)| ≤ 29999 := by exact_mod_cast hk3
  have hn2 : |(n : ℚ) - (D : ℚ) / 60000| ≤ 29999 / 60000 := by
    have e : (n : ℚ) - (D : ℚ) / 60000 = ((60000 * n - D : Int) : ℚ) / 60000 := by
      push_cast; ring
    rw [e, abs_div, abs_of_pos (by norm_num : (0 : ℚ) < 60000)]
    rw [div_le_div_iff₀ (by norm_num) (by norm_num)]
    linarith
  apply roundInt_eq
  left
  have h3 := abs_sub_le (n : ℚ) ((D : ℚ) / 60000) y
  rw [abs_sub_comm ((D : ℚ) / 60000) y] at h3
  linarith

theorem tiny_le : (2 : ℚ) ^ (-1022 : ℤ) ≤ 1 / 131072 := by
  have h := zpow_le_zpow_right₀ (by norm_num : (1 : ℚ) ≤ 2) (by norm_num : (-1022 : ℤ) ≤ -17)
  have e : (2 : ℚ) ^ (-17 : ℤ) = 1 / 131072 := by norm_num [zpow_neg]
  rw [e] at h
  exact h

/-- The three rounded steps of the eta computation on a whole number of
milliseconds of magnitude below 2^51: every step is finite and the resulting minutes
round to the same integer as the exact quotient. -/
theorem minutes_integral (D : Int) (hD : |D| < 2 ^ 51) :
    ∃ s m : ℚ, fl (D : ℚ) = some (D : ℚ) ∧ fl ((D : ℚ) / 1000) = some s ∧
      fl (s / 60) = some m ∧ roundInt m = roundInt ((D : ℚ) / 60000) := by
  have hD2 := abs_lt.mp hD
  have hflD : fl (D : ℚ) = some (D : ℚ) := fl_intCast D (abs_lt.mpr ⟨by omega, by omega⟩)
  by_cases h0 : D = 0
  · subst h0
    refine ⟨0, 0, hflD, ?_, ?_, ?_⟩
    · have := fl_intCast 0 (by norm_num)
      simpa using this
    · have := fl_intCast 0 (by norm_num)
      simpa using this
    · simp
  rcases roundInt_isRound ((D : ℚ) / 60000) with hnear | ⟨htie, -⟩
  · -- the exact quotient is not halfway between two integers
    have hDq : (1 : ℚ) ≤ |(D : ℚ)| := by
      have : (1 : Int) ≤ |D| := Int.one_le_abs h0
      exact_mod_cast this
    have hDq2 : |(D : ℚ)| < 2 ^ 51 := by exact_mod_cast hD
    have ha : |(D : ℚ) / 1000| = |(D : ℚ)| / 1000 := by
      rw [abs_div, abs_of_pos (by norm_num : (0 : ℚ) < 1000)]
    have htiny := tiny_le
    have herr1 := nearestDouble_err ((D : ℚ) / 1000) (by rw [ha]; linarith)
    generalize hs : nearestDouble ((D : ℚ) / 1000) = s at herr1
    have hs1 : |s| ≤ |(D : ℚ) / 1000| + |s - (D : ℚ) / 1000| := by
      have := abs_add ((D : ℚ) / 1000) (s - (D : ℚ) / 1000)
      simpa using this
    have hs2 : |(D : ℚ) / 1000| ≤ |s| + |s - (D : ℚ) / 1000| := by
      have := abs_sub s (s - (D : ℚ) / 1000)
      simpa using this
    have hb : |s / 60| = |s| / 60 := by
      rw [abs_div, abs_of_pos (by norm_num : (0 : ℚ) < 60)]
    have herr2 := nearestDouble_err (s / 60) (by rw [hb]; rw [ha] at hs2 herr1; linarith)
    generalize hm : nearestDouble (s / 60) = m at herr2
    have hm1 : |m| ≤ |s / 60| + |m - s / 60| := by
      have := abs_add (s / 60) (m - s / 60)
      simpa using this
    have hsx : |s / 60 - (D : ℚ) / 60000| = |s - (D : ℚ) / 1000| / 60 := by
      have e : s / 60 - (D : ℚ) / 60000 = (s - (D : ℚ) / 1000) / 60 := by ring
      rw [e, abs_div, abs_of_pos (by norm_num : (0 : ℚ) < 60)]
    have hmx := abs_sub_le m (s / 60) ((D : ℚ) / 60000)
    rw [ha] at hs1 hs2 herr1
    rw [hb] at herr2 hm1
    have hfs : fl ((D : ℚ) / 1000) = some s := by
      rw [fl_eq, hs, if_pos]
      have : (2 : ℚ) ^ 52 < 2 ^ 1024 := by norm_num
      linarith
    have hfm : fl (s / 60) = some m := by
      rw [fl_eq, hm, if_pos]
      have : (2 : ℚ) ^ 52 < 2 ^ 1024 := by norm_num
      linarith
    refine ⟨s, m, hflD, hfs, hfm, ?_⟩
    apply roundInt_near D _ m hnear
    rw [hsx] at hmx
    linarith
  · -- the exact quotient is halfway: every step is exact
    have key : ∀ j : Int, (D : ℚ) = ((30000 * j : Int) : ℚ) →
        ∃ s m : ℚ, fl (D : ℚ) = some (D : ℚ) ∧ fl ((D : ℚ) / 1000) = some s ∧
          fl (s / 60) = some m ∧ roundInt m = roundInt ((D : ℚ) / 60000) := by
      intro j hj
      have hji : D = 30000 * j := by exact_mod_cast hj
      have e1 : (D : ℚ) / 1000 = ((30 * j : Int) : ℚ) := by
        rw [hj]; push_cast; ring
      have e2 : ((30 * j : Int) : ℚ) / 60 = (j : ℚ) / 2 := by
        push_cast; ring
      have e3 : (D : ℚ) / 60000 = (j : ℚ) / 2 := by
        rw [hj]; push_cast; ring
      refine ⟨((30 * j : Int) : ℚ), (j : ℚ) / 2, hflD, ?_, ?_, ?_⟩
      · rw [e1]; exact fl_intCast _ (abs_lt.mpr ⟨by omega, by omega⟩)
      · rw [e2]; exact fl_half j (abs_lt.mpr ⟨by omega, by omega⟩)
      · rw [e3]
    rcases (abs_eq (by norm_num : (0 : ℚ) ≤ 1 / 2)).mp htie with h | h
    · apply key (2 * roundInt ((D : ℚ) / 60000) - 1)
      push_cast
      linarith
    · apply key (2 * roundInt ((D : ℚ) / 60000) + 1)
      push_cast
      linarith

/-! ## Arrivals -/

theorem lastDirection_nil (deps : Deps) (dir : String) : lastDirection deps dir [] = dir := rfl

theorem lastDirection_cons (deps : Deps) (dir : String) (d : QJsonDocument)
    (ds : List QJsonDocument) :
    lastDirection deps dir (d :: ds) = lastDirection deps (directionOf deps d.array) ds := by
  cases ds with
  | nil => simp [lastDirection]
  | cons e es =>
    have h : (e :: es).getLast? = some ((e :: es).getLast (by simp)) :=
      List.getLast?_eq_getLast _ _
    simp only [lastDirection, List.getLast?_cons_cons, h]

theorem reached_nil (n : Nat) : reached n [] = [] := rfl

theorem reached_cons_short (n : Nat) (d : QJsonDocument) (rest : List QJsonDocument)
    (h : d.array.length < n) : reached n (d :: rest) = [] := by
  unfold reached
  rw [List.takeWhile_cons]
  simp [Nat.not_le.mpr h]

theorem reached_cons_long (n : Nat) (d : QJsonDocument) (rest : List QJsonDocument)
    (h : n ≤ d.array.length) : reached n (d :: rest) = d :: reached n rest := by
  unfold reached
  rw [List.takeWhile_cons]
  simp [h]

theorem reached_getElem? (n : Nat) (rest : List QJsonDocument) (i : Nat) (d : QJsonDocument)
    (h : (reached n rest)[i]? = some d) : rest[i]? = some d ∧ n ≤ d.array.length := by
  induction rest generalizing i with
  | nil => simp [reached_nil] at h
  | cons e es ih =>
    by_cases hl : n ≤ e.array.length
    · rw [reached_cons_long n e es hl] at h
      cases i with
      | zero =>
        simp only [List.getElem?_cons_zero, Option.some.injEq] at h
        subst h
        simp [hl]
      | succ j =>
        simp only [List.getElem?_cons_succ] at h ⊢
        exact ih j h
    · rw [reached_cons_short n e es (Nat.not_le.mp hl)] at h
      simp at h

theorem arrivalsRecord_eq_map (deps : Deps) (t : ℚ) (a : List QJsonValue) :
    arrivalsRecord deps t a =
      (etaOf t a).map (fun e => (directionOf deps a,
        { deps.newVehicle with
          line := (elem a 1).toString
          destination := (elem a 3).toString
          id := (elem a 4).toString
          eta := e })) := by
  unfold arrivalsRecord etaOf
  cases fl ((elem a 5).toDouble - t) with
  | none => rfl
  | some delta =>
    simp only
    cases fl (delta / 1000) with
    | none => rfl
    | some inSec =>
      simp only
      cases fl (inSec / 60) with
      | none => rfl
      | some inMins =>
        simp only
        cases toInt (std_round inMins) with
        | none => rfl
        | some e => rfl

theorem arrivalsRecord_eq (deps : Deps) (t : ℚ) (a : List QJsonValue) :
    arrivalsRecord deps t a =
      if etaFits t a then some (directionOf deps a, vehicleOf deps t a) else none := by
  rw [arrivalsRecord_eq_map]
  unfold vehicleOf
  cases h : etaOf t a with
  | none =>
    have hf : ¬ etaFits t a := by
      unfold etaFits
      rw [h]
      simp
    rw [if_neg hf]
    rfl
  | some e =>
    have hf : etaFits t a := by
      unfold etaFits
      rw [h]
      rfl
    rw [if_pos hf]
    rfl

theorem arrivalsLoop_eq (deps : Deps) (t : ℚ) (rest : List QJsonDocument) :
    ∀ (dir : String) (temp : List Vehicle),
      arrivalsLoop deps t rest dir { data := temp } =
        if ∀ d ∈ reached 6 rest, etaFits t d.array then
          some (lastDirection deps dir (reached 6 rest),
                { data := temp ++ (reached 6 rest).map (fun d => vehicleOf deps t d.array) })
        else none := by
  induction rest with
  | nil =>
    intro dir temp
    have h : ∀ d ∈ reached 6 [], etaFits t d.array := by
      intro d hd; rw [reached_nil] at hd; cases hd
    rw [if_pos h, arrivalsLoop, reached_nil, lastDirection_nil, List.map_nil, List.append_nil]
  | cons d ds ih =>
    intro dir temp
    by_cases hl : 6 ≤ d.array.length
    · have h5 : ¬ (5 ≥ d.array.length) := by omega
      rw [arrivalsLoop, if_neg h5, arrivalsRecord_eq]
      by_cases hf : etaFits t d.array
      · rw [if_pos hf]
        show arrivalsLoop deps t ds (directionOf deps d.array)
          { data := temp ++ [vehicleOf deps t d.array] } = _
        rw [ih]
        by_cases hall : ∀ e ∈ reached 6 ds, etaFits t e.array
        · have hall2 : ∀ e ∈ reached 6 (d :: ds), etaFits t e.array := by
            intro e he
            rw [reached_cons_long 6 d ds hl, List.mem_cons] at he
            rcases he with rfl | he
            · exact hf
            · exact hall e he
          rw [if_pos hall, if_pos hall2, reached_cons_long 6 d ds hl, lastDirection_cons,
            List.map_cons, List.append_assoc, List.singleton_append]
        · have hall2 : ¬ ∀ e ∈ reached 6 (d :: ds), etaFits t e.array := by
            intro h
            apply hall
            intro e he
            apply h
            rw [reached_cons_long 6 d ds hl]
            exact List.mem_cons_of_mem _ he
          rw [if_neg hall, if_neg hall2]
      · rw [if_neg hf]
        have hall2 : ¬ ∀ e ∈ reached 6 (d :: ds), etaFits t e.array := by
          intro h
          apply hf
          apply h
          rw [reached_cons_long 6 d ds hl]
          exact List.mem_cons_self _ _
        rw [if_neg hall2]
    · have h5 : 5 ≥ d.array.length := by omega
      have h : ∀ e ∈ reached 6 (d :: ds), etaFits t e.array := by
        intro e he; rw [reached_cons_short 6 d ds (by omega)] at he; cases he
      rw [if_pos h, arrivalsLoop, if_pos h5, reached_cons_short 6 d ds (by omega),
        lastDirection_nil, List.map_nil, List.append_nil]

theorem onArrivalsDataReceived_eq (deps : Deps) (s : ArrivalsLogic) (version : QJsonDocument)
    (rest : List QJsonDocument) (hv : 3 ≤ version.array.length) :
    s.onArrivalsDataReceived deps (some (version :: rest)) =
      if ∀ d ∈ reached 6 rest, etaFits (elem version.array 2).toDouble d.array then
        some { arrivalsDone s with
          currentBusDirectionId := lastDirection deps s.currentBusDirectionId (reached 6 rest)
          arrivalsContainer :=
            { data := (reached 6 rest).map
                (fun d => vehicleOf deps (elem version.array 2).toDouble d.array) } }
      else none := by
  have h2 : ¬ (2 ≥ version.array.length) := by omega
  unfold ArrivalsLogic.onArrivalsDataReceived
  simp only [makeDocument, if_neg h2]
  rw [arrivalsLoop_eq]
  by_cases hf : ∀ d ∈ reached 6 rest, etaFits (elem version.array 2).toDouble d.array
  · rw [if_pos hf, if_pos hf]
    rfl
  · rw [if_neg hf, if_neg hf]

theorem onArrivalsDataReceived_short (deps : Deps) (s : ArrivalsLogic) (version : QJsonDocument)
    (rest : List QJsonDocument) (hv : version.array.length < 3) :
    s.onArrivalsDataReceived deps (some (version :: rest)) = some (arrivalsDone s) := by
  have h2 : 2 ≥ version.array.length := by omega
  unfold ArrivalsLogic.onArrivalsDataReceived
  simp only [makeDocument, if_pos h2, arrivalsDone]

theorem isRound_of_neg (x : ℚ) (n : Int) (h : IsRoundHalfAwayFromZero x n) :
    (x < 0 → n ≤ 0) ∧ (x ≤ -(1 / 2) → n < 0) := by
  unfold IsRoundHalfAwayFromZero at h
  have hle : |(n : ℚ) - x| ≤ 1 / 2 := by rcases h with h | h; exact h.le; exact h.1.le
  rw [abs_le] at hle
  constructor
  · intro hx
    have : (n : ℚ) < 1 := by linarith
    have : n < 1 := by exact_mod_cast this
    omega
  · intro hx
    have h0 : (n : ℚ) ≤ 0 := by linarith
    have h0i : n ≤ 0 := by exact_mod_cast h0
    rcases lt_or_eq_of_le h0i with hlt | heq
    · exact hlt
    · exfalso
      subst heq
      rcases h with h | h
      · rw [abs_lt] at h; simp at h; linarith
      · have := h.2
        simp at this
        exact absurd this (not_lt.mpr (abs_nonneg x))

theorem roundHalfEven_eq (q : ℚ) (n : Int) (h : |(n : ℚ) - q| < 1 / 2) :
    roundHalfEven q = n := by
  have h1 := roundHalfEven_err q
  have h2 := abs_sub_le (roundHalfEven q : ℚ) q (n : ℚ)
  rw [abs_sub_comm q (n : ℚ)] at h2
  have h3 : |((roundHalfEven q - n : Int) : ℚ)| < 1 := by
    push_cast
    linarith
  have h4 : |roundHalfEven q - n| < 1 := by exact_mod_cast h3
  have h5 := abs_lt.mp h4
  omega

/-- The `double` nearest to a number between `2 ^ L` and `2 ^ (L + 1)` is the nearest
multiple of `2 ^ (L - 52)`. -/
theorem nearestDouble_eq (x : ℚ) (L n : Int) (h1 : (2 : ℚ) ^ L ≤ |x|)
    (h2 : |x| < (2 : ℚ) ^ (L + 1)) (hL : -1022 ≤ L)
    (hn : |(n : ℚ) - x / 2 ^ (L - 52)| < 1 / 2) :
    nearestDouble x = (n : ℚ) * 2 ^ (L - 52) := by
  have hpos : 0 < |x| := lt_of_lt_of_le (zpow_pos (by norm_num) _) h1
  have hx0 : x ≠ 0 := abs_pos.mp hpos
  have hlog : Int.log 2 |x| = L := by
    have ha := le_log_of_two_zpow_le x L h1
    have hb := log_lt_of_lt_two_zpow x (L + 1) hx0 h2
    omega
  have he : ulpExponent x = L - 52 := by
    unfold ulpExponent
    rw [hlog]
    apply max_eq_left
    omega
  unfold nearestDouble
  rw [he, roundHalfEven_eq _ n hn]

theorem toInt_std_round_eq (x : ℚ) :
    toInt (std_round x) =
      if INT_MIN ≤ roundInt x ∧ roundInt x ≤ INT_MAX then some (roundInt x) else none := by
  unfold toInt std_round
  rw [truncate_intCast]

theorem etaOf_eq (t : ℚ) (a : List QJsonValue) (delta inSec inMins : ℚ)
    (h1 : fl ((elem a 5).toDouble - t) = some delta) (h2 : fl (delta / 1000) = some inSec)
    (h3 : fl (inSec / 60) = some inMins) :
    etaOf t a =
      if INT_MIN ≤ roundInt inMins ∧ roundInt inMins ≤ INT_MAX then some (roundInt inMins)
      else none := by
  unfold etaOf
  rw [h1]
  simp only
  rw [h2]
  simp only
  rw [h3]
  simp only
  exact toInt_std_round_eq inMins

/-- An eta that is defined comes from three finite `double` operations. -/
theorem etaOf_some (t : ℚ) (a : List QJsonValue) (e : Int) (h : etaOf t a = some e) :
    ∃ delta inSec inMins : ℚ,
      delta = nearestDouble ((elem a 5).toDouble - t) ∧ inSec = nearestDouble (delta / 1000) ∧
      inMins = nearestDouble (inSec / 60) ∧ e = roundInt inMins := by
  unfold etaOf at h
  cases h1 : fl ((elem a 5).toDouble - t) with
  | none => rw [h1] at h; simp at h
  | some delta =>
    rw [h1] at h
    simp only at h
    cases h2 : fl (delta / 1000) with
    | none => rw [h2] at h; simp at h
    | some inSec =>
      rw [h2] at h
      simp only at h
      cases h3 : fl (inSec / 60) with
      | none => rw [h3] at h; simp at h
      | some inMins =>
        rw [h3] at h
        simp only at h
        exact ⟨delta, inSec, inMins, fl_some _ _ h1, fl_some _ _ h2, fl_some _ _ h3,
          ((toInt_std_round inMins e).mp h).1⟩

/-- On whole numbers of milliseconds less than 2^51 apart the eta is the exact
quotient rounded, whenever that fits the type `int`. -/
theorem etaOf_integral (t : ℚ) (a : List QJsonValue) (A T : Int)
    (hA : (elem a 5).toDouble = A) (hT : t = T) (hD : |A - T| < 2 ^ 51) :
    etaOf t a =
      if INT_MIN ≤ roundInt (((elem a 5).toDouble - t) / 60000) ∧
          roundInt (((elem a 5).toDouble - t) / 60000) ≤ INT_MAX then
        some (roundInt (((elem a 5).toDouble - t) / 60000))
      else none := by
  obtain ⟨s, m, h1, h2, h3, h4⟩ := minutes_integral (A - T) hD
  have e : (elem a 5).toDouble - t = ((A - T : Int) : ℚ) := by
    rw [hA, hT]
    push_cast
    rfl
  rw [e, etaOf_eq t a _ s m (by rw [e]; exact h1) h2 h3, h4]

theorem etaOf_whole (t : ℚ) (a : List QJsonValue) (A T e : Int)
    (hA : (elem a 5).toDouble = A) (hT : t = T) (hD : |A - T| < 2 ^ 51)
    (he : IsRoundHalfAwayFromZero (((A : ℚ) - T) / 60000) e)
    (hfit : INT_MIN ≤ e ∧ e ≤ INT_MAX) : etaOf t a = some e := by
  rw [etaOf_integral t a A T hA hT hD, hA, hT, roundInt_eq _ e he, if_pos hfit]

theorem roundInt_nonpos (x : ℚ) (h : x ≤ 0) : roundInt x ≤ 0 := by
  rcases lt_or_eq_of_le h with hlt | heq
  · exact (isRound_of_neg _ _ (roundInt_isRound x)).1 hlt
  · subst heq
    have : roundInt 0 = 0 := by
      apply roundInt_eq
      unfold IsRoundHalfAwayFromZero
      norm_num
    rw [this]

/-- A prediction not later than the server time gives an eta that is not positive. -/
theorem etaOf_nonpos (t : ℚ) (a : List QJsonValue) (e : Int) (h : etaOf t a = some e)
    (hle : (elem a 5).toDouble ≤ t) : e ≤ 0 := by
  obtain ⟨delta, inSec, inMins, h1, h2, h3, h4⟩ := etaOf_some t a e h
  have z : ((0 : Int) : ℚ) * 2 ^ (0 : ℤ) = 0 := by norm_num
  have d1 : delta ≤ 0 := by
    have := nearestDouble_le ((elem a 5).toDouble - t) 0 0 (by norm_num) (by norm_num)
      (by rw [z]; linarith)
    rw [z, ← h1] at this
    exact this
  have d2 : inSec ≤ 0 := by
    have := nearestDouble_le (delta / 1000) 0 0 (by norm_num) (by norm_num)
      (by rw [z]; exact div_nonpos_of_nonpos_of_nonneg d1 (by norm_num))
    rw [z, ← h2] at this
    exact this
  have d3 : inMins ≤ 0 := by
    have := nearestDouble_le (inSec / 60) 0 0 (by norm_num) (by norm_num)
      (by rw [z]; exact div_nonpos_of_nonpos_of_nonneg d2 (by norm_num))
    rw [z, ← h3] at this
    exact this
  rw [h4]
  exact roundInt_nonpos inMins d3

/-- A prediction half a minute or more before the server time gives a negative eta. -/
theorem etaOf_neg (t : ℚ) (a : List QJsonValue) (e : Int) (h : etaOf t a = some e)
    (hle : (elem a 5).toDouble + 30000 ≤ t) : e < 0 := by
  obtain ⟨delta, inSec, inMins, h1, h2, h3, h4⟩ := etaOf_some t a e h
  have z1 : ((-30000 : Int) : ℚ) * 2 ^ (0 : ℤ) = -30000 := by norm_num
  have z2 : ((-30 : Int) : ℚ) * 2 ^ (0 : ℤ) = -30 := by norm_num
  have z3 : ((-1 : Int) : ℚ) * 2 ^ (-1 : ℤ) = -(1 / 2) := by norm_num [zpow_neg]
  have d1 : delta ≤ -30000 := by
    have := nearestDouble_le ((elem a 5).toDouble - t) (-30000) 0 (by norm_num) (by norm_num)
      (by rw [z1]; linarith)
    rw [z1, ← h1] at this
    exact this
  have d2 : inSec ≤ -30 := by
    have := nearestDouble_le (delta / 1000) (-30) 0 (by norm_num) (by norm_num)
      (by rw [z2, div_le_iff₀ (by norm_num)]; linarith)
    rw [z2, ← h2] at this
    exact this
  have d3 : inMins ≤ -(1 / 2) := by
    have := nearestDouble_le (inSec / 60) (-1) (-1) (by norm_num) (by norm_num)
      (by rw [z3, div_le_iff₀ (by norm_num)]; linarith)
    rw [z3, ← h3] at this
    exact this
  rw [h4]
  exact (isRound_of_neg _ _ (roundInt_isRound inMins)).2 d3

theorem etaOf_overdue (dir : QJsonValue) :
    etaOf (elem (versionAt 61000).array 2).toDouble (arrivalAt dir 1000).array = some (-1) :=
  etaOf_whole _ _ 1000 61000 (-1) (by show (1000 : ℚ) = _; norm_num)
    (by show (61000 : ℚ) = _; norm_num) (by norm_num)
    (by unfold IsRoundHalfAwayFromZero; norm_num) (by decide)

theorem etaOf_scenario (x0 x1 y0 dir : QJsonValue) :
    etaOf (elem (QJsonDocument.ofArray [x0, x1, QJsonValue.double 1000]).array 2).toDouble
      (QJsonDocument.ofArray [y0, QJsonValue.string "N1", dir,
        QJsonValue.string "Waterloo", QJsonValue.string "LX07ABC",
        QJsonValue.double 61000]).array = some 1 :=
  etaOf_whole _ _ 61000 1000 1 (by show (61000 : ℚ) = _; norm_num)
    (by show (1000 : ℚ) = _; norm_num) (by norm_num)
    (by unfold IsRoundHalfAwayFromZero; norm_num) (by decide)

theorem arrivals_overdue_run :
    exampleState.onArrivalsDataReceived exampleDeps
        (some [versionAt 61000, arrivalAt (QJsonValue.double 1) 1000]) =
      some { arrivalsDone exampleState with
        currentBusDirectionId := "1"
        arrivalsContainer := { data := [{ exampleDeps.newVehicle with
          line := "N1", destination := "Waterloo", id := "LX07ABC", eta := -1 }] } } := by
  have hreach : reached 6 [arrivalAt (QJsonValue.double 1) 1000] =
      [arrivalAt (QJsonValue.double 1) 1000] :=
    reached_cons_long 6 _ [] (by decide)
  have hfit : ∀ d ∈ reached 6 [arrivalAt (QJsonValue.double 1) 1000],
      etaFits (elem (versionAt 61000).array 2).toDouble d.array := by
    intro d hd
    rw [hreach, List.mem_singleton] at hd
    subst hd
    unfold etaFits
    rw [etaOf_overdue]
    rfl
  rw [onArrivalsDataReceived_eq _ _ _ _ (by decide), if_pos hfit, hreach]
  have hv : vehicleOf exampleDeps (elem (versionAt 61000).array 2).toDouble
      (arrivalAt (QJsonValue.double 1) 1000).array =
      { exampleDeps.newVehicle with
          line := "N1", destination := "Waterloo", id := "LX07ABC", eta := -1 } := by
    unfold vehicleOf
    rw [etaOf_overdue]
    rfl
  have hd : lastDirection exampleDeps exampleState.currentBusDirectionId
      [arrivalAt (QJsonValue.double 1) 1000] = "1" := by
    show QString.number exampleDeps.formatG 1 = "1"
    simp [QString.number]
    rfl
  simp only [List.map_cons, List.map_nil, hv, hd]

theorem etaOf_fractional (dir : QJsonValue) :
    etaOf (elem (versionAt (1 / 2 ^ 60)).array 2).toDouble (arrivalAt dir 30000).array =
      some 1 := by
  have hnd : nearestDouble (30000 - 1 / 2 ^ 60) = 30000 := by
    have hpos : (0 : ℚ) < 30000 - 1 / 2 ^ 60 := by norm_num
    rw [nearestDouble_eq (30000 - 1 / 2 ^ 60) 14 8246337208320000
      (by rw [abs_of_pos hpos]; norm_num) (by rw [abs_of_pos hpos]; norm_num) (by norm_num)
      (by rw [abs_lt]; norm_num [zpow_neg])]
    norm_num [zpow_neg]
  have h1 : fl ((elem (arrivalAt dir 30000).array 5).toDouble -
      (elem (versionAt (1 / 2 ^ 60)).array 2).toDouble) = some 30000 := by
    show fl (30000 - 1 / 2 ^ 60) = some 30000
    rw [fl_eq, hnd, if_pos (by norm_num)]
  have h2 : fl ((30000 : ℚ) / 1000) = some 30 := by
    have e : (30000 : ℚ) / 1000 = ((30 : Int) : ℚ) := by norm_num
    rw [e, fl_intCast 30 (by norm_num)]
    norm_num
  have h3 : fl ((30 : ℚ) / 60) = some (1 / 2) := by
    have e : (30 : ℚ) / 60 = ((1 : Int) : ℚ) / 2 := by norm_num
    rw [e, fl_half 1 (by norm_num)]
    norm_num
  have hr : roundInt (1 / 2) = 1 := by
    apply roundInt_eq
    unfold IsRoundHalfAwayFromZero
    right
    have e1 : |((1 : Int) : ℚ) - 1 / 2| = 1 / 2 := by
      rw [abs_of_pos (by norm_num)]
      norm_num
    have e2 : |(1 / 2 : ℚ)| < |((1 : Int) : ℚ)| := by
      rw [abs_of_pos (by norm_num), abs_of_pos (by norm_num)]
      norm_num
    exact ⟨e1, e2⟩
  rw [etaOf_eq _ _ 30000 30 (1 / 2) h1 h2 h3, hr, if_pos (by decide)]

/-- C1, as stated, fails: with the server time 2^-60 and a prediction at 30000 the
quotient (30000 − 2^-60) / 60000 lies below one half and rounds to 0, while the
handler publishes the eta 1: the subtraction is a `double` operation and gives 30000. -/
theorem fractional_server_time_rounds_up :
    (3 ≤ (versionAt (1 / 2 ^ 60)).array.length ∧
      6 ≤ (arrivalAt (QJsonValue.double 1) 30000).array.length) ∧
    (exampleState.onArrivalsDataReceived exampleDeps
        (some [versionAt (1 / 2 ^ 60), arrivalAt (QJsonValue.double 1) 30000])).map
      (fun s => s.arrivalsContainer.data.map (fun v => v.eta)) = some [1] ∧
    roundInt (((elem (arrivalAt (QJsonValue.double 1) 30000).array 5).toDouble -
      (elem (versionAt (1 / 2 ^ 60)).array 2).toDouble) / 60000) = 0 ∧
    ¬ IsRoundHalfAwayFromZero
      (((elem (arrivalAt (QJsonValue.double 1) 30000).array 5).toDouble -
        (elem (versionAt (1 / 2 ^ 60)).array 2).toDouble) / 60000) 1 := by
  have hreach : reached 6 [arrivalAt (QJsonValue.double 1) 30000] =
      [arrivalAt (QJsonValue.double 1) 30000] :=
    reached_cons_long 6 _ [] (by decide)
  have hfit : ∀ d ∈ reached 6 [arrivalAt (QJsonValue.double 1) 30000],
      etaFits (elem (versionAt (1 / 2 ^ 60)).array 2).toDouble d.array := by
    intro d hd
    rw [hreach, List.mem_singleton] at hd
    subst hd
    unfold etaFits
    rw [etaOf_fractional]
    rfl
  have hr : roundInt (((elem (arrivalAt (QJsonValue.double 1) 30000).array 5).toDouble -
      (elem (versionAt (1 / 2 ^ 60)).array 2).toDouble) / 60000) = 0 := by
    show roundInt ((30000 - 1 / 2 ^ 60) / 60000) = 0
    apply roundInt_eq
    unfold IsRoundHalfAwayFromZero
    left
    norm_num [abs_lt]
  refine ⟨⟨by decide, by decide⟩, ?_, hr, ?_⟩
  · rw [onArrivalsDataReceived_eq _ _ _ _ (by decide), if_pos hfit, hreach]
    simp only [Option.map_some', List.map_cons, List.map_nil, vehicleOf, etaOf_fractional,
      Option.getD_some]
  · intro h1
    have := isRound_unique _ _ _ (roundInt_isRound _) h1
    rw [hr] at this
    exact absurd this (by decide)

/-- C1, amended: every `Vehicle` that `onArrivalsDataReceived` publishes comes from the
data array at the same position, which has at least 6 elements, and its eta is the
one of the `double` computation.  When element 5 and the server time are whole
numbers less than 2^51 apart, the eta is (element 5 − server time) / 60000 rounded to
the nearest integer with halves away from zero.  In every case a prediction earlier
than the server time gives an eta that is not positive, and a negative one from half
a minute on: it is not clamped to zero. -/
theorem eta_of_whole_milliseconds (deps : Deps) (s s1 : ArrivalsLogic)
    (version : QJsonDocument) (rest : List QJsonDocument) (hv : 3 ≤ version.array.length)
    (h : s.onArrivalsDataReceived deps (some (version :: rest)) = some s1)
    (i : Nat) (v : Vehicle) (hi : s1.arrivalsContainer.data[i]? = some v) :
    ∃ d, rest[i]? = some d ∧ 6 ≤ d.array.length ∧
      etaOf (elem version.array 2).toDouble d.array = some v.eta ∧
      (∀ A T : Int, (elem d.array 5).toDouble = A → (elem version.array 2).toDouble = T →
        |A - T| < 2 ^ 51 →
        IsRoundHalfAwayFromZero
          (((elem d.array 5).toDouble - (elem version.array 2).toDouble) / 60000) v.eta) ∧
      ((elem d.array 5).toDouble < (elem version.array 2).toDouble → v.eta ≤ 0) ∧
      ((elem d.array 5).toDouble + 30000 ≤ (elem version.array 2).toDouble → v.eta < 0) := by
  rw [onArrivalsDataReceived_eq deps s version rest hv] at h
  split at h
  · rename_i hfit
    simp only [Option.some.injEq] at h
    subst h
    simp only [List.getElem?_map, Option.map_eq_some'] at hi
    obtain ⟨d, hd, rfl⟩ := hi
    have hr := reached_getElem? 6 rest i d hd
    have hmem : d ∈ reached 6 rest := List.mem_iff_getElem?.mpr ⟨i, hd⟩
    have hsome := hfit d hmem
    unfold etaFits at hsome
    obtain ⟨e, he⟩ := Option.isSome_iff_exists.mp hsome
    have hve : (vehicleOf deps (elem version.array 2).toDouble d.array).eta = e := by
      unfold vehicleOf
      rw [he]
      rfl
    rw [hve]
    refine ⟨d, hr.1, hr.2, he, ?_, ?_, ?_⟩
    · intro A T hA hT hD
      rw [etaOf_integral _ _ A T hA hT hD] at he
      split at he
      · simp only [Option.some.injEq] at he
        rw [← he]
        exact roundInt_isRound _
      · simp at he
    · intro hlt
      exact etaOf_nonpos _ _ e he hlt.le
    · intro hle
      exact etaOf_neg _ _ e he hle
  · simp at h

theorem eta_of_whole_milliseconds_witness :
    ∃ d, [arrivalAt (QJsonValue.double 1) 1000][0]? = some d ∧ 6 ≤ d.array.length ∧
      etaOf (elem (versionAt 61000).array 2).toDouble d.array = some (-1) ∧
      (∀ A T : Int, (elem d.array 5).toDouble = A →
        (elem (versionAt 61000).array 2).toDouble = T → |A - T| < 2 ^ 51 →
        IsRoundHalfAwayFromZero
          (((elem d.array 5).toDouble - (elem (versionAt 61000).array 2).toDouble) / 60000)
          (-1)) ∧
      ((elem d.array 5).toDouble < (elem (versionAt 61000).array 2).toDouble → (-1 : Int) ≤ 0) ∧
      ((elem d.array 5).toDouble + 30000 ≤ (elem (versionAt 61000).array 2).toDouble →
        (-1 : Int) < 0) :=
  eta_of_whole_milliseconds exampleDeps exampleState _ (versionAt 61000)
    [arrivalAt (QJsonValue.double 1) 1000] (by decide) arrivals_overdue_run 0
    { exampleDeps.newVehicle with
        line := "N1", destination := "Waterloo", id := "LX07ABC", eta := -1 } rfl

/-- The scenario of the spec with its unconstrained positions left open: server time
1000 and one record predicted at 61000, whose direction element is `dir`. -/
theorem arrivals_scenario_run (deps : Deps) (s : ArrivalsLogic) (x0 x1 y0 dir : QJsonValue) :
    s.onArrivalsDataReceived deps
        (some [QJsonDocument.ofArray [x0, x1, QJsonValue.double 1000],
               QJsonDocument.ofArray [y0, QJsonValue.string "N1", dir,
                 QJsonValue.string "Waterloo", QJsonValue.string "LX07ABC",
                 QJsonValue.double 61000]]) =
      some { arrivalsDone s with
        currentBusDirectionId := QString.number deps.formatG dir.toDouble
        arrivalsContainer := { data := [{ deps.newVehicle with
          line := "N1", destination := "Waterloo", id := "LX07ABC", eta := 1 }] } } := by
  have hreach : reached 6 [QJsonDocument.ofArray [y0, QJsonValue.string "N1", dir,
      QJsonValue.string "Waterloo", QJsonValue.string "LX07ABC", QJsonValue.double 61000]] =
      [QJsonDocument.ofArray [y0, QJsonValue.string "N1", dir,
      QJsonValue.string "Waterloo", QJsonValue.string "LX07ABC", QJsonValue.double 61000]] :=
    reached_cons_long 6 _ [] (by simp [QJsonDocument.array])
  have hfit : ∀ d ∈ reached 6 [QJsonDocument.ofArray [y0, QJsonValue.string "N1", dir,
      QJsonValue.string "Waterloo", QJsonValue.string "LX07ABC", QJsonValue.double 61000]],
      etaFits (elem (QJsonDocument.ofArray [x0, x1, QJsonValue.double 1000]).array 2).toDouble
        d.array := by
    intro d hd
    rw [hreach, List.mem_singleton] at hd
    subst hd
    unfold etaFits
    rw [etaOf_scenario]
    rfl
  rw [onArrivalsDataReceived_eq _ _ _ _ (by simp [QJsonDocument.array]), if_pos hfit, hreach]
  have hv : vehicleOf deps (elem (QJsonDocument.ofArray [x0, x1, QJsonValue.double 1000]).array 2).toDouble
      (QJsonDocument.ofArray [y0, QJsonValue.string "N1", dir,
      QJsonValue.string "Waterloo", QJsonValue.string "LX07ABC", QJsonValue.double 61000]).array =
      { deps.newVehicle with
          line := "N1", destination := "Waterloo", id := "LX07ABC", eta := 1 } := by
    unfold vehicleOf
    rw [etaOf_scenario]
    rfl
  simp only [List.map_cons, List.map_nil, hv]
  rfl

/-- C2: the published Vehicles stand in the order of the data arrays: the Vehicle at
position `i` is built from the data array at position `i`, which has at least 6 elements,
with line = element 1, destination = element 3 and id = element 4 read as strings, and
there is one Vehicle for each array reached.  For the version array `[_, _, 1000]` and
the single record `[_, "N1", "5", "Waterloo", "LX07ABC", 61000]` exactly one Vehicle is
published: line N1, destination Waterloo, id LX07ABC, eta 1. -/
theorem vehicles_follow_records (deps : Deps) (s s1 : ArrivalsLogic) (version : QJsonDocument)
    (rest : List QJsonDocument) (hv : 3 ≤ version.array.length)
    (h : s.onArrivalsDataReceived deps (some (version :: rest)) = some s1) :
    s1.arrivalsContainer.data.length = (reached 6 rest).length ∧
    (∀ (i : Nat) (v : Vehicle), s1.arrivalsContainer.data[i]? = some v →
      ∃ d, rest[i]? = some d ∧ 6 ≤ d.array.length ∧
        v.line = (elem d.array 1).toString ∧
        v.destination = (elem d.array 3).toString ∧
        v.id = (elem d.array 4).toString) ∧
    (∀ x0 x1 y0 : QJsonValue, ∃ s2,
      s.onArrivalsDataReceived deps
        (some [QJsonDocument.ofArray [x0, x1, QJsonValue.double 1000],
               QJsonDocument.ofArray [y0, QJsonValue.string "N1", QJsonValue.string "5",
                 QJsonValue.string "Waterloo", QJsonValue.string "LX07ABC",
                 QJsonValue.double 61000]]) = some s2 ∧
      s2.arrivalsContainer.data = [{ deps.newVehicle with
          line := "N1", destination := "Waterloo", id := "LX07ABC", eta := 1 }]) := by
  refine ⟨?_, ?_, ?_⟩
  · rw [onArrivalsDataReceived_eq deps s version rest hv] at h
    split at h
    · simp only [Option.some.injEq] at h
      subst h
      simp
    · simp at h
  · intro i v hi
    rw [onArrivalsDataReceived_eq deps s version rest hv] at h
    split at h
    · simp only [Option.some.injEq] at h
      subst h
      simp only [List.getElem?_map, Option.map_eq_some'] at hi
      obtain ⟨d, hd, rfl⟩ := hi
      have hr := reached_getElem? 6 rest i d hd
      exact ⟨d, hr.1, hr.2, rfl, rfl, rfl⟩
    · simp at h
  · intro x0 x1 y0
    exact ⟨_, arrivals_scenario_run deps s x0 x1 y0 (QJsonValue.string "5"), rfl⟩

theorem vehicles_follow_records_witness :
    ({ data := [{ exampleDeps.newVehicle with
          line := "N1", destination := "Waterloo", id := "LX07ABC", eta := 1 }] } :
        ArrivalsContainer).data.length =
      (reached 6 [arrivalAt (QJsonValue.string "5") 61000]).length ∧
    (∀ (i : Nat) (v : Vehicle),
      [({ exampleDeps.newVehicle with
          line := "N1", destination := "Waterloo", id := "LX07ABC", eta := 1 } : Vehicle)][i]? =
        some v →
      ∃ d, [arrivalAt (QJsonValue.string "5") 61000][i]? = some d ∧ 6 ≤ d.array.length ∧
        v.line = (elem d.array 1).toString ∧
        v.destination = (elem d.array 3).toString ∧
        v.id = (elem d.array 4).toString) ∧
    (∀ x0 x1 y0 : QJsonValue, ∃ s2,
      exampleState.onArrivalsDataReceived exampleDeps
        (some [QJsonDocument.ofArray [x0, x1, QJsonValue.double 1000],
               QJsonDocument.ofArray [y0, QJsonValue.string "N1", QJsonValue.string "5",
                 QJsonValue.string "Waterloo", QJsonValue.string "LX07ABC",
                 QJsonValue.double 61000]]) = some s2 ∧
      s2.arrivalsContainer.data = [{ exampleDeps.newVehicle with
          line := "N1", destination := "Waterloo", id := "LX07ABC", eta := 1 }]) :=
  vehicles_follow_records exampleDeps exampleState _ (versionAt 1000)
    [arrivalAt (QJsonValue.string "5") 61000] (by decide)
    (arrivals_scenario_run exampleDeps exampleState (QJsonValue.double 4)
      (QJsonValue.string "1.0") (QJsonValue.double 1) (QJsonValue.string "5"))

/-! ## Stop messages -/

theorem toInt_eq (x : ℚ) :
    toInt x = if INT_MIN ≤ truncate x ∧ truncate x ≤ INT_MAX then some (truncate x) else none := by
  unfold toInt
  rfl

theorem values_insert (k : Int) (v : String) (m : QMultiMap) (j : Int) :
    QMultiMap.values (QMultiMap.insert k v m) j =
      if k = j then v :: QMultiMap.values m j else QMultiMap.values m j := by
  induction m with
  | nil =>
    by_cases h : k = j <;> simp [QMultiMap.insert, QMultiMap.values, h]
  | cons kv t ih =>
    obtain ⟨k0, v0⟩ := kv
    unfold QMultiMap.insert
    by_cases hlt : k0 < k
    · rw [if_pos hlt]
      have hne : k0 = j → ¬ k = j := by intro h1 h2; omega
      unfold QMultiMap.values at ih ⊢
      by_cases h0 : k0 = j
      · have hk : ¬ k = j := hne h0
        rw [if_neg hk] at ih ⊢
        simp only [List.filter_cons, h0, decide_True, if_true, List.map_cons]
        rw [← h0] at ih ⊢
        simp only [h0] at ih ⊢
        rw [ih]
      · by_cases hk : k = j
        · rw [if_pos hk] at ih ⊢
          simp only [List.filter_cons, h0, decide_False, Bool.false_eq_true, if_false]
          exact ih
        · rw [if_neg hk] at ih ⊢
          simp only [List.filter_cons, h0, decide_False, Bool.false_eq_true, if_false]
          exact ih
    · rw [if_neg hlt]
      unfold QMultiMap.values
      by_cases hk : k = j
      · simp [List.filter_cons, hk]
      · simp [List.filter_cons, hk]

theorem collect_nil (t : ℚ) (m : QMultiMap) : collect t [] m = m := rfl

theorem collect_cons (t : ℚ) (d : QJsonDocument) (ds : List QJsonDocument) (m : QMultiMap) :
    collect t (d :: ds) m =
      collect t ds (if isActive t d.array then
        QMultiMap.insert (priorityOf d.array) (textOf d.array) m else m) := rfl

theorem values_collect (t : ℚ) (ds : List QJsonDocument) (b : Int) :
    ∀ m : QMultiMap, QMultiMap.values (collect t ds m) b =
      (bandLatestFirst t ds b).map (fun d => textOf d.array) ++ QMultiMap.values m b := by
  induction ds with
  | nil => intro m; simp [collect_nil, bandLatestFirst]
  | cons d ds ih =>
    intro m
    rw [collect_cons, ih]
    unfold bandLatestFirst
    by_cases ha : isActive t d.array
    · rw [if_pos ha, values_insert]
      by_cases hp : priorityOf d.array = b
      · rw [if_pos hp]
        simp [List.filter_cons, ha, hp]
      · rw [if_neg hp]
        simp [List.filter_cons, ha, hp]
    · rw [if_neg ha]
      simp [List.filter_cons, ha]

theorem messagesLoop_eq (t : ℚ) (rest : List QJsonDocument) :
    ∀ m : QMultiMap, messagesLoop t rest m =
      if ∀ d ∈ reached 5 rest, priorityFits d.array then some (collect t (reached 5 rest) m)
      else none := by
  induction rest with
  | nil =>
    intro m
    have h : ∀ d ∈ reached 5 [], priorityFits d.array := by
      intro d hd; rw [reached_nil] at hd; cases hd
    rw [if_pos h, messagesLoop, reached_nil, collect_nil]
  | cons d ds ih =>
    intro m
    by_cases hl : 5 ≤ d.array.length
    · have h4 : 4 < d.array.length := by omega
      rw [messagesLoop, if_pos h4, toInt_eq]
      by_cases hf : priorityFits d.array
      · have hf1 : INT_MIN ≤ truncate (elem d.array 1).toDouble ∧
            truncate (elem d.array 1).toDouble ≤ INT_MAX := hf
        rw [if_pos hf1]
        have hstep : (if (elem d.array 3).toDouble ≤ t ∧ (elem d.array 4).toDouble ≥ t then
              messagesLoop t ds
                (QMultiMap.insert (truncate (elem d.array 1).toDouble) (elem d.array 2).toString m)
            else messagesLoop t ds m) =
            messagesLoop t ds (if isActive t d.array then
              QMultiMap.insert (priorityOf d.array) (textOf d.array) m else m) := by
          by_cases ha : isActive t d.array
          · have ha1 : (elem d.array 3).toDouble ≤ t ∧ (elem d.array 4).toDouble ≥ t := ha
            rw [if_pos ha, if_pos ha1]
            rfl
          · have ha1 : ¬ ((elem d.array 3).toDouble ≤ t ∧ (elem d.array 4).toDouble ≥ t) := ha
            rw [if_neg ha, if_neg ha1]
        show (if (elem d.array 3).toDouble ≤ t ∧ (elem d.array 4).toDouble ≥ t then
              messagesLoop t ds
                (QMultiMap.insert (truncate (elem d.array 1).toDouble) (elem d.array 2).toString m)
            else messagesLoop t ds m) = _
        rw [hstep, ih]
        by_cases hall : ∀ e ∈ reached 5 ds, priorityFits e.array
        · have hall2 : ∀ e ∈ reached 5 (d :: ds), priorityFits e.array := by
            intro e he
            rw [reached_cons_long 5 d ds hl, List.mem_cons] at he
            rcases he with rfl | he
            · exact hf
            · exact hall e he
          rw [if_pos hall, if_pos hall2, reached_cons_long 5 d ds hl, collect_cons]
        · have hall2 : ¬ ∀ e ∈ reached 5 (d :: ds), priorityFits e.array := by
            intro h
            apply hall
            intro e he
            apply h
            rw [reached_cons_long 5 d ds hl]
            exact List.mem_cons_of_mem _ he
          rw [if_neg hall, if_neg hall2]
      · have hf1 : ¬ (INT_MIN ≤ truncate (elem d.array 1).toDouble ∧
            truncate (elem d.array 1).toDouble ≤ INT_MAX) := hf
        rw [if_neg hf1]
        have hall2 : ¬ ∀ e ∈ reached 5 (d :: ds), priorityFits e.array := by
          intro h
          apply hf
          apply h
          rw [reached_cons_long 5 d ds hl]
          exact List.mem_cons_self _ _
        rw [if_neg hall2]
    · have h4 : ¬ 4 < d.array.length := by omega
      have h : ∀ e ∈ reached 5 (d :: ds), priorityFits e.array := by
        intro e he; rw [reached_cons_short 5 d ds (by omega)] at he; cases he
      rw [if_pos h, messagesLoop, if_neg h4, reached_cons_short 5 d ds (by omega), collect_nil]

theorem bulleted_append (xs ys : List String) :
    bulleted (xs ++ ys) = bulleted xs ++ bulleted ys := by
  induction xs with
  | nil => simp [bulleted, String.empty_append]
  | cons x xs ih =>
    rw [List.cons_append]
    simp only [bulleted]
    rw [ih]
    simp only [String.append_assoc]

theorem appendMessages_eq (ms : List String) :
    ∀ text : String, appendMessages text ms = text ++ bulleted ms := by
  induction ms with
  | nil => intro text; simp [appendMessages, bulleted, String.append_empty]
  | cons m ms ih =>
    intro text
    simp only [appendMessages, bulleted, ih, String.append_assoc]

theorem foldl_appendMessages (f : Int → List String) (l : List Int) :
    ∀ text : String,
      l.foldl (fun text index => appendMessages text (f index)) text =
        text ++ bulleted (l.flatMap f) := by
  induction l with
  | nil => intro text; simp [bulleted, String.append_empty]
  | cons i l ih =>
    intro text
    rw [List.foldl_cons, ih, appendMessages_eq, List.flatMap_cons, bulleted_append,
      String.append_assoc]

theorem fillCurrentStopMessages_text (s : ArrivalsLogic) (t : ℚ) (ds : List QJsonDocument) :
    (s.fillCurrentStopMessages (collect t ds [])).currentStopMessages =
      s.currentStopMessages ++ bulleted ((shownRecords t ds).map (fun d => textOf d.array)) := by
  unfold ArrivalsLogic.fillCurrentStopMessages
  simp only []
  rw [foldl_appendMessages (fun index => QMultiMap.values (collect t ds []) index)]
  congr 2
  unfold shownRecords
  rw [List.map_flatMap]
  congr 1
  funext b
  rw [values_collect]
  simp [QMultiMap.values]

theorem onBusStopMessageReceived_eq (s : ArrivalsLogic) (version : QJsonDocument)
    (rest : List QJsonDocument) (hv : 3 ≤ version.array.length) :
    s.onBusStopMessageReceived (some (version :: rest)) =
      if ∀ d ∈ reached 5 rest, priorityFits d.array then
        some (s.fillCurrentStopMessages
          (collect (elem version.array 2).toDouble (reached 5 rest) []))
      else none := by
  have h2 : 2 < version.array.length := by omega
  unfold ArrivalsLogic.onBusStopMessageReceived
  simp only [makeDocument, if_pos h2]
  rw [messagesLoop_eq]
  by_cases hf : ∀ d ∈ reached 5 rest, priorityFits d.array
  · rw [if_pos hf, if_pos hf]
  · rw [if_neg hf, if_neg hf]

theorem onBusStopMessageReceived_text (s s1 : ArrivalsLogic) (version : QJsonDocument)
    (rest : List QJsonDocument) (hv : 3 ≤ version.array.length)
    (h : s.onBusStopMessageReceived (some (version :: rest)) = some s1) :
    s1.currentStopMessages = s.currentStopMessages ++
      bulleted ((shownRecords (elem version.array 2).toDouble (reached 5 rest)).map
        (fun d => textOf d.array)) := by
  rw [onBusStopMessageReceived_eq s version rest hv] at h
  split at h
  · simp only [Option.some.injEq] at h
    rw [← h, fillCurrentStopMessages_text]
  · simp at h

theorem mem_shownRecords (t : ℚ) (ds : List QJsonDocument) (d : QJsonDocument) :
    d ∈ shownRecords t ds ↔
      d ∈ ds ∧ isActive t d.array ∧ 0 ≤ priorityOf d.array ∧ priorityOf d.array ≤ 5 := by
  unfold shownRecords bandLatestFirst
  simp only [List.mem_flatMap, List.mem_reverse, List.mem_filter, decide_eq_true_eq]
  constructor
  · rintro ⟨b, hb, hd, ha, hp⟩
    refine ⟨hd, ha, ?_⟩
    simp only [List.mem_cons, List.mem_singleton, List.not_mem_nil, or_false] at hb
    omega
  · rintro ⟨hd, ha, h0, h5⟩
    refine ⟨priorityOf d.array, ?_, hd, ha, rfl⟩
    simp only [List.mem_cons, List.mem_singleton, List.not_mem_nil, or_false]
    omega

theorem isActive_messageAt (t p a b : ℚ) (text : String) :
    isActive t (messageAt p text a b).array ↔ a ≤ t ∧ t ≤ b := Iff.rfl

theorem priorityOf_messageAt (n : Int) (a b : ℚ) (text : String) :
    priorityOf (messageAt (n : ℚ) text a b).array = n := by
  show truncate (n : ℚ) = n
  exact truncate_intCast n

theorem priorityFits_messageAt (n : Int) (a b : ℚ) (text : String)
    (h : INT_MIN ≤ n ∧ n ≤ INT_MAX) : priorityFits (messageAt (n : ℚ) text a b).array := by
  show INT_MIN ≤ truncate (n : ℚ) ∧ truncate (n : ℚ) ≤ INT_MAX
  rw [truncate_intCast]
  exact h

/-- An active message of priority 7 leaves the text empty. -/
theorem messages_band_seven_run :
    exampleState.onBusStopMessageReceived (some [versionAt 100, messageAt 7 "Strike" 0 200]) =
      some (exampleState.fillCurrentStopMessages
        (collect 100 [messageAt 7 "Strike" 0 200] [])) ∧
    (exampleState.fillCurrentStopMessages
        (collect 100 [messageAt 7 "Strike" 0 200] [])).currentStopMessages = "" := by
  have hreach : reached 5 [messageAt 7 "Strike" 0 200] = [messageAt 7 "Strike" 0 200] :=
    reached_cons_long 5 _ [] (by decide)
  have hp : priorityOf (messageAt 7 "Strike" 0 200).array = 7 := by
    have := priorityOf_messageAt 7 0 200 "Strike"
    simpa using this
  have hfit : ∀ d ∈ reached 5 [messageAt 7 "Strike" 0 200], priorityFits d.array := by
    intro d hd
    rw [hreach, List.mem_singleton] at hd
    subst hd
    have := priorityFits_messageAt 7 0 200 "Strike" (by decide)
    simpa using this
  constructor
  · rw [onBusStopMessageReceived_eq _ _ _ (by decide), if_pos hfit, hreach]
    rfl
  · rw [fillCurrentStopMessages_text]
    have hs : shownRecords 100 [messageAt 7 "Strike" 0 200] = [] := by
      simp [shownRecords, bandLatestFirst, hp]
    rw [hs]
    rfl

theorem onBusStopMessageReceived_run (s : ArrivalsLogic) (version : QJsonDocument)
    (rest : List QJsonDocument) (hv : 3 ≤ version.array.length)
    (hfit : ∀ d ∈ reached 5 rest, priorityFits d.array) :
    s.onBusStopMessageReceived (some (version :: rest)) =
      some (s.fillCurrentStopMessages
        (collect (elem version.array 2).toDouble (reached 5 rest) [])) := by
  rw [onBusStopMessageReceived_eq s version rest hv, if_pos hfit]

/-- Two active messages of priority 1, "A" arriving before "B". -/
theorem messages_same_band_run :
    exampleState.onBusStopMessageReceived
        (some [versionAt 100, messageAt 1 "A" 0 200, messageAt 1 "B" 0 200]) =
      some (exampleState.fillCurrentStopMessages
        (collect 100 [messageAt 1 "A" 0 200, messageAt 1 "B" 0 200] [])) ∧
    (exampleState.fillCurrentStopMessages
        (collect 100 [messageAt 1 "A" 0 200, messageAt 1 "B" 0 200] [])).currentStopMessages =
      " * B * A" := by
  have hreach : reached 5 [messageAt 1 "A" 0 200, messageAt 1 "B" 0 200] =
      [messageAt 1 "A" 0 200, messageAt 1 "B" 0 200] := by
    rw [reached_cons_long 5 _ _ (by decide), reached_cons_long 5 _ _ (by decide), reached_nil]
  have hpA : priorityOf (messageAt 1 "A" 0 200).array = 1 := by
    have := priorityOf_messageAt 1 0 200 "A"
    simpa using this
  have hpB : priorityOf (messageAt 1 "B" 0 200).array = 1 := by
    have := priorityOf_messageAt 1 0 200 "B"
    simpa using this
  have haA : isActive 100 (messageAt 1 "A" 0 200).array := by
    rw [isActive_messageAt]; norm_num
  have haB : isActive 100 (messageAt 1 "B" 0 200).array := by
    rw [isActive_messageAt]; norm_num
  have hfit : ∀ d ∈ reached 5 [messageAt 1 "A" 0 200, messageAt 1 "B" 0 200],
      priorityFits d.array := by
    intro d hd
    rw [hreach] at hd
    simp only [List.mem_cons, List.mem_singleton, List.not_mem_nil, or_false] at hd
    rcases hd with rfl | rfl
    · have := priorityFits_messageAt 1 0 200 "A" (by decide)
      simpa using this
    · have := priorityFits_messageAt 1 0 200 "B" (by decide)
      simpa using this
  constructor
  · rw [onBusStopMessageReceived_run _ _ _ (by decide) hfit, hreach]
    rfl
  · rw [fillCurrentStopMessages_text]
    have hs : shownRecords 100 [messageAt 1 "A" 0 200, messageAt 1 "B" 0 200] =
        [messageAt 1 "B" 0 200, messageAt 1 "A" 0 200] := by
      simp [shownRecords, bandLatestFirst, hpA, hpB, haA, haB]
    rw [hs]
    decide

/-- C3, as stated, fails: at server time 100 a message record that is active from 0 to 200
but has priority 7 is processed, yet the text produced is empty. -/
theorem active_message_of_band_seven_absent :
    isActive (elem (versionAt 100).array 2).toDouble (messageAt 7 "Strike" 0 200).array ∧
    (exampleState.onBusStopMessageReceived
        (some [versionAt 100, messageAt 7 "Strike" 0 200])).map
      (fun s => s.currentStopMessages) = some "" := by
  constructor
  · show (0 : ℚ) ≤ 100 ∧ (100 : ℚ) ≤ 200
    norm_num
  · rw [messages_band_seven_run.1, Option.map_some', messages_band_seven_run.2]

/-- C3, amended: after a messages cycle with a usable version array the text is the
previous text followed by the bulleted texts of the shown records, and a record is
shown if and only if the loop reaches it (it has at least 5 elements and no shorter
record precedes it), its active window contains the server time, and its priority,
truncated to an integer, lies in 0..5. -/
theorem message_shown_iff (s s1 : ArrivalsLogic) (version : QJsonDocument)
    (rest : List QJsonDocument) (hv : 3 ≤ version.array.length)
    (h : s.onBusStopMessageReceived (some (version :: rest)) = some s1) :
    s1.currentStopMessages = s.currentStopMessages ++
      bulleted ((shownRecords (elem version.array 2).toDouble (reached 5 rest)).map
        (fun d => textOf d.array)) ∧
    ∀ d, d ∈ shownRecords (elem version.array 2).toDouble (reached 5 rest) ↔
      d ∈ reached 5 rest ∧
      ((elem d.array 3).toDouble ≤ (elem version.array 2).toDouble ∧
        (elem version.array 2).toDouble ≤ (elem d.array 4).toDouble) ∧
      0 ≤ truncate (elem d.array 1).toDouble ∧ truncate (elem d.array 1).toDouble ≤ 5 :=
  ⟨onBusStopMessageReceived_text s s1 version rest hv h,
   fun d => mem_shownRecords (elem version.array 2).toDouble (reached 5 rest) d⟩

theorem message_shown_iff_witness :
    (exampleState.fillCurrentStopMessages
        (collect 100 [messageAt 7 "Strike" 0 200] [])).currentStopMessages =
      exampleState.currentStopMessages ++
      bulleted ((shownRecords (elem (versionAt 100).array 2).toDouble
        (reached 5 [messageAt 7 "Strike" 0 200])).map (fun d => textOf d.array)) ∧
    ∀ d, d ∈ shownRecords (elem (versionAt 100).array 2).toDouble
        (reached 5 [messageAt 7 "Strike" 0 200]) ↔
      d ∈ reached 5 [messageAt 7 "Strike" 0 200] ∧
      ((elem d.array 3).toDouble ≤ (elem (versionAt 100).array 2).toDouble ∧
        (elem (versionAt 100).array 2).toDouble ≤ (elem d.array 4).toDouble) ∧
      0 ≤ truncate (elem d.array 1).toDouble ∧ truncate (elem d.array 1).toDouble ≤ 5 :=
  message_shown_iff exampleState _ (versionAt 100) [messageAt 7 "Strike" 0 200] (by decide)
    messages_band_seven_run.1

/-- C4, as stated, fails: of two active messages of priority 1, "A" arriving before "B",
the text shows "B" first, while the order of arrival would show "A" first. -/
theorem same_band_shows_latest_first :
    (exampleState.onBusStopMessageReceived
        (some [versionAt 100, messageAt 1 "A" 0 200, messageAt 1 "B" 0 200])).map
      (fun s => s.currentStopMessages) = some " * B * A" ∧
    arrivalOrderText (elem (versionAt 100).array 2).toDouble
      [messageAt 1 "A" 0 200, messageAt 1 "B" 0 200] = " * A * B" ∧
    (" * B * A" : String) ≠ " * A * B" := by
  refine ⟨?_, ?_, by decide⟩
  · rw [messages_same_band_run.1, Option.map_some', messages_same_band_run.2]
  · have hpA : priorityOf (messageAt 1 "A" 0 200).array = 1 := by
      have := priorityOf_messageAt 1 0 200 "A"
      simpa using this
    have hpB : priorityOf (messageAt 1 "B" 0 200).array = 1 := by
      have := priorityOf_messageAt 1 0 200 "B"
      simpa using this
    have haA : isActive 100 (messageAt 1 "A" 0 200).array := by
      rw [isActive_messageAt]; norm_num
    have haB : isActive 100 (messageAt 1 "B" 0 200).array := by
      rw [isActive_messageAt]; norm_num
    show arrivalOrderText 100 [messageAt 1 "A" 0 200, messageAt 1 "B" 0 200] = " * A * B"
    have hs : (([0, 1, 2, 3, 4, 5] : List Int).flatMap (fun b =>
        ([messageAt 1 "A" 0 200, messageAt 1 "B" 0 200].filter (fun d =>
          decide (isActive 100 d.array ∧ priorityOf d.array = b))).map
          (fun d => textOf d.array))) = ["A", "B"] := by
      simp [hpA, hpB, haA, haB]
      exact ⟨rfl, rfl⟩
    unfold arrivalOrderText
    rw [hs]
    decide

/-- C4, amended: starting from an empty text, the text after one messages cycle is
the concatenation, each after the marker " * ", of the texts of the active records
reached by the loop, band by band for the priorities 0 to 5 in ascending order, and
within one band from the record that arrived last to the one that arrived first. -/
theorem messages_text_order (s s1 : ArrivalsLogic) (version : QJsonDocument)
    (rest : List QJsonDocument) (hv : 3 ≤ version.array.length)
    (h0 : s.currentStopMessages = "")
    (h : s.onBusStopMessageReceived (some (version :: rest)) = some s1) :
    s1.currentStopMessages =
      bulleted (([0, 1, 2, 3, 4, 5] : List Int).flatMap (fun b =>
        (((reached 5 rest).filter (fun d =>
          decide (((elem d.array 3).toDouble ≤ (elem version.array 2).toDouble ∧
              (elem version.array 2).toDouble ≤ (elem d.array 4).toDouble) ∧
            truncate (elem d.array 1).toDouble = b))).reverse).map
          (fun d => (elem d.array 2).toString))) := by
  rw [onBusStopMessageReceived_text s s1 version rest hv h, h0, String.empty_append]
  unfold shownRecords
  rw [List.map_flatMap]
  rfl

theorem messages_text_order_witness :
    (exampleState.fillCurrentStopMessages
        (collect 100 [messageAt 1 "A" 0 200, messageAt 1 "B" 0 200] [])).currentStopMessages =
      bulleted (([0, 1, 2, 3, 4, 5] : List Int).flatMap (fun b =>
        (((reached 5 [messageAt 1 "A" 0 200, messageAt 1 "B" 0 200]).filter (fun d =>
          decide (((elem d.array 3).toDouble ≤ (elem (versionAt 100).array 2).toDouble ∧
              (elem (versionAt 100).array 2).toDouble ≤ (elem d.array 4).toDouble) ∧
            truncate (elem d.array 1).toDouble = b))).reverse).map
          (fun d => (elem d.array 2).toString))) :=
  messages_text_order exampleState _ (versionAt 100)
    [messageAt 1 "A" 0 200, messageAt 1 "B" 0 200] (by decide) rfl messages_same_band_run.1

/-! ## Stop detail and stop list -/

theorem addsToDb_iff (a : List QJsonValue) : addsToDb a = true ↔ isKept a := by
  unfold addsToDb isKept allowList
  simp only [List.mem_cons, List.mem_singleton, List.not_mem_nil, or_false]
  by_cases hc : (elem a 3).toString = "STBR" ∨ (elem a 3).toString = "STBC" ∨
      (elem a 3).toString = "SRVA" ∨ (elem a 3).toString = "STZZ" ∨
      (elem a 3).toString = "STBN" ∨ (elem a 3).toString = "SLRS" ∨
      (elem a 3).toString = "STBS" ∨ (elem a 3).toString = "STSS"
  · rw [if_pos hc]
    cases hn : (elem a 2).isNull <;> simp [hc]
  · rw [if_neg hc]
    simp [hc]

theorem stopsLoop_eq (deps : Deps) (rest : List QJsonDocument) :
    ∀ db : List Stop, stopsLoop deps rest db =
      db ++ ((reached 8 rest).filter (fun d => decide (isKept d.array))).map
        (fun d => stopOfRecord deps d.array) := by
  induction rest with
  | nil => intro db; simp [stopsLoop, reached_nil]
  | cons d ds ih =>
    intro db
    by_cases hl : 8 ≤ d.array.length
    · have h7 : ¬ (7 ≥ d.array.length) := by omega
      rw [stopsLoop, if_neg h7, reached_cons_long 8 d ds hl]
      by_cases hk : isKept d.array
      · have ha : addsToDb d.array = true := (addsToDb_iff _).mpr hk
        simp only [ha, if_true, ih, Stop.addToDb, List.filter_cons, hk, decide_True,
          List.map_cons, List.append_assoc, List.singleton_append]
      · have ha : ¬ addsToDb d.array = true := fun h => hk ((addsToDb_iff _).mp h)
        simp only [ha, if_false, ih, List.filter_cons, hk, decide_False, Bool.false_eq_true]
    · have h7 : 7 ≥ d.array.length := by omega
      rw [stopsLoop, if_pos h7, reached_cons_short 8 d ds (by omega)]
      simp

theorem onListOfBusStopsReceived_stopsDb (deps : Deps) (s : ArrivalsLogic)
    (reply : QNetworkReply) :
    (s.onListOfBusStopsReceived deps reply).stopsDb =
      s.stopsDb ++ ((reached 8 ((makeDocument reply).drop 1)).filter
        (fun d => decide (isKept d.array))).map (fun d => stopOfRecord deps d.array) := by
  unfold ArrivalsLogic.onListOfBusStopsReceived
  simp only [stopsLoop_eq]

theorem stopOfRecord_type (deps : Deps) (a : List QJsonValue) :
    (stopOfRecord deps a).type =
      if (elem a 3).toString = "SLRS" then StopType.River else StopType.Bus := by
  unfold stopOfRecord
  simp only []
  split <;> rfl

theorem onBusStopDataReceived_long (s : ArrivalsLogic) (version data : QJsonDocument)
    (rest : List QJsonDocument) (h7 : 7 ≤ data.array.length) :
    s.onBusStopDataReceived (some (version :: data :: rest)) =
      { s with
        downloadingStop := false
        currentStop :=
          { id := s.currentStop.id
            name := (elem data.array 1).toString
            towards := (elem data.array 3).toString
            indicator := (elem data.array 4).toString
            latitude := (elem data.array 5).toDouble
            longitude := (elem data.array 6).toDouble
            type := if (elem data.array 2).toString = "SLRS" then StopType.River
                    else StopType.Bus }
        effects := s.effects ++
          [Effect.downloadStateChanged, Effect.stopUpdated, Effect.stopDataChanged] } := by
  have hA : data.isArray = true := by
    cases data with
    | ofArray a => rfl
    | ofObject o => simp [QJsonDocument.array] at h7
    | invalid => simp [QJsonDocument.array] at h7
  have h6 : ¬ (6 ≥ data.array.length) := by omega
  unfold ArrivalsLogic.onBusStopDataReceived
  simp only [makeDocument, hA, if_true, if_neg h6]
  by_cases hc : (elem data.array 2).toString = "SLRS"
  · simp [hc, Stop.setName, Stop.setTowards, Stop.setStopPointIndicator, Stop.setLatitude,
      Stop.setLongitude, Stop.setType]
  · simp [hc, Stop.setName, Stop.setTowards, Stop.setStopPointIndicator, Stop.setLatitude,
      Stop.setLongitude, Stop.setType]

/-- C5: the stop-detail mapper sets the current Stop's kind to River exactly when the
stop-type code at position 2 is "SLRS" and to Bus for every other code, and the stop-list
mapper does the same with the code at position 3 for the Stop it builds; every Stop that
the stop-list handler adds to the store is built by that mapper. -/
theorem kind_is_river_iff_code (deps : Deps) (s : ArrivalsLogic) (version data : QJsonDocument)
    (rest : List QJsonDocument) (a : List QJsonValue) (reply : QNetworkReply)
    (h7 : 7 ≤ data.array.length) :
    (((s.onBusStopDataReceived (some (version :: data :: rest))).currentStop.type =
          StopType.River ↔ (elem data.array 2).toString = "SLRS") ∧
      ((elem data.array 2).toString ≠ "SLRS" →
        (s.onBusStopDataReceived (some (version :: data :: rest))).currentStop.type =
          StopType.Bus)) ∧
    (((stopOfRecord deps a).type = StopType.River ↔ (elem a 3).toString = "SLRS") ∧
      ((elem a 3).toString ≠ "SLRS" → (stopOfRecord deps a).type = StopType.Bus)) ∧
    (∀ stop ∈ (s.onListOfBusStopsReceived deps reply).stopsDb,
      stop ∈ s.stopsDb ∨
      ∃ d ∈ (makeDocument reply).drop 1, 8 ≤ d.array.length ∧
        stop = stopOfRecord deps d.array) := by
  refine ⟨?_, ?_, ?_⟩
  · rw [onBusStopDataReceived_long s version data rest h7]
    by_cases hc : (elem data.array 2).toString = "SLRS"
    · simp [hc]
    · simp [hc]
  · rw [stopOfRecord_type]
    by_cases hc : (elem a 3).toString = "SLRS"
    · simp [hc]
    · simp [hc]
  · intro stop hs
    rw [onListOfBusStopsReceived_stopsDb, List.mem_append] at hs
    rcases hs with hs | hs
    · exact Or.inl hs
    · right
      rw [List.mem_map] at hs
      obtain ⟨d, hd, rfl⟩ := hs
      have hd1 := (List.mem_filter.mp hd).1
      unfold reached at hd1
      have hd2 := List.mem_takeWhile_imp hd1
      exact ⟨d, (List.takeWhile_sublist _).subset hd1, by simpa using hd2, rfl⟩

theorem kind_is_river_iff_code_witness :
    (((exampleState.onBusStopDataReceived
          (some [versionAt 100, stopDetailOf "SLRS"])).currentStop.type =
          StopType.River ↔ (elem (stopDetailOf "SLRS").array 2).toString = "SLRS") ∧
      ((elem (stopDetailOf "SLRS").array 2).toString ≠ "SLRS" →
        (exampleState.onBusStopDataReceived
          (some [versionAt 100, stopDetailOf "SLRS"])).currentStop.type = StopType.Bus)) ∧
    (((stopOfRecord exampleDeps (stopListOf (QJsonValue.string "490G") "STBC").array).type =
          StopType.River ↔
        (elem (stopListOf (QJsonValue.string "490G") "STBC").array 3).toString = "SLRS") ∧
      ((elem (stopListOf (QJsonValue.string "490G") "STBC").array 3).toString ≠ "SLRS" →
        (stopOfRecord exampleDeps (stopListOf (QJsonValue.string "490G") "STBC").array).type =
          StopType.Bus)) ∧
    (∀ stop ∈ (exampleState.onListOfBusStopsReceived exampleDeps
        (some [versionAt 100, stopListOf (QJsonValue.string "490G") "STBC"])).stopsDb,
      stop ∈ exampleState.stopsDb ∨
      ∃ d ∈ (makeDocument (some [versionAt 100,
          stopListOf (QJsonValue.string "490G") "STBC"])).drop 1, 8 ≤ d.array.length ∧
        stop = stopOfRecord exampleDeps d.array) :=
  kind_is_river_iff_code exampleDeps exampleState (versionAt 100) (stopDetailOf "SLRS") []
    (stopListOf (QJsonValue.string "490G") "STBC").array
    (some [versionAt 100, stopListOf (QJsonValue.string "490G") "STBC"]) (by decide)

/-- C6: the stops store after `onListOfBusStopsReceived` is the store before it followed
by the Stops of exactly those data arrays reached by the loop (at least 8 elements)
whose stop-type code (element 3) is one of STBR, STBC, SRVA, STZZ, STBN, SLRS, STBS, STSS
and whose code field (element 2) is not null, in their order; the condition under
which the loop calls `addToDb` is that one, so a record with a null code adds nothing. -/
theorem stop_kept_iff_allowed_and_coded (deps : Deps) (s : ArrivalsLogic)
    (reply : QNetworkReply) :
    (s.onListOfBusStopsReceived deps reply).stopsDb =
      s.stopsDb ++ ((reached 8 ((makeDocument reply).drop 1)).filter
        (fun d => decide ((elem d.array 3).toString ∈
            ["STBR", "STBC", "SRVA", "STZZ", "STBN", "SLRS", "STBS", "STSS"] ∧
          (elem d.array 2).isNull = false))).map (fun d => stopOfRecord deps d.array) ∧
    (∀ a : List QJsonValue, addsToDb a = true ↔
      ((elem a 3).toString ∈
          ["STBR", "STBC", "SRVA", "STZZ", "STBN", "SLRS", "STBS", "STSS"] ∧
        (elem a 2).isNull = false)) ∧
    (∀ a : List QJsonValue, (elem a 2).isNull = true → addsToDb a = false) := by
  refine ⟨onListOfBusStopsReceived_stopsDb deps s reply, addsToDb_iff, ?_⟩
  intro a hn
  cases h : addsToDb a with
  | false => rfl
  | true =>
    have := ((addsToDb_iff a).mp h).2
    rw [hn] at this
    cases this

/-! ## Short arrays and missing version arrays -/

theorem progressLoop_eq (rest : List QJsonDocument) :
    ∀ list : List (String × ℚ), progressLoop rest list =
      list ++ (reached 3 rest).map (fun d => progressEntry d.array) := by
  induction rest with
  | nil => intro list; simp [progressLoop, reached_nil]
  | cons d ds ih =>
    intro list
    by_cases hl : 3 ≤ d.array.length
    · have h2 : ¬ (2 ≥ d.array.length) := by omega
      rw [progressLoop, if_neg h2, ih, reached_cons_long 3 d ds hl]
      simp [progressEntry]
    · have h2 : 2 ≥ d.array.length := by omega
      rw [progressLoop, if_pos h2, reached_cons_short 3 d ds (by omega)]
      simp

theorem onBusProgressReceived_eq (s : ArrivalsLogic) (version : QJsonDocument)
    (rest : List QJsonDocument) (hv : 3 ≤ version.array.length) :
    s.onBusProgressReceived (some (version :: rest)) =
      { s with
        downloadingJourneyProgress := false
        effects := s.effects ++ [Effect.downloadStateChanged]
        journeyProgressContainer :=
          { time := (elem version.array 2).toDouble
            data := (reached 3 rest).map (fun d => progressEntry d.array) } } := by
  have h2 : ¬ (2 ≥ version.array.length) := by omega
  unfold ArrivalsLogic.onBusProgressReceived
  simp only [makeDocument, if_neg h2, progressLoop_eq, List.nil_append,
    JourneyProgressContainer.setTime, JourneyProgressContainer.refreshData]

theorem reached_append_short (n : Nat) (pre post : List QJsonDocument) (short : QJsonDocument)
    (hpre : ∀ d ∈ pre, n ≤ d.array.length) (hshort : short.array.length < n) :
    reached n (pre ++ short :: post) = pre := by
  induction pre with
  | nil => exact reached_cons_short n short post hshort
  | cons d ds ih =>
    rw [List.cons_append, reached_cons_long n d _ (hpre d (List.mem_cons_self _ _)),
      ih (fun e he => hpre e (List.mem_cons_of_mem _ he))]

/-- A response with one short data array and nothing else, received while a vehicle
is published. -/
theorem arrivals_short_run :
    publishedState.onArrivalsDataReceived exampleDeps (some [versionAt 1000, shortArray]) =
      some { arrivalsDone publishedState with arrivalsContainer := { data := [] } } := by
  have hreach : reached 6 [shortArray] = [] := reached_cons_short 6 _ [] (by decide)
  have hfit : ∀ d ∈ reached 6 [shortArray],
      etaFits (elem (versionAt 1000).array 2).toDouble d.array := by
    intro d hd; rw [hreach] at hd; cases hd
  rw [onArrivalsDataReceived_eq _ _ _ _ (by decide), if_pos hfit, hreach]
  rfl

/-- C7, as stated, fails: with one Vehicle published, an arrivals response whose only data
array has two elements leaves the published container empty, not as it was. -/
theorem short_arrival_array_empties_container :
    shortArray.array.length < 6 ∧
    publishedState.arrivalsContainer.data ≠ [] ∧
    (publishedState.onArrivalsDataReceived exampleDeps
        (some [versionAt 1000, shortArray])).map (fun s => s.arrivalsContainer.data) =
      some [] := by
  refine ⟨by decide, by decide, ?_⟩
  rw [arrivals_short_run]
  rfl

theorem etaFits_arrivalAt_61000 (dir : QJsonValue) :
    etaFits (elem (versionAt 1000).array 2).toDouble (arrivalAt dir 61000).array := by
  have h : etaOf (elem (versionAt 1000).array 2).toDouble (arrivalAt dir 61000).array =
      some 1 :=
    etaOf_whole _ _ 61000 1000 1 (by show (61000 : ℚ) = _; norm_num)
      (by show (1000 : ℚ) = _; norm_num) (by norm_num)
      (by unfold IsRoundHalfAwayFromZero; norm_num) (by decide)
  unfold etaFits
  rw [h]
  rfl

/-- C7, amended: when a data array is shorter than the minimum (6 for arrivals, 3 for
journey progress) and the arrays before it are not, the handler builds no entity from
it nor from any array after it and does not fail on it: the arrivals handler returns
(the etas of the arrays before it fitting an `int`), and the container published is
replaced by exactly the entities mapped from the arrays before the short one. -/
theorem short_array_publishes_earlier_records (deps : Deps) (s : ArrivalsLogic)
    (version short : QJsonDocument) (pre post : List QJsonDocument)
    (versionJ shortJ : QJsonDocument) (preJ postJ : List QJsonDocument)
    (hv : 3 ≤ version.array.length)
    (hpre : ∀ d ∈ pre, 6 ≤ d.array.length) (hshort : short.array.length < 6)
    (hfit : ∀ d ∈ pre, etaFits (elem version.array 2).toDouble d.array)
    (hvJ : 3 ≤ versionJ.array.length)
    (hpreJ : ∀ d ∈ preJ, 3 ≤ d.array.length) (hshortJ : shortJ.array.length < 3) :
    (∃ s1, s.onArrivalsDataReceived deps (some (version :: (pre ++ short :: post))) = some s1 ∧
        s1.arrivalsContainer.data =
          pre.map (fun d => vehicleOf deps (elem version.array 2).toDouble d.array)) ∧
    (s.onBusProgressReceived
        (some (versionJ :: (preJ ++ shortJ :: postJ)))).journeyProgressContainer.data =
      preJ.map (fun d => ((elem d.array 1).toString, (elem d.array 2).toDouble)) := by
  constructor
  · have hreach := reached_append_short 6 pre post short hpre hshort
    have hfit2 : ∀ d ∈ reached 6 (pre ++ short :: post),
        etaFits (elem version.array 2).toDouble d.array := by
      rw [hreach]; exact hfit
    rw [onArrivalsDataReceived_eq deps s version _ hv, if_pos hfit2, hreach]
    exact ⟨_, rfl, rfl⟩
  · rw [onBusProgressReceived_eq s versionJ _ hvJ,
      reached_append_short 3 preJ postJ shortJ hpreJ hshortJ]
    rfl

theorem short_array_publishes_earlier_records_witness :
    (∃ s1, publishedState.onArrivalsDataReceived exampleDeps
        (some (versionAt 1000 :: ([arrivalAt (QJsonValue.double 1) 61000] ++ shortArray ::
          [arrivalAt (QJsonValue.double 2) 61000]))) = some s1 ∧
        s1.arrivalsContainer.data =
          [arrivalAt (QJsonValue.double 1) 61000].map
            (fun d => vehicleOf exampleDeps (elem (versionAt 1000).array 2).toDouble d.array)) ∧
    (publishedState.onBusProgressReceived
        (some (versionAt 1000 :: ([progressAt "Aldwych" 61000] ++ shortArray ::
          [progressAt "Strand" 121000])))).journeyProgressContainer.data =
      [progressAt "Aldwych" 61000].map
        (fun d => ((elem d.array 1).toString, (elem d.array 2).toDouble)) :=
  short_array_publishes_earlier_records exampleDeps publishedState (versionAt 1000) shortArray
    [arrivalAt (QJsonValue.double 1) 61000] [arrivalAt (QJsonValue.double 2) 61000]
    (versionAt 1000) shortArray [progressAt "Aldwych" 61000] [progressAt "Strand" 121000]
    (by decide)
    (by intro d hd; rw [List.mem_singleton] at hd; subst hd; decide)
    (by decide)
    (by intro d hd; rw [List.mem_singleton] at hd; subst hd; exact etaFits_arrivalAt_61000 _)
    (by decide)
    (by intro d hd; rw [List.mem_singleton] at hd; subst hd; decide)
    (by decide)

/-- An arrivals response in which a short array precedes an array of full length. -/
theorem arrivals_short_then_long_run :
    exampleState.onArrivalsDataReceived exampleDeps
        (some [versionAt 1000, shortArray, arrivalAt (QJsonValue.double 1) 61000]) =
      some { arrivalsDone exampleState with arrivalsContainer := { data := [] } } := by
  have hreach : reached 6 [shortArray, arrivalAt (QJsonValue.double 1) 61000] = [] :=
    reached_cons_short 6 _ _ (by decide)
  have hfit : ∀ d ∈ reached 6 [shortArray, arrivalAt (QJsonValue.double 1) 61000],
      etaFits (elem (versionAt 1000).array 2).toDouble d.array := by
    intro d hd; rw [hreach] at hd; cases hd
  rw [onArrivalsDataReceived_eq _ _ _ _ (by decide), if_pos hfit, hreach]
  rfl

/-- C8, as stated, fails: in an arrivals response whose first data array has two elements
and whose second has six, the second is not mapped: no Vehicle is published. -/
theorem array_after_short_one_not_mapped :
    6 ≤ (arrivalAt (QJsonValue.double 1) 61000).array.length ∧
    (exampleState.onArrivalsDataReceived exampleDeps
        (some [versionAt 1000, shortArray, arrivalAt (QJsonValue.double 1) 61000])).map
      (fun s => s.arrivalsContainer.data) = some [] := by
  refine ⟨by decide, ?_⟩
  rw [arrivals_short_then_long_run]
  rfl

/-- C8, amended: in the list endpoints (arrivals, messages, stop list) a data array
shorter than the mapper's minimum (6, 5, 8) ends the processing of the response: the
arrays before it are mapped, the short array and every array after it are not,
whatever their length. -/
theorem short_array_ends_processing (deps : Deps) (s : ArrivalsLogic) (version : QJsonDocument)
    (preA postA preM postM preS postS : List QJsonDocument) (shortA shortM shortS : QJsonDocument)
    (hv : 3 ≤ version.array.length)
    (hpreA : ∀ d ∈ preA, 6 ≤ d.array.length) (hshortA : shortA.array.length < 6)
    (hfitA : ∀ d ∈ preA, etaFits (elem version.array 2).toDouble d.array)
    (hpreM : ∀ d ∈ preM, 5 ≤ d.array.length) (hshortM : shortM.array.length < 5)
    (hfitM : ∀ d ∈ preM, priorityFits d.array)
    (hpreS : ∀ d ∈ preS, 8 ≤ d.array.length) (hshortS : shortS.array.length < 8) :
    (∃ s1, s.onArrivalsDataReceived deps (some (version :: (preA ++ shortA :: postA))) = some s1 ∧
      s1.arrivalsContainer.data =
        preA.map (fun d => vehicleOf deps (elem version.array 2).toDouble d.array)) ∧
    (∃ s1, s.onBusStopMessageReceived (some (version :: (preM ++ shortM :: postM))) = some s1 ∧
      s1.currentStopMessages = s.currentStopMessages ++
        bulleted ((shownRecords (elem version.array 2).toDouble preM).map
          (fun d => textOf d.array))) ∧
    (s.onListOfBusStopsReceived deps (some (version :: (preS ++ shortS :: postS)))).stopsDb =
      s.stopsDb ++ (preS.filter (fun d => decide (isKept d.array))).map
        (fun d => stopOfRecord deps d.array) := by
  refine ⟨?_, ?_, ?_⟩
  · have hreach := reached_append_short 6 preA postA shortA hpreA hshortA
    have hfit2 : ∀ d ∈ reached 6 (preA ++ shortA :: postA),
        etaFits (elem version.array 2).toDouble d.array := by
      rw [hreach]; exact hfitA
    rw [onArrivalsDataReceived_eq deps s version _ hv, if_pos hfit2, hreach]
    exact ⟨_, rfl, rfl⟩
  · have hreach := reached_append_short 5 preM postM shortM hpreM hshortM
    have hfit2 : ∀ d ∈ reached 5 (preM ++ shortM :: postM), priorityFits d.array := by
      rw [hreach]; exact hfitM
    refine ⟨_, onBusStopMessageReceived_run s version _ hv hfit2, ?_⟩
    rw [hreach, fillCurrentStopMessages_text]
  · rw [onListOfBusStopsReceived_stopsDb]
    show s.stopsDb ++ ((reached 8 (preS ++ shortS :: postS)).filter _).map _ = _
    rw [reached_append_short 8 preS postS shortS hpreS hshortS]

theorem short_array_ends_processing_witness :
    (∃ s1, exampleState.onArrivalsDataReceived exampleDeps
        (some (versionAt 1000 :: ([arrivalAt (QJsonValue.double 1) 61000] ++ shortArray ::
          [arrivalAt (QJsonValue.double 2) 61000]))) = some s1 ∧
      s1.arrivalsContainer.data =
        [arrivalAt (QJsonValue.double 1) 61000].map
          (fun d => vehicleOf exampleDeps (elem (versionAt 1000).array 2).toDouble d.array)) ∧
    (∃ s1, exampleState.onBusStopMessageReceived
        (some (versionAt 1000 :: ([messageAt 1 "A" 0 2000] ++ shortArray ::
          [messageAt 1 "B" 0 2000]))) = some s1 ∧
      s1.currentStopMessages = exampleState.currentStopMessages ++
        bulleted ((shownRecords (elem (versionAt 1000).array 2).toDouble
          [messageAt 1 "A" 0 2000]).map (fun d => textOf d.array))) ∧
    (exampleState.onListOfBusStopsReceived exampleDeps
        (some (versionAt 1000 :: ([stopListOf (QJsonValue.string "490G") "STBC"] ++ shortArray ::
          [stopListOf (QJsonValue.string "490H") "STBC"])))).stopsDb =
      exampleState.stopsDb ++
        ([stopListOf (QJsonValue.string "490G") "STBC"].filter
          (fun d => decide (isKept d.array))).map (fun d => stopOfRecord exampleDeps d.array) :=
  short_array_ends_processing exampleDeps exampleState (versionAt 1000)
    [arrivalAt (QJsonValue.double 1) 61000] [arrivalAt (QJsonValue.double 2) 61000]
    [messageAt 1 "A" 0 2000] [messageAt 1 "B" 0 2000]
    [stopListOf (QJsonValue.string "490G") "STBC"] [stopListOf (QJsonValue.string "490H") "STBC"]
    shortArray shortArray shortArray
    (by decide)
    (by intro d hd; rw [List.mem_singleton] at hd; subst hd; decide)
    (by decide)
    (by intro d hd; rw [List.mem_singleton] at hd; subst hd; exact etaFits_arrivalAt_61000 _)
    (by intro d hd; rw [List.mem_singleton] at hd; subst hd; decide)
    (by decide)
    (by
      intro d hd
      rw [List.mem_singleton] at hd
      subst hd
      have := priorityFits_messageAt 1 0 2000 "A" (by decide)
      simpa using this)
    (by intro d hd; rw [List.mem_singleton] at hd; subst hd; decide)
    (by decide)

theorem onArrivalsDataReceived_empty (deps : Deps) (s : ArrivalsLogic) :
    s.onArrivalsDataReceived deps (some []) = none ∧ s.onArrivalsDataReceived deps none = none :=
  ⟨rfl, rfl⟩

theorem onBusProgressReceived_noVersion (s : ArrivalsLogic) (reply : QNetworkReply)
    (h : noUsableVersion reply) :
    s.onBusProgressReceived reply =
      { s with downloadingJourneyProgress := false,
               effects := s.effects ++ [Effect.downloadStateChanged] } := by
  unfold noUsableVersion at h
  unfold ArrivalsLogic.onBusProgressReceived
  cases hd : makeDocument reply with
  | nil => rfl
  | cons first rest =>
    rw [hd] at h
    have h2 : 2 ≥ first.array.length := by
      have : first.array.length < 3 := h
      omega
    simp only [if_pos h2]

theorem onBusStopMessageReceived_noVersion (s : ArrivalsLogic) (reply : QNetworkReply)
    (h : noUsableVersion reply) : s.onBusStopMessageReceived reply = some s := by
  unfold noUsableVersion at h
  unfold ArrivalsLogic.onBusStopMessageReceived
  cases hd : makeDocument reply with
  | nil => rfl
  | cons first rest =>
    rw [hd] at h
    have h2 : ¬ 2 < first.array.length := by
      have : first.array.length < 3 := h
      omega
    simp only [if_neg h2]

theorem onBusStopDataReceived_noData (s : ArrivalsLogic) (reply : QNetworkReply)
    (h : (makeDocument reply).length < 2) :
    s.onBusStopDataReceived reply =
      { s with downloadingStop := false,
               effects := s.effects ++ [Effect.downloadStateChanged] } := by
  unfold ArrivalsLogic.onBusStopDataReceived
  cases hd : makeDocument reply with
  | nil => rfl
  | cons first rest =>
    cases rest with
    | nil => rfl
    | cons second more =>
      rw [hd] at h
      simp only [List.length_cons] at h
      omega

theorem onListOfBusStopsReceived_noData (deps : Deps) (s : ArrivalsLogic)
    (reply : QNetworkReply) (h : (makeDocument reply).length < 2) :
    (s.onListOfBusStopsReceived deps reply).stopsDb = s.stopsDb := by
  rw [onListOfBusStopsReceived_stopsDb]
  have hdrop : (makeDocument reply).drop 1 = [] := by
    cases hd : makeDocument reply with
    | nil => rfl
    | cons first rest =>
      cases rest with
      | nil => rfl
      | cons second more =>
        rw [hd] at h
        simp only [List.length_cons] at h
        omega
  rw [hdrop, reached_nil]
  simp

theorem onListOfBusStopsReceived_others (deps : Deps) (s : ArrivalsLogic)
    (reply : QNetworkReply) :
    (s.onListOfBusStopsReceived deps reply).arrivalsContainer = s.arrivalsContainer ∧
    (s.onListOfBusStopsReceived deps reply).journeyProgressContainer =
      s.journeyProgressContainer ∧
    (s.onListOfBusStopsReceived deps reply).currentStop = s.currentStop ∧
    (s.onListOfBusStopsReceived deps reply).currentStopMessages = s.currentStopMessages ∧
    (s.onListOfBusStopsReceived deps reply).currentBusDirectionId = s.currentBusDirectionId :=
  ⟨rfl, rfl, rfl, rfl, rfl⟩

/-- C9, as stated, fails: the stop-detail and stop-list handlers do not look at the
version array.  With an empty version array and a full data array, the stop-detail
handler renames the current Stop and the stop-list handler adds a Stop to the store. -/
theorem stop_handlers_ignore_version_array :
    noUsableVersion (some [QJsonDocument.ofArray [], stopDetailOf "SLRS"]) ∧
    exampleState.currentStop.name = "" ∧
    (exampleState.onBusStopDataReceived
        (some [QJsonDocument.ofArray [], stopDetailOf "SLRS"])).currentStop.name =
      "Bankside Pier" ∧
    noUsableVersion
      (some [QJsonDocument.ofArray [], stopListOf (QJsonValue.string "490G") "STBC"]) ∧
    exampleState.stopsDb.length = 0 ∧
    (exampleState.onListOfBusStopsReceived exampleDeps
        (some [QJsonDocument.ofArray [],
          stopListOf (QJsonValue.string "490G") "STBC"])).stopsDb.length = 1 := by
  refine ⟨by decide, rfl, ?_, by decide, rfl, ?_⟩
  · rw [onBusStopDataReceived_long _ _ _ _ (by decide)]
    rfl
  · rw [onListOfBusStopsReceived_stopsDb]
    have hreach : reached 8 ((makeDocument (some [QJsonDocument.ofArray [],
        stopListOf (QJsonValue.string "490G") "STBC"])).drop 1) =
        [stopListOf (QJsonValue.string "490G") "STBC"] :=
      reached_cons_long 8 _ [] (by decide)
    have hk : isKept (stopListOf (QJsonValue.string "490G") "STBC").array := by
      unfold isKept
      decide
    rw [hreach]
    simp [hk]
    rfl

/-- C9, amended: the arrivals handler on a body that is not empty but whose version array
has fewer than 3 elements, and the journey-progress and messages handlers on a body that
is empty or whose version array has fewer than 3 elements, return and leave the two
containers, the current Stop, the message text, the cached direction id and the stops
store as they were; the stop-detail and stop-list handlers, which do not inspect the
version array, do so when the body has fewer than two lines, that is no data array. -/
theorem no_usable_version_no_update (deps : Deps) (s : ArrivalsLogic) (version : QJsonDocument)
    (rest : List QJsonDocument) (reply replyS : QNetworkReply)
    (hA : version.array.length < 3) (h : noUsableVersion reply)
    (hS : (makeDocument replyS).length < 2) :
    (∃ s1, s.onArrivalsDataReceived deps (some (version :: rest)) = some s1 ∧
      dataOf s1 = dataOf s) ∧
    dataOf (s.onBusProgressReceived reply) = dataOf s ∧
    (∃ s1, s.onBusStopMessageReceived reply = some s1 ∧ dataOf s1 = dataOf s) ∧
    dataOf (s.onBusStopDataReceived replyS) = dataOf s ∧
    dataOf (s.onListOfBusStopsReceived deps replyS) = dataOf s := by
  refine ⟨⟨_, onArrivalsDataReceived_short deps s version rest hA, rfl⟩, ?_,
    ⟨s, onBusStopMessageReceived_noVersion s reply h, rfl⟩, ?_, ?_⟩
  · rw [onBusProgressReceived_noVersion s reply h]
    rfl
  · rw [onBusStopDataReceived_noData s replyS hS]
    rfl
  · have h1 := onListOfBusStopsReceived_noData deps s replyS hS
    have h2 := onListOfBusStopsReceived_others deps s replyS
    unfold dataOf
    rw [h1, h2.1, h2.2.1, h2.2.2.1, h2.2.2.2.1, h2.2.2.2.2]

theorem no_usable_version_no_update_witness :
    (∃ s1, publishedState.onArrivalsDataReceived exampleDeps
        (some (shortArray :: [arrivalAt (QJsonValue.double 1) 61000])) = some s1 ∧
      dataOf s1 = dataOf publishedState) ∧
    dataOf (publishedState.onBusProgressReceived
      (some [shortArray, progressAt "Aldwych" 61000])) = dataOf publishedState ∧
    (∃ s1, publishedState.onBusStopMessageReceived
        (some [shortArray, progressAt "Aldwych" 61000]) = some s1 ∧
      dataOf s1 = dataOf publishedState) ∧
    dataOf (publishedState.onBusStopDataReceived (some [versionAt 1000])) =
      dataOf publishedState ∧
    dataOf (publishedState.onListOfBusStopsReceived exampleDeps (some [versionAt 1000])) =
      dataOf publishedState :=
  no_usable_version_no_update exampleDeps publishedState shortArray
    [arrivalAt (QJsonValue.double 1) 61000] (some [shortArray, progressAt "Aldwych" 61000])
    (some [versionAt 1000]) (by decide) (by decide) (by decide)

/-- C10, as stated, fails: for the version array `[_, _, 1000]` and the single record
`[_, "N1", "5", "Waterloo", "LX07ABC", 61000]`, whose direction element is the JSON string
"5", the cached direction id becomes "0": the element is read as a number. -/
theorem string_direction_id_caches_zero :
    (exampleState.onArrivalsDataReceived exampleDeps
        (some [versionAt 1000, arrivalAt (QJsonValue.string "5") 61000])).map
      (fun s => s.currentBusDirectionId) = some "0" := by
  have h := arrivals_scenario_run exampleDeps exampleState (QJsonValue.double 4)
    (QJsonValue.string "1.0") (QJsonValue.double 1) (QJsonValue.string "5")
  have hn : QString.number exampleDeps.formatG (QJsonValue.string "5").toDouble = "0" := by
    show QString.number exampleDeps.formatG 0 = "0"
    simp [QString.number]
    rfl
  rw [hn] at h
  show (exampleState.onArrivalsDataReceived exampleDeps
    (some [QJsonDocument.ofArray [QJsonValue.double 4, QJsonValue.string "1.0",
        QJsonValue.double 1000],
      QJsonDocument.ofArray [QJsonValue.double 1, QJsonValue.string "N1", QJsonValue.string "5",
        QJsonValue.string "Waterloo", QJsonValue.string "LX07ABC",
        QJsonValue.double 61000]])).map (fun s => s.currentBusDirectionId) = some "0"
  rw [h]
  rfl

/-- C10, amended: after an arrivals cycle that processes at least one data array, the
cached direction id is `QString::number` of the numeric value of element 2 of the last
array processed (the value 0 when that element is not a JSON number); for the version
array `[_, _, 1000]` and the single record `[_, "N1", 5, "Waterloo", "LX07ABC", 61000]`,
whose direction element is the JSON number 5, it becomes "5". -/
theorem direction_id_of_last_record (deps : Deps) (s s1 : ArrivalsLogic)
    (version last : QJsonDocument) (rest : List QJsonDocument)
    (hv : 3 ≤ version.array.length)
    (h : s.onArrivalsDataReceived deps (some (version :: rest)) = some s1)
    (hlast : (reached 6 rest).getLast? = some last) :
    s1.currentBusDirectionId = QString.number deps.formatG (elem last.array 2).toDouble ∧
    (∀ v : QJsonValue, (∀ x : ℚ, v ≠ QJsonValue.double x) → v.toDouble = 0) ∧
    (∀ x0 x1 y0 : QJsonValue, ∃ s2,
      s.onArrivalsDataReceived deps
        (some [QJsonDocument.ofArray [x0, x1, QJsonValue.double 1000],
               QJsonDocument.ofArray [y0, QJsonValue.string "N1", QJsonValue.double 5,
                 QJsonValue.string "Waterloo", QJsonValue.string "LX07ABC",
                 QJsonValue.double 61000]]) = some s2 ∧
      s2.currentBusDirectionId = "5") := by
  refine ⟨?_, ?_, ?_⟩
  · rw [onArrivalsDataReceived_eq deps s version rest hv] at h
    split at h
    · simp only [Option.some.injEq] at h
      subst h
      show lastDirection deps s.currentBusDirectionId (reached 6 rest) = _
      unfold lastDirection
      rw [hlast]
      rfl
    · simp at h
  · intro v hv
    cases v with
    | double x => exact absurd rfl (hv x)
    | null => rfl
    | bool b => rfl
    | string t => rfl
    | array a => rfl
    | object o => rfl
    | undefined => rfl
  · intro x0 x1 y0
    refine ⟨_, arrivals_scenario_run deps s x0 x1 y0 (QJsonValue.double 5), ?_⟩
    show QString.number deps.formatG 5 = "5"
    simp [QString.number]
    rfl

theorem direction_id_of_last_record_witness :
    ("1" : String) = QString.number exampleDeps.formatG
      (elem (arrivalAt (QJsonValue.double 1) 1000).array 2).toDouble ∧
    (∀ v : QJsonValue, (∀ x : ℚ, v ≠ QJsonValue.double x) → v.toDouble = 0) ∧
    (∀ x0 x1 y0 : QJsonValue, ∃ s2,
      exampleState.onArrivalsDataReceived exampleDeps
        (some [QJsonDocument.ofArray [x0, x1, QJsonValue.double 1000],
               QJsonDocument.ofArray [y0, QJsonValue.string "N1", QJsonValue.double 5,
                 QJsonValue.string "Waterloo", QJsonValue.string "LX07ABC",
                 QJsonValue.double 61000]]) = some s2 ∧
      s2.currentBusDirectionId = "5") :=
  direction_id_of_last_record exampleDeps exampleState _ (versionAt 61000)
    (arrivalAt (QJsonValue.double 1) 1000) [arrivalAt (QJsonValue.double 1) 1000] (by decide)
    arrivals_overdue_run rfl

/-! ## Requests and timers -/

theorem getBusArrivalsByCode_eq (s : ArrivalsLogic) (code : String) :
    s.getBusArrivalsByCode code =
      { s with
        downloadingArrivals := true
        effects := s.effects ++ [Effect.downloadStateChanged,
          Effect.get (baseUrl ++ "StopCode1=" ++ code ++
            "&ReturnList=LineName,DestinationName,EstimatedTime,RegistrationNumber,DirectionID")] } := by
  unfold ArrivalsLogic.getBusArrivalsByCode
  simp only [String.append_assoc]

theorem getBusProgress_eq (s : ArrivalsLogic) (registrationNum : String) :
    s.getBusProgress registrationNum =
      { s with
        downloadingJourneyProgress := true
        effects := s.effects ++ [Effect.downloadStateChanged,
          Effect.get (baseUrl ++ "RegistrationNumber=" ++ registrationNum ++ "&DirectionID=" ++
            s.currentBusDirectionId ++ "&ReturnList=StopPointName,EstimatedTime")] } := by
  unfold ArrivalsLogic.getBusProgress
  simp only [String.append_assoc]

/-- C15: `fetchArrivalsData` leaves the state as it is when the current Stop's kind is
None, and for the kinds Bus and River alike sets the downloading-arrivals flag and
issues the GET of the base endpoint followed by "StopCode1=", the current stop's id and
"&ReturnList=LineName,DestinationName,EstimatedTime,RegistrationNumber,DirectionID",
announcing the change of the download state before it. -/
theorem fetchArrivalsData_dispatch (s : ArrivalsLogic) :
    s.fetchArrivalsData =
      if s.currentStop.type = StopType.None then s
      else
        { s with
          downloadingArrivals := true
          effects := s.effects ++ [Effect.downloadStateChanged,
            Effect.get ("http://countdown.api.tfl.gov.uk/interfaces/ura/instant_V1?" ++
              "StopCode1=" ++ s.currentStop.id ++
              "&ReturnList=LineName,DestinationName,EstimatedTime,RegistrationNumber,DirectionID")] } := by
  unfold ArrivalsLogic.fetchArrivalsData
  cases h : s.currentStop.type with
  | None => simp
  | Bus => simp only [getBusArrivalsByCode_eq]; simp [baseUrl]
  | River => simp only [getBusArrivalsByCode_eq]; simp [baseUrl]

/-- C16: from every state `stopArrivalsUpdate` leaves the arrivals timer and the
display-refresh timer inactive and the arrivals container empty, and
`stopJourneyProgressUpdate` leaves the journey-progress timer and the display-refresh
timer inactive and the journey-progress container empty. -/
theorem stop_update_stops_timers_and_clears (s : ArrivalsLogic) :
    (s.stopArrivalsUpdate.arrivalsTimer.active = false ∧
      s.stopArrivalsUpdate.displayTimer.active = false ∧
      s.stopArrivalsUpdate.arrivalsContainer.data = []) ∧
    (s.stopJourneyProgressUpdate.journeyProgressTimer.active = false ∧
      s.stopJourneyProgressUpdate.displayTimer.active = false ∧
      s.stopJourneyProgressUpdate.journeyProgressContainer.data = []) :=
  ⟨⟨rfl, rfl, rfl⟩, ⟨rfl, rfl, rfl⟩⟩

/-- C13, as stated, fails: with an empty tracked-vehicle id `startJourneyProgressUpdate`
issues no request, but it arms the journey-progress timer and the display-refresh
timer, which were inactive. -/
theorem start_without_vehicle_arms_timers :
    exampleState.currentVehicleId = "" ∧
    exampleState.journeyProgressTimer.active = false ∧
    exampleState.displayTimer.active = false ∧
    exampleState.startJourneyProgressUpdate.journeyProgressTimer.active = true ∧
    exampleState.startJourneyProgressUpdate.displayTimer.active = true :=
  ⟨rfl, rfl, rfl, rfl, rfl⟩

/-- C13, amended: when the tracked-vehicle identifier is empty,
`startJourneyProgressUpdate` issues no request and changes nothing but the two
timers: the journey-progress timer is armed with a period of 30000 ms and the
display-refresh timer with a period of 16 ms. -/
theorem start_without_vehicle_only_arms_timers (s : ArrivalsLogic)
    (h : s.currentVehicleId = "") :
    s.startJourneyProgressUpdate =
      { s with
        journeyProgressTimer := { active := true, interval := 30000 }
        displayTimer := { active := true, interval := 16 } } ∧
    s.startJourneyProgressUpdate.effects = s.effects := by
  have e : s.fetchJourneyProgress = s := by
    unfold ArrivalsLogic.fetchJourneyProgress
    rw [if_pos h]
  unfold ArrivalsLogic.startJourneyProgressUpdate
  rw [e]
  exact ⟨rfl, rfl⟩

theorem start_without_vehicle_only_arms_timers_witness :
    exampleState.startJourneyProgressUpdate =
      { exampleState with
        journeyProgressTimer := { active := true, interval := 30000 }
        displayTimer := { active := true, interval := 16 } } ∧
    exampleState.startJourneyProgressUpdate.effects = exampleState.effects :=
  start_without_vehicle_only_arms_timers exampleState rfl

/-! ## The stop-detail cycle -/

theorem onBusStopDataReceived_shortData (s : ArrivalsLogic) (version data : QJsonDocument)
    (rest : List QJsonDocument) (h : data.array.length < 7) :
    s.onBusStopDataReceived (some (version :: data :: rest)) =
      { s with downloadingStop := false,
               effects := s.effects ++ [Effect.downloadStateChanged] } := by
  have h6 : 6 ≥ data.array.length := by omega
  unfold ArrivalsLogic.onBusStopDataReceived
  simp only [makeDocument, if_pos h6]
  by_cases hA : data.isArray = true
  · rw [if_pos hA]
  · rw [if_neg hA]

/-- C17: for a stop-detail response whose second array has at least 7 elements,
`onBusStopDataReceived` leaves the current Stop with name = element 1, towards =
element 3, indicator = element 4, latitude = element 5, longitude = element 6, kind
River or Bus according to element 2, and the id it had; the signals emitted are the
download-state change, the Stop's own update and the stop-changed notification. -/
theorem stop_detail_updates_in_place (s : ArrivalsLogic) (version data : QJsonDocument)
    (rest : List QJsonDocument) (h7 : 7 ≤ data.array.length) :
    (s.onBusStopDataReceived (some (version :: data :: rest))).currentStop.name =
      (elem data.array 1).toString ∧
    (s.onBusStopDataReceived (some (version :: data :: rest))).currentStop.towards =
      (elem data.array 3).toString ∧
    (s.onBusStopDataReceived (some (version :: data :: rest))).currentStop.indicator =
      (elem data.array 4).toString ∧
    (s.onBusStopDataReceived (some (version :: data :: rest))).currentStop.latitude =
      (elem data.array 5).toDouble ∧
    (s.onBusStopDataReceived (some (version :: data :: rest))).currentStop.longitude =
      (elem data.array 6).toDouble ∧
    (s.onBusStopDataReceived (some (version :: data :: rest))).currentStop.type =
      (if (elem data.array 2).toString = "SLRS" then StopType.River else StopType.Bus) ∧
    (s.onBusStopDataReceived (some (version :: data :: rest))).currentStop.id =
      s.currentStop.id ∧
    (s.onBusStopDataReceived (some (version :: data :: rest))).effects =
      s.effects ++
        [Effect.downloadStateChanged, Effect.stopUpdated, Effect.stopDataChanged] := by
  rw [onBusStopDataReceived_long s version data rest h7]
  exact ⟨rfl, rfl, rfl, rfl, rfl, rfl, rfl, rfl⟩

theorem stop_detail_updates_in_place_witness :
    (exampleState.onBusStopDataReceived
        (some (versionAt 100 :: stopDetailOf "SLRS" :: []))).currentStop.name =
      (elem (stopDetailOf "SLRS").array 1).toString ∧
    (exampleState.onBusStopDataReceived
        (some (versionAt 100 :: stopDetailOf "SLRS" :: []))).currentStop.towards =
      (elem (stopDetailOf "SLRS").array 3).toString ∧
    (exampleState.onBusStopDataReceived
        (some (versionAt 100 :: stopDetailOf "SLRS" :: []))).currentStop.indicator =
      (elem (stopDetailOf "SLRS").array 4).toString ∧
    (exampleState.onBusStopDataReceived
        (some (versionAt 100 :: stopDetailOf "SLRS" :: []))).currentStop.latitude =
      (elem (stopDetailOf "SLRS").array 5).toDouble ∧
    (exampleState.onBusStopDataReceived
        (some (versionAt 100 :: stopDetailOf "SLRS" :: []))).currentStop.longitude =
      (elem (stopDetailOf "SLRS").array 6).toDouble ∧
    (exampleState.onBusStopDataReceived
        (some (versionAt 100 :: stopDetailOf "SLRS" :: []))).currentStop.type =
      (if (elem (stopDetailOf "SLRS").array 2).toString = "SLRS" then StopType.River
       else StopType.Bus) ∧
    (exampleState.onBusStopDataReceived
        (some (versionAt 100 :: stopDetailOf "SLRS" :: []))).currentStop.id =
      exampleState.currentStop.id ∧
    (exampleState.onBusStopDataReceived
        (some (versionAt 100 :: stopDetailOf "SLRS" :: []))).effects =
      exampleState.effects ++
        [Effect.downloadStateChanged, Effect.stopUpdated, Effect.stopDataChanged] :=
  stop_detail_updates_in_place exampleState (versionAt 100) (stopDetailOf "SLRS") []
    (by decide)

/-- C18: for a stop-detail response with no second array, or whose second array has
fewer than 7 elements, `onBusStopDataReceived` only clears the downloading-stop flag
and announces the change of the download state: the current Stop keeps every field
and no stop-changed notification is emitted. -/
theorem stop_detail_short_aborts (s : ArrivalsLogic) (reply : QNetworkReply)
    (h : (makeDocument reply).length < 2 ∨
      ∃ version data rest, reply = some (version :: data :: rest) ∧ data.array.length < 7) :
    s.onBusStopDataReceived reply =
      { s with downloadingStop := false,
               effects := s.effects ++ [Effect.downloadStateChanged] } ∧
    (s.onBusStopDataReceived reply).currentStop = s.currentStop ∧
    (s.onBusStopDataReceived reply).effects = s.effects ++ [Effect.downloadStateChanged] := by
  have e : s.onBusStopDataReceived reply =
      { s with downloadingStop := false,
               effects := s.effects ++ [Effect.downloadStateChanged] } := by
    rcases h with h | ⟨version, data, rest, rfl, hd⟩
    · exact onBusStopDataReceived_noData s reply h
    · exact onBusStopDataReceived_shortData s version data rest hd
  rw [e]
  exact ⟨rfl, rfl, rfl⟩

theorem stop_detail_short_aborts_witness :
    publishedState.onBusStopDataReceived (some [versionAt 100, shortArray]) =
      { publishedState with
        downloadingStop := false
        effects := publishedState.effects ++ [Effect.downloadStateChanged] } ∧
    (publishedState.onBusStopDataReceived (some [versionAt 100, shortArray])).currentStop =
      publishedState.currentStop ∧
    (publishedState.onBusStopDataReceived (some [versionAt 100, shortArray])).effects =
      publishedState.effects ++ [Effect.downloadStateChanged] :=
  stop_detail_short_aborts publishedState (some [versionAt 100, shortArray])
    (Or.inr ⟨versionAt 100, shortArray, [], rfl, by decide⟩)

/-! ## The arrays an arrivals cycle publishes -/

theorem reached_split (n : Nat) (rest : List QJsonDocument) :
    ∃ post, rest = reached n rest ++ post ∧
      (∀ d ∈ reached n rest, n ≤ d.array.length) ∧
      ∀ d, post.head? = some d → d.array.length < n := by
  induction rest with
  | nil => exact ⟨[], rfl, (by intro d hd; cases hd), (by intro d hd; cases hd)⟩
  | cons e es ih =>
    by_cases hl : n ≤ e.array.length
    · obtain ⟨post, h1, h2, h3⟩ := ih
      refine ⟨post, ?_, ?_, h3⟩
      · rw [reached_cons_long n e es hl, List.cons_append, ← h1]
      · intro d hd
        rw [reached_cons_long n e es hl, List.mem_cons] at hd
        rcases hd with rfl | hd
        · exact hl
        · exact h2 d hd
    · refine ⟨e :: es, ?_, ?_, ?_⟩
      · rw [reached_cons_short n e es (Nat.not_le.mp hl), List.nil_append]
      · intro d hd
        rw [reached_cons_short n e es (Nat.not_le.mp hl)] at hd
        cases hd
      · intro d hd
        simp only [List.head?_cons, Option.some.injEq] at hd
        subst hd
        exact Nat.not_le.mp hl

/-- C20: when `onArrivalsDataReceived` returns on a response with a usable version
array, the data arrays split into a leading run of arrays of at least 6 elements and a
remainder that is empty or begins with a shorter array, and the container published
holds exactly the Vehicles mapped, in order, from the leading run; with an empty
leading run the container is replaced by the empty one.  The handler returns exactly
when the etas of the leading run fit an `int`. -/
theorem published_vehicles_of_leading_run (deps : Deps) (s s1 : ArrivalsLogic)
    (version : QJsonDocument) (rest : List QJsonDocument) (hv : 3 ≤ version.array.length)
    (h : s.onArrivalsDataReceived deps (some (version :: rest)) = some s1) :
    (∃ pre post, rest = pre ++ post ∧
      (∀ d ∈ pre, 6 ≤ d.array.length) ∧
      (∀ d, post.head? = some d → d.array.length < 6) ∧
      s1.arrivalsContainer.data =
        pre.map (fun d => vehicleOf deps (elem version.array 2).toDouble d.array) ∧
      (pre = [] → s1.arrivalsContainer.data = [])) ∧
    ((∀ d ∈ reached 6 rest, etaFits (elem version.array 2).toDouble d.array) ↔
      ∃ s2, s.onArrivalsDataReceived deps (some (version :: rest)) = some s2) := by
  have heq := onArrivalsDataReceived_eq deps s version rest hv
  constructor
  · rw [heq] at h
    split at h
    · simp only [Option.some.injEq] at h
      subst h
      obtain ⟨post, h1, h2, h3⟩ := reached_split 6 rest
      refine ⟨reached 6 rest, post, h1, h2, h3, rfl, ?_⟩
      intro hnil
      show List.map _ (reached 6 rest) = []
      rw [hnil, List.map_nil]
    · simp at h
  · rw [heq]
    constructor
    · intro hfit
      rw [if_pos hfit]
      exact ⟨_, rfl⟩
    · rintro ⟨s2, h2⟩
      by_contra hfit
      rw [if_neg hfit] at h2
      cases h2

theorem published_vehicles_of_leading_run_witness :
    (∃ pre post, [shortArray, arrivalAt (QJsonValue.double 1) 61000] = pre ++ post ∧
      (∀ d ∈ pre, 6 ≤ d.array.length) ∧
      (∀ d, post.head? = some d → d.array.length < 6) ∧
      ({ arrivalsDone exampleState with
          arrivalsContainer := { data := [] } } : ArrivalsLogic).arrivalsContainer.data =
        pre.map (fun d => vehicleOf exampleDeps (elem (versionAt 1000).array 2).toDouble d.array) ∧
      (pre = [] →
        ({ arrivalsDone exampleState with
          arrivalsContainer := { data := [] } } : ArrivalsLogic).arrivalsContainer.data = [])) ∧
    ((∀ d ∈ reached 6 [shortArray, arrivalAt (QJsonValue.double 1) 61000],
        etaFits (elem (versionAt 1000).array 2).toDouble d.array) ↔
      ∃ s2, exampleState.onArrivalsDataReceived exampleDeps
        (some (versionAt 1000 :: [shortArray, arrivalAt (QJsonValue.double 1) 61000])) =
          some s2) :=
  published_vehicles_of_leading_run exampleDeps exampleState _ (versionAt 1000)
    [shortArray, arrivalAt (QJsonValue.double 1) 61000] (by decide)
    arrivals_short_then_long_run

/-! ## The journey-progress request -/

theorem fetchJourneyProgress_eq (s : ArrivalsLogic) (hne : s.currentVehicleId ≠ "") :
    s.fetchJourneyProgress =
      { s with
        downloadingJourneyProgress := true
        effects := s.effects ++ [Effect.downloadStateChanged,
          Effect.get ("http://countdown.api.tfl.gov.uk/interfaces/ura/instant_V1?" ++
            "RegistrationNumber=" ++ s.currentVehicleId ++ "&DirectionID=" ++
            s.currentBusDirectionId ++ "&ReturnList=StopPointName,EstimatedTime")] } := by
  unfold ArrivalsLogic.fetchJourneyProgress
  rw [if_neg hne, getBusProgress_eq]
  rfl

/-- C19, as stated, fails: an arrivals cycle caches the direction id "1";
`stopJourneyProgressUpdate` then empties the cache, and the journey-progress request
issued for the vehicle set afterwards carries an empty DirectionID, not the id cached
by the most recent arrivals cycle. -/
theorem request_after_stop_has_empty_direction :
    (exampleState.onArrivalsDataReceived exampleDeps
        (some [versionAt 61000, arrivalAt (QJsonValue.double 1) 1000])).map
      (fun s => s.currentBusDirectionId) = some "1" ∧
    (exampleState.onArrivalsDataReceived exampleDeps
        (some [versionAt 61000, arrivalAt (QJsonValue.double 1) 1000])).map
      (fun s =>
        ((s.stopJourneyProgressUpdate.setCurrentVehicleId "LX07ABC").fetchJourneyProgress).effects.getLast?) =
      some (some (Effect.get
        "http://countdown.api.tfl.gov.uk/interfaces/ura/instant_V1?RegistrationNumber=LX07ABC&DirectionID=&ReturnList=StopPointName,EstimatedTime")) := by
  rw [arrivals_overdue_run]
  exact ⟨rfl, by decide⟩

/-- C19, amended: for every non-empty tracked-vehicle id v and cached direction id d,
`fetchJourneyProgress` sets the downloading flag and issues the GET of the base endpoint
followed by "RegistrationNumber=", v, "&DirectionID=", d and
"&ReturnList=StopPointName,EstimatedTime", where d is the current value of the cache:
right after an arrivals cycle that processed a data array it is the direction id of
the last array processed, and after `stopJourneyProgressUpdate` it is the empty
string. -/
theorem journey_progress_request_url (deps : Deps) (s s0 s1 : ArrivalsLogic)
    (version last : QJsonDocument) (rest : List QJsonDocument)
    (hne : s.currentVehicleId ≠ "")
    (hv : 3 ≤ version.array.length)
    (h : s0.onArrivalsDataReceived deps (some (version :: rest)) = some s1)
    (hlast : (reached 6 rest).getLast? = some last) :
    s.fetchJourneyProgress =
      { s with
        downloadingJourneyProgress := true
        effects := s.effects ++ [Effect.downloadStateChanged,
          Effect.get ("http://countdown.api.tfl.gov.uk/interfaces/ura/instant_V1?" ++
            "RegistrationNumber=" ++ s.currentVehicleId ++ "&DirectionID=" ++
            s.currentBusDirectionId ++ "&ReturnList=StopPointName,EstimatedTime")] } ∧
    (∀ v : String, v ≠ "" →
      ((s1.setCurrentVehicleId v).fetchJourneyProgress).effects =
        s1.effects ++ [Effect.downloadStateChanged,
          Effect.get ("http://countdown.api.tfl.gov.uk/interfaces/ura/instant_V1?" ++
            "RegistrationNumber=" ++ v ++ "&DirectionID=" ++
            QString.number deps.formatG (elem last.array 2).toDouble ++
            "&ReturnList=StopPointName,EstimatedTime")]) ∧
    (∀ v : String, v ≠ "" →
      ((s1.stopJourneyProgressUpdate.setCurrentVehicleId v).fetchJourneyProgress).effects =
        s1.effects ++ [Effect.downloadStateChanged,
          Effect.get ("http://countdown.api.tfl.gov.uk/interfaces/ura/instant_V1?" ++
            "RegistrationNumber=" ++ v ++ "&DirectionID=" ++ "" ++
            "&ReturnList=StopPointName,EstimatedTime")]) := by
  have hdir : s1.currentBusDirectionId =
      QString.number deps.formatG (elem last.array 2).toDouble := by
    rw [onArrivalsDataReceived_eq deps s0 version rest hv] at h
    split at h
    · simp only [Option.some.injEq] at h
      subst h
      show lastDirection deps s0.currentBusDirectionId (reached 6 rest) = _
      unfold lastDirection
      rw [hlast]
      rfl
    · simp at h
  refine ⟨fetchJourneyProgress_eq s hne, ?_, ?_⟩
  · intro v hvne
    have hne1 : (s1.setCurrentVehicleId v).currentVehicleId ≠ "" := hvne
    rw [fetchJourneyProgress_eq _ hne1]
    show s1.effects ++ [Effect.downloadStateChanged, Effect.get (_ ++ _ ++ v ++ _ ++
      s1.currentBusDirectionId ++ _)] = _
    rw [hdir]
  · intro v hvne
    have hne1 : (s1.stopJourneyProgressUpdate.setCurrentVehicleId v).currentVehicleId ≠ "" :=
      hvne
    rw [fetchJourneyProgress_eq _ hne1]
    rfl

theorem journey_progress_request_url_witness :
    (exampleState.setCurrentVehicleId "LX07ABC").fetchJourneyProgress =
      { exampleState.setCurrentVehicleId "LX07ABC" with
        downloadingJourneyProgress := true
        effects := (exampleState.setCurrentVehicleId "LX07ABC").effects ++
          [Effect.downloadStateChanged,
          Effect.get ("http://countdown.api.tfl.gov.uk/interfaces/ura/instant_V1?" ++
            "RegistrationNumber=" ++ (exampleState.setCurrentVehicleId "LX07ABC").currentVehicleId ++
            "&DirectionID=" ++
            (exampleState.setCurrentVehicleId "LX07ABC").currentBusDirectionId ++
            "&ReturnList=StopPointName,EstimatedTime")] } ∧
    (∀ v : String, v ≠ "" →
      ((({ arrivalsDone exampleState with
          currentBusDirectionId := "1"
          arrivalsContainer := { data := [{ exampleDeps.newVehicle with
            line := "N1", destination := "Waterloo", id := "LX07ABC", eta := -1 }] } } :
          ArrivalsLogic).setCurrentVehicleId v).fetchJourneyProgress).effects =
        ({ arrivalsDone exampleState with
          currentBusDirectionId := "1"
          arrivalsContainer := { data := [{ exampleDeps.newVehicle with
            line := "N1", destination := "Waterloo", id := "LX07ABC", eta := -1 }] } } :
          ArrivalsLogic).effects ++ [Effect.downloadStateChanged,
          Effect.get ("http://countdown.api.tfl.gov.uk/interfaces/ura/instant_V1?" ++
            "RegistrationNumber=" ++ v ++ "&DirectionID=" ++
            QString.number exampleDeps.formatG
              (elem (arrivalAt (QJsonValue.double 1) 1000).array 2).toDouble ++
            "&ReturnList=StopPointName,EstimatedTime")]) ∧
    (∀ v : String, v ≠ "" →
      ((({ arrivalsDone exampleState with
          currentBusDirectionId := "1"
          arrivalsContainer := { data := [{ exampleDeps.newVehicle with
            line := "N1", destination := "Waterloo", id := "LX07ABC", eta := -1 }] } } :
          ArrivalsLogic).stopJourneyProgressUpdate.setCurrentVehicleId v).fetchJourneyProgress).effects =
        ({ arrivalsDone exampleState with
          currentBusDirectionId := "1"
          arrivalsContainer := { data := [{ exampleDeps.newVehicle with
            line := "N1", destination := "Waterloo", id := "LX07ABC", eta := -1 }] } } :
          ArrivalsLogic).effects ++ [Effect.downloadStateChanged,
          Effect.get ("http://countdown.api.tfl.gov.uk/interfaces/ura/instant_V1?" ++
            "RegistrationNumber=" ++ v ++ "&DirectionID=" ++ "" ++
            "&ReturnList=StopPointName,EstimatedTime")]) :=
  journey_progress_request_url exampleDeps (exampleState.setCurrentVehicleId "LX07ABC")
    exampleState _ (versionAt 61000) (arrivalAt (QJsonValue.double 1) 1000)
    [arrivalAt (QJsonValue.double 1) 1000] (by decide) (by decide) arrivals_overdue_run rfl

/-! ## The station reference download -/

/-- C14, as stated, fails: the status 300 is not followed (nothing is requested), and
with the status 200 nothing is written or imported when `stations.csv` does not open
for writing. -/
theorem status_300_and_unopened_file_do_nothing :
    (exampleState.onStationsDownloaded (stationsReplyOf 300 true)).effects = [] ∧
    (exampleState.onStationsDownloaded (stationsReplyOf 200 false)).effects = [] := by
  constructor <;> decide

/-- C14, amended: `onStationsDownloaded` re-issues the GET once, at the resolved
redirect location, for every status code in 301..399; for every code in 200..299 it
writes the body to `stations.csv` in the data location (creating the directory when
it is missing) and invokes the store's import, provided the file opens for writing,
and writes and imports nothing when it does not open; for every code below 200 or from
400 on it writes, imports and requests nothing. -/
theorem stations_download_by_status (s : ArrivalsLogic) (redirect ok blocked other : StationsReply)
    (hredirect : 301 ≤ redirect.httpCode ∧ redirect.httpCode ≤ 399)
    (hok : 200 ≤ ok.httpCode ∧ ok.httpCode ≤ 299) (hopens : ok.opens = true)
    (hblocked : 200 ≤ blocked.httpCode ∧ blocked.httpCode ≤ 299)
    (hshut : blocked.opens = false)
    (hother : other.httpCode < 200 ∨ 400 ≤ other.httpCode) :
    s.onStationsDownloaded redirect =
      { s with effects := s.effects ++ [Effect.get redirect.resolvedUrl] } ∧
    (s.onStationsDownloaded ok).effects =
      (s.effects ++ (if ok.dirExists then [] else [Effect.mkpath ok.dataLocation])) ++
        [Effect.writeFile (ok.dataLocation ++ "/stations.csv") ok.body,
         Effect.importStations] ∧
    (s.onStationsDownloaded blocked).effects =
      s.effects ++ (if blocked.dirExists then [] else [Effect.mkpath blocked.dataLocation]) ∧
    s.onStationsDownloaded other = s := by
  refine ⟨?_, ?_, ?_, ?_⟩
  · have h1 : redirect.httpCode > 300 ∧ redirect.httpCode < 400 := by omega
    unfold ArrivalsLogic.onStationsDownloaded
    simp only [if_pos h1]
  · have h1 : ¬ (ok.httpCode > 300 ∧ ok.httpCode < 400) := by omega
    have h2 : ok.httpCode < 300 ∧ ok.httpCode ≥ 200 := by omega
    unfold ArrivalsLogic.onStationsDownloaded
    simp only [if_neg h1, if_pos h2, hopens]
    cases ok.dirExists <;> simp
  · have h1 : ¬ (blocked.httpCode > 300 ∧ blocked.httpCode < 400) := by omega
    have h2 : blocked.httpCode < 300 ∧ blocked.httpCode ≥ 200 := by omega
    unfold ArrivalsLogic.onStationsDownloaded
    simp only [if_neg h1, if_pos h2, hshut]
    cases blocked.dirExists <;> simp
  · have h1 : ¬ (other.httpCode > 300 ∧ other.httpCode < 400) := by omega
    have h2 : ¬ (other.httpCode < 300 ∧ other.httpCode ≥ 200) := by omega
    unfold ArrivalsLogic.onStationsDownloaded
    simp only [if_neg h1, if_neg h2]

theorem stations_download_by_status_witness :
    exampleState.onStationsDownloaded (stationsReplyOf 302 true) =
      { exampleState with
        effects := exampleState.effects ++ [Effect.get (stationsReplyOf 302 true).resolvedUrl] } ∧
    (exampleState.onStationsDownloaded (stationsReplyOf 200 true)).effects =
      (exampleState.effects ++
        (if (stationsReplyOf 200 true).dirExists then []
         else [Effect.mkpath (stationsReplyOf 200 true).dataLocation])) ++
        [Effect.writeFile ((stationsReplyOf 200 true).dataLocation ++ "/stations.csv")
          (stationsReplyOf 200 true).body,
         Effect.importStations] ∧
    (exampleState.onStationsDownloaded (stationsReplyOf 204 false)).effects =
      exampleState.effects ++
        (if (stationsReplyOf 204 false).dirExists then []
         else [Effect.mkpath (stationsReplyOf 204 false).dataLocation]) ∧
    exampleState.onStationsDownloaded (stationsReplyOf 404 true) = exampleState :=
  stations_download_by_status exampleState (stationsReplyOf 302 true) (stationsReplyOf 200 true)
    (stationsReplyOf 204 false) (stationsReplyOf 404 true)
    (by decide) (by decide) rfl (by decide) rfl (by decide)

/-! ## Requests in flight -/

theorem getCount_append (xs ys : List Effect) :
    getCount (xs ++ ys) = getCount xs + getCount ys := by
  unfold getCount
  rw [List.filter_append, List.length_append]

theorem fetchArrivalsData_effects (s : ArrivalsLogic) (h : s.currentStop.type ≠ StopType.None) :
    ∃ url, s.fetchArrivalsData.effects =
      s.effects ++ [Effect.downloadStateChanged, Effect.get url] := by
  unfold ArrivalsLogic.fetchArrivalsData
  cases ht : s.currentStop.type with
  | None => exact absurd ht h
  | Bus => exact ⟨_, rfl⟩
  | River => exact ⟨_, rfl⟩

theorem fetchArrivalsData_getCount (s : ArrivalsLogic) (h : s.currentStop.type ≠ StopType.None) :
    getCount s.fetchArrivalsData.effects - getCount s.effects = 1 := by
  obtain ⟨url, hu⟩ := fetchArrivalsData_effects s h
  rw [hu, getCount_append]
  have : getCount [Effect.downloadStateChanged, Effect.get url] = 1 := rfl
  omega

theorem steps_append (deps : Deps) (es fs : List Event) :
    ∀ r : Run, r.steps deps (es ++ fs) =
      match r.steps deps es with
      | none => none
      | some r1 => r1.steps deps fs := by
  induction es with
  | nil => intro r; rfl
  | cons e es ih =>
    intro r
    rw [List.cons_append, Run.steps, Run.steps]
    cases r.step deps e with
    | none => rfl
    | some r1 => exact ih r1

theorem steps_append_of (deps : Deps) (es fs : List Event) (r r1 : Run)
    (h : r.steps deps es = some r1) : r.steps deps (es ++ fs) = r1.steps deps fs := by
  rw [steps_append, h]

theorem steps_arrivalsFinished (deps : Deps) (r : Run) (reply : QNetworkReply)
    (l : ArrivalsLogic) (h0 : r.arrivalsOutstanding ≠ 0)
    (h : r.logic.onArrivalsDataReceived deps reply = some l) :
    r.steps deps [Event.arrivalsFinished reply] =
      some { r with logic := l, arrivalsOutstanding := r.arrivalsOutstanding - 1 } := by
  simp only [Run.steps, Run.step, if_neg h0, h]

/-- The orchestrator at stop A after an arrivals request, `stopArrivalsUpdate` and the
change of the current stop to B: the request for A is still in flight. -/
theorem stopped_and_moved_run :
    (runAtBusStop "A").steps exampleDeps
        [Event.startArrivalsUpdate, Event.stopArrivalsUpdate, Event.getBusStopByCode "B"] =
      some { logic := ((atBusStop "A").startArrivalsUpdate.stopArrivalsUpdate).getBusStopByCode "B",
             arrivalsOutstanding := 1, journeyProgressOutstanding := 0 } := by
  have hc : getCount (atBusStop "A").startArrivalsUpdate.effects -
      getCount (atBusStop "A").effects = 1 :=
    fetchArrivalsData_getCount (atBusStop "A") (by decide)
  simp only [Run.steps, Run.step, runAtBusStop, hc]

/-- C11, as stated, fails: an arrivals request is issued at stop A, `stopArrivalsUpdate`
empties the container and the current stop becomes B; when the reply to the request
for A finishes, its Vehicle is published although the current stop is B. -/
theorem stale_arrivals_response_repopulates :
    ((runAtBusStop "A").steps exampleDeps
        [Event.startArrivalsUpdate, Event.stopArrivalsUpdate, Event.getBusStopByCode "B"]).map
      (fun r => (r.logic.currentStop.id, r.logic.arrivalsContainer.data, r.arrivalsOutstanding)) =
      some ("B", [], 1) ∧
    ((runAtBusStop "A").steps exampleDeps
        ([Event.startArrivalsUpdate, Event.stopArrivalsUpdate, Event.getBusStopByCode "B"] ++
          [Event.arrivalsFinished
            (some [versionAt 1000, arrivalAt (QJsonValue.double 1) 61000])])).map
      (fun r => (r.logic.currentStop.id, r.logic.arrivalsContainer.data, r.arrivalsOutstanding)) =
      some ("B", [{ exampleDeps.newVehicle with
        line := "N1", destination := "Waterloo", id := "LX07ABC", eta := 1 }], 0) := by
  constructor
  · rw [stopped_and_moved_run]
    rfl
  · have h := arrivals_scenario_run exampleDeps
      (((atBusStop "A").startArrivalsUpdate.stopArrivalsUpdate).getBusStopByCode "B")
      (QJsonValue.double 4) (QJsonValue.string "1.0") (QJsonValue.double 1) (QJsonValue.double 1)
    rw [steps_append_of _ _ _ _ _ stopped_and_moved_run,
      steps_arrivalsFinished exampleDeps _ _ _ (by decide) h]
    rfl

/-- C11, amended: when an arrivals request has been issued, `stopArrivalsUpdate` has
emptied the container and the current stop has changed to B, the response that then
arrives is processed like any other: the container is replaced by the Vehicles mapped
from its data arrays (so it stays empty only when the response maps to no Vehicle),
and the current stop stays B. -/
theorem stale_response_is_applied (deps : Deps) (s : ArrivalsLogic) (codeB : String)
    (version : QJsonDocument) (rest : List QJsonDocument) (hv : 3 ≤ version.array.length)
    (hfit : ∀ d ∈ reached 6 rest, etaFits (elem version.array 2).toDouble d.array) :
    ((s.startArrivalsUpdate.stopArrivalsUpdate).getBusStopByCode codeB).arrivalsContainer.data =
      [] ∧
    ∃ s1,
      ((s.startArrivalsUpdate.stopArrivalsUpdate).getBusStopByCode codeB).onArrivalsDataReceived
        deps (some (version :: rest)) = some s1 ∧
      s1.arrivalsContainer.data =
        (reached 6 rest).map (fun d => vehicleOf deps (elem version.array 2).toDouble d.array) ∧
      s1.currentStop.id = codeB := by
  refine ⟨rfl, ?_⟩
  rw [onArrivalsDataReceived_eq deps _ version rest hv, if_pos hfit]
  exact ⟨_, rfl, rfl, rfl⟩

theorem stale_response_is_applied_witness :
    (((atBusStop "A").startArrivalsUpdate.stopArrivalsUpdate).getBusStopByCode
      "B").arrivalsContainer.data = [] ∧
    ∃ s1,
      (((atBusStop "A").startArrivalsUpdate.stopArrivalsUpdate).getBusStopByCode
        "B").onArrivalsDataReceived exampleDeps
          (some (versionAt 1000 :: [arrivalAt (QJsonValue.double 1) 61000])) = some s1 ∧
      s1.arrivalsContainer.data =
        (reached 6 [arrivalAt (QJsonValue.double 1) 61000]).map
          (fun d => vehicleOf exampleDeps (elem (versionAt 1000).array 2).toDouble d.array) ∧
      s1.currentStop.id = "B" :=
  stale_response_is_applied exampleDeps (atBusStop "A") "B" (versionAt 1000)
    [arrivalAt (QJsonValue.double 1) 61000] (by decide)
    (by
      intro d hd
      rw [reached_cons_long 6 _ [] (by decide), reached_nil, List.mem_singleton] at hd
      subst hd
      exact etaFits_arrivalAt_61000 _)

/-- C12, as stated, fails: at a bus stop, `startArrivalsUpdate` followed by a timeout of
the arrivals timer before any reply has finished leaves two arrivals requests in
flight. -/
theorem tick_before_reply_leaves_two_in_flight :
    ((runAtBusStop "A").steps exampleDeps
        [Event.startArrivalsUpdate, Event.arrivalsTimeout]).map
      (fun r => (r.arrivalsOutstanding, getCount r.logic.effects)) = some (2, 2) := by
  have hc : getCount (atBusStop "A").startArrivalsUpdate.effects -
      getCount (atBusStop "A").effects = 1 :=
    fetchArrivalsData_getCount (atBusStop "A") (by decide)
  have hc2 : getCount (atBusStop "A").startArrivalsUpdate.fetchArrivalsData.effects -
      getCount (atBusStop "A").startArrivalsUpdate.effects = 1 :=
    fetchArrivalsData_getCount (atBusStop "A").startArrivalsUpdate (by decide)
  have ha : (atBusStop "A").startArrivalsUpdate.arrivalsTimer.active = true := rfl
  simp only [Run.steps, Run.step, runAtBusStop, hc, hc2, ha, if_true, Option.map_some']
  rfl

theorem fetchArrivalsData_getCount_add (s : ArrivalsLogic)
    (h : s.currentStop.type ≠ StopType.None) :
    getCount s.fetchArrivalsData.effects = getCount s.effects + 1 := by
  obtain ⟨url, hu⟩ := fetchArrivalsData_effects s h
  rw [hu, getCount_append]
  rfl

theorem fetchJourneyProgress_getCount_add (s : ArrivalsLogic) (h : s.currentVehicleId ≠ "") :
    getCount s.fetchJourneyProgress.effects = getCount s.effects + 1 := by
  have hu : ∃ url, s.fetchJourneyProgress.effects =
      s.effects ++ [Effect.downloadStateChanged, Effect.get url] := by
    unfold ArrivalsLogic.fetchJourneyProgress
    rw [if_neg h]
    exact ⟨_, rfl⟩
  obtain ⟨url, hu⟩ := hu
  rw [hu, getCount_append]
  rfl

theorem fetchArrivalsData_currentStop (s : ArrivalsLogic) :
    s.fetchArrivalsData.currentStop = s.currentStop := by
  unfold ArrivalsLogic.fetchArrivalsData
  cases s.currentStop.type <;> rfl

theorem fetchJourneyProgress_currentVehicleId (s : ArrivalsLogic) :
    s.fetchJourneyProgress.currentVehicleId = s.currentVehicleId := by
  unfold ArrivalsLogic.fetchJourneyProgress
  split <;> rfl

theorem step_startArrivalsUpdate (deps : Deps) (r : Run)
    (hstop : r.logic.currentStop.type ≠ StopType.None) :
    ∃ r1, r.step deps Event.startArrivalsUpdate = some r1 ∧
      getCount r1.logic.effects = getCount r.logic.effects + 1 ∧
      r1.arrivalsOutstanding = r.arrivalsOutstanding + 1 ∧
      r1.journeyProgressOutstanding = r.journeyProgressOutstanding ∧
      r1.logic.arrivalsTimer.active = true ∧
      r1.logic.currentStop = r.logic.currentStop := by
  have hA := fetchArrivalsData_getCount_add r.logic hstop
  have hA1 : getCount r.logic.startArrivalsUpdate.effects = getCount r.logic.effects + 1 := hA
  refine ⟨_, rfl, hA1, ?_, rfl, rfl, fetchArrivalsData_currentStop r.logic⟩
  show r.arrivalsOutstanding +
    (getCount r.logic.startArrivalsUpdate.effects - getCount r.logic.effects) = _
  rw [hA1]
  omega

theorem step_arrivalsTimeout (deps : Deps) (r : Run)
    (hstop : r.logic.currentStop.type ≠ StopType.None)
    (harmed : r.logic.arrivalsTimer.active = true) :
    ∃ r1, r.step deps Event.arrivalsTimeout = some r1 ∧
      getCount r1.logic.effects = getCount r.logic.effects + 1 ∧
      r1.arrivalsOutstanding = r.arrivalsOutstanding + 1 ∧
      r1.journeyProgressOutstanding = r.journeyProgressOutstanding := by
  have hA := fetchArrivalsData_getCount_add r.logic hstop
  refine ⟨{ r with logic := r.logic.fetchArrivalsData,
                   arrivalsOutstanding := r.arrivalsOutstanding +
                     (getCount r.logic.fetchArrivalsData.effects -
                       getCount r.logic.effects) }, ?_, hA, ?_, rfl⟩
  · simp only [Run.step, harmed, if_true]
  · show r.arrivalsOutstanding +
      (getCount r.logic.fetchArrivalsData.effects - getCount r.logic.effects) = _
    rw [hA]
    omega

theorem step_startJourneyProgressUpdate (deps : Deps) (r : Run)
    (hvehicle : r.logic.currentVehicleId ≠ "") :
    ∃ r1, r.step deps Event.startJourneyProgressUpdate = some r1 ∧
      getCount r1.logic.effects = getCount r.logic.effects + 1 ∧
      r1.journeyProgressOutstanding = r.journeyProgressOutstanding + 1 ∧
      r1.arrivalsOutstanding = r.arrivalsOutstanding ∧
      r1.logic.journeyProgressTimer.active = true ∧
      r1.logic.currentVehicleId = r.logic.currentVehicleId := by
  have hJ := fetchJourneyProgress_getCount_add r.logic hvehicle
  have hJ1 : getCount r.logic.startJourneyProgressUpdate.effects =
      getCount r.logic.effects + 1 := hJ
  refine ⟨_, rfl, hJ1, ?_, rfl, rfl, fetchJourneyProgress_currentVehicleId r.logic⟩
  show r.journeyProgressOutstanding +
    (getCount r.logic.startJourneyProgressUpdate.effects - getCount r.logic.effects) = _
  rw [hJ1]
  omega

theorem step_journeyProgressTimeout (deps : Deps) (r : Run)
    (hvehicle : r.logic.currentVehicleId ≠ "")
    (harmedJ : r.logic.journeyProgressTimer.active = true) :
    ∃ r1, r.step deps Event.journeyProgressTimeout = some r1 ∧
      getCount r1.logic.effects = getCount r.logic.effects + 1 ∧
      r1.journeyProgressOutstanding = r.journeyProgressOutstanding + 1 ∧
      r1.arrivalsOutstanding = r.arrivalsOutstanding := by
  have hJ := fetchJourneyProgress_getCount_add r.logic hvehicle
  refine ⟨{ r with logic := r.logic.fetchJourneyProgress,
                   journeyProgressOutstanding := r.journeyProgressOutstanding +
                     (getCount r.logic.fetchJourneyProgress.effects -
                       getCount r.logic.effects) }, ?_, hJ, ?_, rfl⟩
  · simp only [Run.step, harmedJ, if_true]
  · show r.journeyProgressOutstanding +
      (getCount r.logic.fetchJourneyProgress.effects - getCount r.logic.effects) = _
    rw [hJ]
    omega

theorem steps_two (deps : Deps) (r r1 r2 : Run) (e1 e2 : Event)
    (h1 : r.step deps e1 = some r1) (h2 : r1.step deps e2 = some r2) :
    r.steps deps [e1, e2] = some r2 := by
  simp only [Run.steps, h1, h2]

/-- C12, amended: the orchestrator does not look at the requests in flight.  In every
state, whatever the number of requests outstanding: when the current Stop's kind is Bus
or River, a call of `startArrivalsUpdate` issues one arrivals request, and so does a
timeout of the arrivals timer when that timer is armed; when the tracked-vehicle id is
not empty, a call of `startJourneyProgressUpdate` issues one journey-progress request,
and so does a timeout of the journey-progress timer when that timer is armed; each such
request joins those outstanding of its stream.  The stop calls issue no request and
leave the requests outstanding as they are.  A start call followed by a timeout of the
stream's timer, no reply finishing in between, therefore adds two requests to those
outstanding of the stream. -/
theorem every_tick_or_start_issues_a_request (deps : Deps) (r : Run) :
    (r.logic.currentStop.type ≠ StopType.None →
      ∃ r1, r.step deps Event.startArrivalsUpdate = some r1 ∧
        getCount r1.logic.effects = getCount r.logic.effects + 1 ∧
        r1.arrivalsOutstanding = r.arrivalsOutstanding + 1 ∧
        r1.journeyProgressOutstanding = r.journeyProgressOutstanding) ∧
    (r.logic.currentStop.type ≠ StopType.None → r.logic.arrivalsTimer.active = true →
      ∃ r1, r.step deps Event.arrivalsTimeout = some r1 ∧
        getCount r1.logic.effects = getCount r.logic.effects + 1 ∧
        r1.arrivalsOutstanding = r.arrivalsOutstanding + 1 ∧
        r1.journeyProgressOutstanding = r.journeyProgressOutstanding) ∧
    (r.logic.currentVehicleId ≠ "" →
      ∃ r1, r.step deps Event.startJourneyProgressUpdate = some r1 ∧
        getCount r1.logic.effects = getCount r.logic.effects + 1 ∧
        r1.journeyProgressOutstanding = r.journeyProgressOutstanding + 1 ∧
        r1.arrivalsOutstanding = r.arrivalsOutstanding) ∧
    (r.logic.currentVehicleId ≠ "" → r.logic.journeyProgressTimer.active = true →
      ∃ r1, r.step deps Event.journeyProgressTimeout = some r1 ∧
        getCount r1.logic.effects = getCount r.logic.effects + 1 ∧
        r1.journeyProgressOutstanding = r.journeyProgressOutstanding + 1 ∧
        r1.arrivalsOutstanding = r.arrivalsOutstanding) ∧
    (∃ r1, r.step deps Event.stopArrivalsUpdate = some r1 ∧
      getCount r1.logic.effects = getCount r.logic.effects ∧
      r1.arrivalsOutstanding = r.arrivalsOutstanding ∧
      r1.journeyProgressOutstanding = r.journeyProgressOutstanding) ∧
    (∃ r1, r.step deps Event.stopJourneyProgressUpdate = some r1 ∧
      getCount r1.logic.effects = getCount r.logic.effects ∧
      r1.arrivalsOutstanding = r.arrivalsOutstanding ∧
      r1.journeyProgressOutstanding = r.journeyProgressOutstanding) ∧
    (r.logic.currentStop.type ≠ StopType.None →
      ∃ r2, r.steps deps [Event.startArrivalsUpdate, Event.arrivalsTimeout] = some r2 ∧
        getCount r2.logic.effects = getCount r.logic.effects + 2 ∧
        r2.arrivalsOutstanding = r.arrivalsOutstanding + 2) ∧
    (r.logic.currentVehicleId ≠ "" →
      ∃ r2, r.steps deps
          [Event.startJourneyProgressUpdate, Event.journeyProgressTimeout] = some r2 ∧
        getCount r2.logic.effects = getCount r.logic.effects + 2 ∧
        r2.journeyProgressOutstanding = r.journeyProgressOutstanding + 2) := by
  refine ⟨?_, ?_, ?_, ?_, ⟨_, rfl, rfl, rfl, rfl⟩, ⟨_, rfl, rfl, rfl, rfl⟩, ?_, ?_⟩
  · intro hstop
    obtain ⟨r1, h1, h2, h3, h4, -, -⟩ := step_startArrivalsUpdate deps r hstop
    exact ⟨r1, h1, h2, h3, h4⟩
  · intro hstop harmed
    exact step_arrivalsTimeout deps r hstop harmed
  · intro hvehicle
    obtain ⟨r1, h1, h2, h3, h4, -, -⟩ := step_startJourneyProgressUpdate deps r hvehicle
    exact ⟨r1, h1, h2, h3, h4⟩
  · intro hvehicle harmedJ
    exact step_journeyProgressTimeout deps r hvehicle harmedJ
  · intro hstop
    obtain ⟨r1, h1, h2, h3, -, h5, h6⟩ := step_startArrivalsUpdate deps r hstop
    obtain ⟨r2, k1, k2, k3, -⟩ := step_arrivalsTimeout deps r1 (by rw [h6]; exact hstop) h5
    exact ⟨r2, steps_two deps r r1 r2 _ _ h1 k1, by omega, by omega⟩
  · intro hvehicle
    obtain ⟨r1, h1, h2, h3, -, h5, h6⟩ := step_startJourneyProgressUpdate deps r hvehicle
    obtain ⟨r2, k1, k2, k3, -⟩ :=
      step_journeyProgressTimeout deps r1 (by rw [h6]; exact hvehicle) h5
    exact ⟨r2, steps_two deps r r1 r2 _ _ h1 k1, by omega, by omega⟩

theorem every_tick_or_start_issues_a_request_witness :
    (∃ r1, (runAtBusStop "A").step exampleDeps Event.startArrivalsUpdate = some r1 ∧
      getCount r1.logic.effects = getCount (runAtBusStop "A").logic.effects + 1 ∧
      r1.arrivalsOutstanding = (runAtBusStop "A").arrivalsOutstanding + 1 ∧
      r1.journeyProgressOutstanding = (runAtBusStop "A").journeyProgressOutstanding) ∧
    (∃ r1, runAfterStart.step exampleDeps Event.arrivalsTimeout = some r1 ∧
      getCount r1.logic.effects = getCount runAfterStart.logic.effects + 1 ∧
      r1.arrivalsOutstanding = runAfterStart.arrivalsOutstanding + 1 ∧
      r1.journeyProgressOutstanding = runAfterStart.journeyProgressOutstanding) ∧
    (∃ r1, runTracking.step exampleDeps Event.startJourneyProgressUpdate = some r1 ∧
      getCount r1.logic.effects = getCount runTracking.logic.effects + 1 ∧
      r1.journeyProgressOutstanding = runTracking.journeyProgressOutstanding + 1 ∧
      r1.arrivalsOutstanding = runTracking.arrivalsOutstanding) ∧
    (∃ r1, runTracking.step exampleDeps Event.journeyProgressTimeout = some r1 ∧
      getCount r1.logic.effects = getCount runTracking.logic.effects + 1 ∧
      r1.journeyProgressOutstanding = runTracking.journeyProgressOutstanding + 1 ∧
      r1.arrivalsOutstanding = runTracking.arrivalsOutstanding) ∧
    (∃ r2, (runAtBusStop "A").steps exampleDeps
        [Event.startArrivalsUpdate, Event.arrivalsTimeout] = some r2 ∧
      getCount r2.logic.effects = getCount (runAtBusStop "A").logic.effects + 2 ∧
      r2.arrivalsOutstanding = (runAtBusStop "A").arrivalsOutstanding + 2) ∧
    (∃ r2, runTracking.steps exampleDeps
        [Event.startJourneyProgressUpdate, Event.journeyProgressTimeout] = some r2 ∧
      getCount r2.logic.effects = getCount runTracking.logic.effects + 2 ∧
      r2.journeyProgressOutstanding = runTracking.journeyProgressOutstanding + 2) :=
  ⟨(every_tick_or_start_issues_a_request exampleDeps (runAtBusStop "A")).1 (by decide),
   (every_tick_or_start_issues_a_request exampleDeps runAfterStart).2.1 (by decide) rfl,
   (every_tick_or_start_issues_a_request exampleDeps runTracking).2.2.1 (by decide),
   (every_tick_or_start_issues_a_request exampleDeps runTracking).2.2.2.1 (by decide) rfl,
   (every_tick_or_start_issues_a_request exampleDeps (runAtBusStop "A")).2.2.2.2.2.2.1
     (by decide),
   (every_tick_or_start_issues_a_request exampleDeps runTracking).2.2.2.2.2.2.2
     (by decide)⟩

/-! ## The message text over several cycles -/

theorem onBusStopMessageReceived_appends (s s1 : ArrivalsLogic) (reply : QNetworkReply)
    (h : s.onBusStopMessageReceived reply = some s1) :
    s1.currentStopMessages = s.currentStopMessages ++ rendering reply := by
  cases reply with
  | none =>
    have e : s.onBusStopMessageReceived none = some s := rfl
    rw [e, Option.some.injEq] at h
    subst h
    exact (String.append_empty _).symm
  | some lines =>
    cases lines with
    | nil =>
      have e : s.onBusStopMessageReceived (some []) = some s := rfl
      rw [e, Option.some.injEq] at h
      subst h
      exact (String.append_empty _).symm
    | cons version rest =>
      by_cases hv : 3 ≤ version.array.length
      · rw [onBusStopMessageReceived_text s s1 version rest hv h]
        unfold rendering
        simp only [makeDocument, if_pos hv]
      · have hn : noUsableVersion (some (version :: rest)) := by
          show version.array.length < 3
          omega
        rw [onBusStopMessageReceived_noVersion s _ hn, Option.some.injEq] at h
        subst h
        unfold rendering
        simp only [makeDocument, if_neg hv]
        exact (String.append_empty _).symm

theorem onBusStopMessageReceived_returns_again (s s1 t : ArrivalsLogic) (reply : QNetworkReply)
    (h : s.onBusStopMessageReceived reply = some s1) :
    ∃ t1, t.onBusStopMessageReceived reply = some t1 := by
  cases reply with
  | none => exact ⟨t, rfl⟩
  | some lines =>
    cases lines with
    | nil => exact ⟨t, rfl⟩
    | cons version rest =>
      by_cases hv : 3 ≤ version.array.length
      · rw [onBusStopMessageReceived_eq s version rest hv] at h
        rw [onBusStopMessageReceived_eq t version rest hv]
        by_cases hf : ∀ d ∈ reached 5 rest, priorityFits d.array
        · rw [if_pos hf]
          exact ⟨_, rfl⟩
        · rw [if_neg hf] at h
          cases h
      · have hn : noUsableVersion (some (version :: rest)) := by
          show version.array.length < 3
          omega
        exact ⟨t, onBusStopMessageReceived_noVersion t _ hn⟩

/-- C21: a messages cycle appends to the current-stop message text: the text after the
cycle is the prior text followed by the rendering of the response; a second cycle with
the same response, with no `clearCurrentStop` in between, returns as well and leaves
the prior text followed by the rendering twice; `clearCurrentStop` leaves the text
empty. -/
theorem message_text_is_appended (deps : Deps) (s s1 : ArrivalsLogic) (reply : QNetworkReply)
    (h : s.onBusStopMessageReceived reply = some s1) :
    s1.currentStopMessages = s.currentStopMessages ++ rendering reply ∧
    (∃ s2, s1.onBusStopMessageReceived reply = some s2 ∧
      s2.currentStopMessages = (s.currentStopMessages ++ rendering reply) ++ rendering reply) ∧
    (s1.clearCurrentStop deps).currentStopMessages = "" ∧
    (∀ s2, (s1.clearCurrentStop deps).onBusStopMessageReceived reply = some s2 →
      s2.currentStopMessages = rendering reply) := by
  have h1 := onBusStopMessageReceived_appends s s1 reply h
  refine ⟨h1, ?_, rfl, ?_⟩
  · obtain ⟨s2, h2⟩ := onBusStopMessageReceived_returns_again s s1 s1 reply h
    refine ⟨s2, h2, ?_⟩
    rw [onBusStopMessageReceived_appends s1 s2 reply h2, h1]
  · intro s2 h2
    rw [onBusStopMessageReceived_appends _ s2 reply h2]
    exact String.empty_append _

theorem message_text_is_appended_witness :
    (exampleState.fillCurrentStopMessages
        (collect 100 [messageAt 1 "A" 0 200, messageAt 1 "B" 0 200] [])).currentStopMessages =
      exampleState.currentStopMessages ++
        rendering (some [versionAt 100, messageAt 1 "A" 0 200, messageAt 1 "B" 0 200]) ∧
    (∃ s2, (exampleState.fillCurrentStopMessages
        (collect 100 [messageAt 1 "A" 0 200, messageAt 1 "B" 0 200] [])).onBusStopMessageReceived
          (some [versionAt 100, messageAt 1 "A" 0 200, messageAt 1 "B" 0 200]) = some s2 ∧
      s2.currentStopMessages =
        (exampleState.currentStopMessages ++
          rendering (some [versionAt 100, messageAt 1 "A" 0 200, messageAt 1 "B" 0 200])) ++
          rendering (some [versionAt 100, messageAt 1 "A" 0 200, messageAt 1 "B" 0 200])) ∧
    ((exampleState.fillCurrentStopMessages
        (collect 100 [messageAt 1 "A" 0 200, messageAt 1 "B" 0 200] [])).clearCurrentStop
          exampleDeps).currentStopMessages = "" ∧
    (∀ s2, ((exampleState.fillCurrentStopMessages
        (collect 100 [messageAt 1 "A" 0 200, messageAt 1 "B" 0 200] [])).clearCurrentStop
          exampleDeps).onBusStopMessageReceived
          (some [versionAt 100, messageAt 1 "A" 0 200, messageAt 1 "B" 0 200]) = some s2 →
      s2.currentStopMessages =
        rendering (some [versionAt 100, messageAt 1 "A" 0 200, messageAt 1 "B" 0 200])) :=
  message_text_is_appended exampleDeps exampleState _
    (some [versionAt 100, messageAt 1 "A" 0 200, messageAt 1 "B" 0 200])
    messages_same_band_run.1

/-- C22: after a messages cycle the text is the prior text followed by the bulleted
texts of the shown records; a record reached by the loop whose priority, truncated to
an integer, is below 0 or above 5 is not among them, whether or not its active window
contains the server time; every shown record has a priority in 0..5; and when all
records reached have a priority outside 0..5 the text is left as it was. -/
theorem bands_outside_zero_to_five_hidden (s s1 : ArrivalsLogic) (version : QJsonDocument)
    (rest : List QJsonDocument) (hv : 3 ≤ version.array.length)
    (h : s.onBusStopMessageReceived (some (version :: rest)) = some s1) :
    s1.currentStopMessages = s.currentStopMessages ++
      bulleted ((shownRecords (elem version.array 2).toDouble (reached 5 rest)).map
        (fun d => (elem d.array 2).toString)) ∧
    (∀ d ∈ reached 5 rest,
      (truncate (elem d.array 1).toDouble < 0 ∨ 5 < truncate (elem d.array 1).toDouble) →
      d ∉ shownRecords (elem version.array 2).toDouble (reached 5 rest)) ∧
    (∀ d ∈ shownRecords (elem version.array 2).toDouble (reached 5 rest),
      0 ≤ truncate (elem d.array 1).toDouble ∧ truncate (elem d.array 1).toDouble ≤ 5) ∧
    ((∀ d ∈ reached 5 rest,
        truncate (elem d.array 1).toDouble < 0 ∨ 5 < truncate (elem d.array 1).toDouble) →
      s1.currentStopMessages = s.currentStopMessages) := by
  have htext := onBusStopMessageReceived_text s s1 version rest hv h
  have hout : ∀ d ∈ reached 5 rest,
      (truncate (elem d.array 1).toDouble < 0 ∨ 5 < truncate (elem d.array 1).toDouble) →
      d ∉ shownRecords (elem version.array 2).toDouble (reached 5 rest) := by
    intro d _ hp hmem
    have hm := (mem_shownRecords _ _ d).mp hmem
    have h0 : 0 ≤ truncate (elem d.array 1).toDouble := hm.2.2.1
    have h5 : truncate (elem d.array 1).toDouble ≤ 5 := hm.2.2.2
    omega
  refine ⟨htext, hout, ?_, ?_⟩
  · intro d hmem
    have hm := (mem_shownRecords _ _ d).mp hmem
    exact ⟨hm.2.2.1, hm.2.2.2⟩
  · intro hall
    have hnil : shownRecords (elem version.array 2).toDouble (reached 5 rest) = [] := by
      apply List.eq_nil_iff_forall_not_mem.mpr
      intro d hmem
      have hd : d ∈ reached 5 rest := ((mem_shownRecords _ _ d).mp hmem).1
      exact hout d hd (hall d hd) hmem
    rw [htext, hnil]
    exact String.append_empty _

theorem bands_outside_zero_to_five_hidden_witness :
    (exampleState.fillCurrentStopMessages
        (collect 100 [messageAt 7 "Strike" 0 200] [])).currentStopMessages =
      exampleState.currentStopMessages ++
        bulleted ((shownRecords (elem (versionAt 100).array 2).toDouble
          (reached 5 [messageAt 7 "Strike" 0 200])).map (fun d => (elem d.array 2).toString)) ∧
    (∀ d ∈ reached 5 [messageAt 7 "Strike" 0 200],
      (truncate (elem d.array 1).toDouble < 0 ∨ 5 < truncate (elem d.array 1).toDouble) →
      d ∉ shownRecords (elem (versionAt 100).array 2).toDouble
        (reached 5 [messageAt 7 "Strike" 0 200])) ∧
    (∀ d ∈ shownRecords (elem (versionAt 100).array 2).toDouble
        (reached 5 [messageAt 7 "Strike" 0 200]),
      0 ≤ truncate (elem d.array 1).toDouble ∧ truncate (elem d.array 1).toDouble ≤ 5) ∧
    ((∀ d ∈ reached 5 [messageAt 7 "Strike" 0 200],
        truncate (elem d.array 1).toDouble < 0 ∨ 5 < truncate (elem d.array 1).toDouble) →
      (exampleState.fillCurrentStopMessages
        (collect 100 [messageAt 7 "Strike" 0 200] [])).currentStopMessages =
        exampleState.currentStopMessages) :=
  bands_outside_zero_to_five_hidden exampleState _ (versionAt 100)
    [messageAt 7 "Strike" 0 200] (by decide) messages_band_seven_run.1

/-! ## What the stop calls leave alone -/

theorem fetchArrivalsData_frame (s : ArrivalsLogic) :
    s.fetchArrivalsData.arrivalsTimer = s.arrivalsTimer ∧
    s.fetchArrivalsData.journeyProgressTimer = s.journeyProgressTimer ∧
    s.fetchArrivalsData.displayTimer = s.displayTimer ∧
    s.fetchArrivalsData.arrivalsContainer = s.arrivalsContainer ∧
    s.fetchArrivalsData.journeyProgressContainer = s.journeyProgressContainer := by
  unfold ArrivalsLogic.fetchArrivalsData
  cases s.currentStop.type <;> exact ⟨rfl, rfl, rfl, rfl, rfl⟩

theorem fetchJourneyProgress_frame (s : ArrivalsLogic) :
    s.fetchJourneyProgress.arrivalsTimer = s.arrivalsTimer ∧
    s.fetchJourneyProgress.journeyProgressTimer = s.journeyProgressTimer ∧
    s.fetchJourneyProgress.displayTimer = s.displayTimer ∧
    s.fetchJourneyProgress.arrivalsContainer = s.arrivalsContainer ∧
    s.fetchJourneyProgress.journeyProgressContainer = s.journeyProgressContainer := by
  unfold ArrivalsLogic.fetchJourneyProgress
  split <;> exact ⟨rfl, rfl, rfl, rfl, rfl⟩

theorem started_both (s : ArrivalsLogic) :
    (s.startArrivalsUpdate.startJourneyProgressUpdate).arrivalsTimer =
      { active := true, interval := 30000 } ∧
    (s.startArrivalsUpdate.startJourneyProgressUpdate).journeyProgressTimer =
      { active := true, interval := 30000 } ∧
    (s.startArrivalsUpdate.startJourneyProgressUpdate).displayTimer =
      { active := true, interval := 16 } ∧
    (s.startArrivalsUpdate.startJourneyProgressUpdate).arrivalsContainer =
      s.arrivalsContainer ∧
    (s.startArrivalsUpdate.startJourneyProgressUpdate).journeyProgressContainer =
      s.journeyProgressContainer := by
  have hA := fetchArrivalsData_frame s
  have hJ := fetchJourneyProgress_frame s.startArrivalsUpdate
  refine ⟨?_, rfl, rfl, ?_, ?_⟩
  · show (s.startArrivalsUpdate.fetchJourneyProgress).arrivalsTimer = _
    rw [hJ.1]
    rfl
  · show (s.startArrivalsUpdate.fetchJourneyProgress).arrivalsContainer = _
    rw [hJ.2.2.2.1]
    exact hA.2.2.2.1
  · show (s.startArrivalsUpdate.fetchJourneyProgress).journeyProgressContainer = _
    rw [hJ.2.2.2.2]
    exact hA.2.2.2.2

/-- C23: the two poll streams share the display-refresh timer.  After
`startArrivalsUpdate` and `startJourneyProgressUpdate` all three timers are armed; a
`stopArrivalsUpdate` then leaves the journey-progress timer armed and the
journey-progress container as it was but the display-refresh timer inactive, and a
`stopJourneyProgressUpdate` instead leaves the arrivals timer armed and the arrivals
container as it was but the display-refresh timer inactive; this holds from every
state, with a vehicle id set or not. -/
theorem stopping_one_stream_stops_display_timer (s : ArrivalsLogic) :
    ((s.startArrivalsUpdate.startJourneyProgressUpdate).arrivalsTimer.active = true ∧
      (s.startArrivalsUpdate.startJourneyProgressUpdate).journeyProgressTimer.active = true ∧
      (s.startArrivalsUpdate.startJourneyProgressUpdate).displayTimer.active = true) ∧
    ((s.startArrivalsUpdate.startJourneyProgressUpdate).stopArrivalsUpdate.journeyProgressTimer =
        { active := true, interval := 30000 } ∧
      (s.startArrivalsUpdate.startJourneyProgressUpdate).stopArrivalsUpdate.journeyProgressContainer =
        (s.startArrivalsUpdate.startJourneyProgressUpdate).journeyProgressContainer ∧
      (s.startArrivalsUpdate.startJourneyProgressUpdate).stopArrivalsUpdate.displayTimer.active =
        false) ∧
    ((s.startArrivalsUpdate.startJourneyProgressUpdate).stopJourneyProgressUpdate.arrivalsTimer =
        { active := true, interval := 30000 } ∧
      (s.startArrivalsUpdate.startJourneyProgressUpdate).stopJourneyProgressUpdate.arrivalsContainer =
        (s.startArrivalsUpdate.startJourneyProgressUpdate).arrivalsContainer ∧
      (s.startArrivalsUpdate.startJourneyProgressUpdate).stopJourneyProgressUpdate.displayTimer.active =
        false) ∧
    (∀ t : ArrivalsLogic,
      t.stopArrivalsUpdate.journeyProgressTimer = t.journeyProgressTimer ∧
      t.stopArrivalsUpdate.journeyProgressContainer = t.journeyProgressContainer ∧
      t.stopJourneyProgressUpdate.arrivalsTimer = t.arrivalsTimer ∧
      t.stopJourneyProgressUpdate.arrivalsContainer = t.arrivalsContainer) := by
  have hs := started_both s
  refine ⟨⟨?_, ?_, ?_⟩, ⟨?_, rfl, rfl⟩, ⟨?_, rfl, rfl⟩, fun t => ⟨rfl, rfl, rfl, rfl⟩⟩
  · rw [hs.1]
  · rw [hs.2.1]
  · rw [hs.2.2.1]
  · show (s.startArrivalsUpdate.startJourneyProgressUpdate).journeyProgressTimer = _
    exact hs.2.1
  · show (s.startArrivalsUpdate.startJourneyProgressUpdate).arrivalsTimer = _
    exact hs.1

/-- C24: `stopJourneyProgressUpdate` leaves the tracked-vehicle id and the cached
direction id empty and the journey-progress container empty, so that a
`fetchJourneyProgress` right after it issues no request and changes nothing;
`stopArrivalsUpdate` leaves the current Stop and the cached direction id as they
were. -/
theorem stop_journey_progress_resets_ids (s : ArrivalsLogic) :
    (s.stopJourneyProgressUpdate.currentVehicleId = "" ∧
      s.stopJourneyProgressUpdate.currentBusDirectionId = "" ∧
      s.stopJourneyProgressUpdate.journeyProgressContainer.data = []) ∧
    (s.stopJourneyProgressUpdate.fetchJourneyProgress = s.stopJourneyProgressUpdate ∧
      s.stopJourneyProgressUpdate.fetchJourneyProgress.effects = s.effects) ∧
    (s.stopArrivalsUpdate.currentStop = s.currentStop ∧
      s.stopArrivalsUpdate.currentBusDirectionId = s.currentBusDirectionId) := by
  have hf : s.stopJourneyProgressUpdate.fetchJourneyProgress = s.stopJourneyProgressUpdate := by
    have hid : s.stopJourneyProgressUpdate.currentVehicleId = "" := rfl
    unfold ArrivalsLogic.fetchJourneyProgress
    rw [if_pos hid]
  refine ⟨⟨rfl, rfl, rfl⟩, ⟨hf, ?_⟩, ⟨rfl, rfl⟩⟩
  rw [hf]
  rfl

end LondonSail
